import Mathlib

/-!
# WavefrontOBJ: a shallow embedding of `objparser.h` / `objparser.cpp`

The loader `OBJ::OBJ(const std::string&)`, its helpers (`ReadLine`, `AddError`,
`AddWarning`, `ReadParams`, `CreateArrayFromList`) and the public operations
(`HasErrors`, `DumpErrors`, `DumpWarnings`, `Reverse`) are rendered as pure functions.

Conventions of the embedding:

* a `std::string` is the list of its characters (`Str`);
* `std::string::npos` is `none`; a position is a natural number;
* an `int` is an `Int`; the places where the source narrows a wider value to `int`
  (`atoi`, stream extraction) go through `toInt32`; list sizes are taken to fit an `int`,
  as the casts `(int)list.size()` of the source assume;
* a `float` is its sign bit and its remaining 31 bits, so that unary minus is exact;
* a heap array is `Option (List _)`: `none` is the null pointer; reading or writing
  outside an array, dereferencing `front()` of an empty list or an end iterator have no
  defined result and are rendered as `none` of the enclosing `Option`;
* the file system and the extraction of `float`s from a stream are the two parameters of
  the loader (`Env`).
-/

namespace WavefrontOBJ

/-! ## Strings, numbers, floats -/

/-- A `std::string`. -/
abbrev Str := List Char

/-- The C locale's `isspace`. -/
def isspace (c : Char) : Bool :=
  c = ' ' || c = '\t' || c = '\n' || c = '\x0b' || c = '\x0c' || c = '\r'

/-- The C locale's `isdigit`. -/
def isdigit (c : Char) : Bool := decide ('0' ≤ c) && decide (c ≤ '9')

/-- Largest `int`. -/
def INT_MAX : Int := 2147483647

/-- Smallest `int`. -/
def INT_MIN : Int := -2147483648

/-- Narrowing of an integer value to a 32-bit two's complement `int`. -/
def toInt32 (x : Int) : Int := (x + 2147483648) % 4294967296 - 2147483648

/-- Value of a string of decimal digits, most significant digit first. -/
def digitsVal (s : Str) : Nat := s.foldl (fun acc c => 10 * acc + (c.toNat - 48)) 0

/-- The C library's `atoi`: leading white space, an optional sign, then the longest run of
decimal digits; `0` when there is no digit. Outside the range of `int` the C standard
leaves the result undefined; the embedding is total there and narrows with `toInt32`. -/
def atoi (s : Str) : Int :=
  match s.dropWhile isspace with
  | '-' :: r => toInt32 (-(digitsVal (r.takeWhile isdigit) : Int))
  | '+' :: r => toInt32 (digitsVal (r.takeWhile isdigit))
  | r => toInt32 (digitsVal (r.takeWhile isdigit))

/-- Text written by `ostream << n` for an integer `n`. -/
def showInt (n : Int) : Str :=
  if n < 0 then '-' :: Nat.toDigits 10 n.natAbs else Nat.toDigits 10 n.toNat

/-- An IEEE 754 single precision `float`: the sign bit and the other 31 bits. -/
structure F32 where
  sign : Bool
  bits : Nat
deriving DecidableEq, Repr

/-- The `float` with the given 32-bit pattern. -/
def F32.ofBits (w : Nat) : F32 := ⟨decide (w / 2147483648 % 2 = 1), w % 2147483648⟩

/-- Unary minus on a `float`: the sign bit is flipped. -/
def F32.neg (x : F32) : F32 := ⟨!x.sign, x.bits⟩

instance : Neg F32 := ⟨F32.neg⟩

instance : Inhabited F32 := ⟨F32.ofBits 0⟩

/-- The literal `0.0f`. -/
def f0_0 : F32 := F32.ofBits 0
/-- The literal `0.2f`. -/
def f0_2 : F32 := F32.ofBits 1045220557
/-- The literal `0.8f`. -/
def f0_8 : F32 := F32.ofBits 1061997773
/-- The literal `1.0f`. -/
def f1_0 : F32 := F32.ofBits 1065353216
/-- The literal `10.0f`. -/
def f10_0 : F32 := F32.ofBits 1092616192
/-- The literal `60.0f`. -/
def f60_0 : F32 := F32.ofBits 1114636288

/-- `s.find(c, pos)`: the first position `≥ pos` holding `c`, or `npos`. -/
def find (s : Str) (c : Char) (pos : Nat) : Option Nat :=
  if (s.drop pos).indexOf c < (s.drop pos).length then some (pos + (s.drop pos).indexOf c)
  else none

/-- `s.substr(pos, count)`, where the count `none` stands for a count reaching past the end
of the string (`npos - pos`). A start beyond the end throws: `none`. -/
def substr (s : Str) (pos : Nat) (count : Option Nat) : Option Str :=
  if pos ≤ s.length then
    match count with
    | none => some (s.drop pos)
    | some k => some ((s.drop pos).take k)
  else none

/-- `s.find_last_of(c)`: the last position holding `c`, or `npos`. -/
def find_last_of (s : Str) (c : Char) : Option Nat :=
  if s.reverse.indexOf c < s.length then some (s.length - 1 - s.reverse.indexOf c) else none

/-! ## Arrays -/

/-- Read of `a[i]`; outside the array there is no defined result. -/
def arrGet {α : Type} (a : List α) (i : Int) : Option α :=
  if 0 ≤ i then a[i.toNat]? else none

/-- Write `a[i] = x`; outside the array there is no defined result. -/
def arrSet {α : Type} (a : List α) (i : Int) (x : α) : Option (List α) :=
  if 0 ≤ i ∧ i.toNat < a.length then some (a.set i.toNat x) else none

/-! ## Data model (`objparser.h`) -/

/-- The class `MTL`; the `float[3]` members are lists of three floats. -/
structure MTL where
  newmtl : Str
  Ka : List F32
  Kd : List F32
  Ks : List F32
  Ke : List F32
  Tf : List F32
  Tr : F32
  d : F32
  Ns : F32
  Ni : F32
  sharpness : F32
  illum : Int
  map_Ka : Str
  map_Kd : Str
  map_Ks : Str
  map_Ke : Str
  map_Tf : Str
  map_Ns : Str
  map_Tr : Str
  map_d : Str
  disp : Str
  decal : Str
  bump : Str
deriving DecidableEq, Repr

/-- The default constructor `MTL::MTL()`. -/
def MTL.new : MTL :=
  { newmtl := "default".toList
    Ka := [f0_2, f0_2, f0_2]
    Kd := [f0_8, f0_8, f0_8]
    Ks := [f1_0, f1_0, f1_0]
    Ke := [f0_0, f0_0, f0_0]
    Tf := [f1_0, f1_0, f1_0]
    Tr := f1_0
    d := f1_0
    Ns := f0_0
    Ni := f10_0
    sharpness := f60_0
    illum := 1
    map_Ka := []
    map_Kd := []
    map_Ks := []
    map_Ke := []
    map_Tf := []
    map_Ns := []
    map_Tr := []
    map_d := []
    disp := []
    decal := []
    bump := [] }

/-- `OBJ::Step_v`. -/
def Step_v : Nat := 4
/-- `OBJ::Step_vt`. -/
def Step_vt : Nat := 3
/-- `OBJ::Step_vn`. -/
def Step_vn : Nat := 3
/-- `OBJ::Step_f_idx_elem`: elements per vertex index cluster. -/
def Step_f_idx_elem : Nat := 3
/-- `OBJ::Step_f_idx`: vertex index clusters per face. -/
def Step_f_idx : Nat := 3
/-- `OBJ::Step_f`. -/
def Step_f : Nat := Step_f_idx * Step_f_idx_elem
/-- `OBJ::IndexPos`. -/
def IndexPos : Nat := 0
/-- `OBJ::IndexTex`. -/
def IndexTex : Nat := 1
/-- `OBJ::IndexNor`. -/
def IndexNor : Nat := 2

/-- The struct `OBJ::File` without its stream: the lines still to be read are an argument
of the reading loops. -/
structure File where
  name : Str
  lineNo : Int
  type : Str
  params : Str
deriving DecidableEq, Repr

/-- The member `OBJ::ObjData::state`: the parse cursor of one level of detail. -/
structure ObjState where
  lod : Int
  usemtl : Int
  g : Str
deriving DecidableEq, Repr

/-- `ObjData::state.Reset()`. -/
def ObjState.Reset : ObjState := { lod := 0, usemtl := -1, g := "default".toList }

/-- The struct `OBJ::ObjData`: the accumulation lists of one level of detail. -/
structure ObjData where
  v : List F32
  vn : List F32
  vt : List F32
  newmtl : List MTL
  f : List Int
  p : List Int
  l : List Int
  usemtl : List Int
  g : List Str
  shadow_obj : Str
  state : ObjState
deriving DecidableEq, Repr

/-- The constructor `ObjData::ObjData()`. -/
def ObjData.new : ObjData :=
  { v := [], vn := [], vt := [], newmtl := [], f := [], p := [], l := [], usemtl := [],
    g := [], shadow_obj := [], state := ObjState.Reset }

/-- The data members of one `OBJ` object other than the link `lod`. -/
structure ObjFields where
  file : Str
  o : Str
  shadow_obj : Str
  v : Option (List F32)
  vt : Option (List F32)
  vn : Option (List F32)
  newmtl : Option (List MTL)
  f : Option (List Int)
  usemtl : Option (List Int)
  g : Option (List Str)
  num_v : Int
  num_vt : Int
  num_vn : Int
  num_f : Int
  num_usemtl : Int
  num_g : Int
  num_newmtl : Int
  errors : List Str
  warnings : List Str
deriving DecidableEq, Repr

/-- The class `OBJ`: an object whose `lod` pointer is null (`last`) or owns the next level
of detail (`link`). -/
inductive OBJ where
  | last (d : ObjFields) : OBJ
  | link (d : ObjFields) (lod : OBJ) : OBJ
deriving DecidableEq, Repr

/-- The data members of the object itself. -/
def OBJ.d : OBJ → ObjFields
  | .last d => d
  | .link d _ => d

/-- The member `lod`. -/
def OBJ.lod : OBJ → Option OBJ
  | .last _ => none
  | .link _ n => some n

/-- The objects of the chain `this, this->lod, this->lod->lod, ...`. -/
def OBJ.chain : OBJ → List ObjFields
  | .last d => [d]
  | .link d n => d :: n.chain

/-- The member initialiser list of both constructors, for the given `file`. -/
def ObjFields.init (file : Str) : ObjFields :=
  { file := file, o := [], shadow_obj := [], v := none, vt := none, vn := none,
    newmtl := none, f := none, usemtl := none, g := none, num_v := 0, num_vt := 0,
    num_vn := 0, num_f := 0, num_usemtl := 0, num_g := 0, num_newmtl := 0, errors := [],
    warnings := [] }

/-- `OBJ::HasErrors`. -/
def OBJ.HasErrors (this : OBJ) : Bool := this.d.errors.length != 0

/-- `OBJ::HasWarnings`. -/
def OBJ.HasWarnings (this : OBJ) : Bool := this.d.warnings.length != 0

/-! ## The loader's state and its diagnostics -/

/-- What the loader takes from outside: the text of each file that can be opened, and the
values that `while (sin >> value)` extracts from a parameter string when `value` is a
`float`. -/
structure Env where
  fs : Str → Option Str
  readFloats : Str → List F32

/-- The state of a running `OBJ::OBJ(const std::string&)`: the members `o`, `errors`,
`warnings` and the local list `lodData` with its iterator `currentLod`, the list being
`before ++ currentLod :: after`. -/
structure Loader where
  o : Str
  errors : List Str
  warnings : List Str
  before : List ObjData
  currentLod : ObjData
  after : List ObjData
deriving DecidableEq, Repr

/-- The local list `lodData`. -/
def Loader.lodData (s : Loader) : List ObjData := s.before ++ s.currentLod :: s.after

/-- The state in which the reading loop starts: `lodData` holds `firstLod` alone. -/
def Loader.init : Loader :=
  { o := [], errors := [], warnings := [], before := [], currentLod := ObjData.new,
    after := [] }

/-- The text `name: Line lineNo: ` that `AddError` and `AddWarning` put before a message. -/
def lineTag (file : File) : Str :=
  file.name ++ ": Line ".toList ++ showInt file.lineNo ++ ": ".toList

/-- `OBJ::AddError`, for the message text held by `sout`. -/
def AddError (file : File) (sout : Str) (s : Loader) : Loader :=
  { s with errors := s.errors ++ [lineTag file ++ sout] }

/-- `OBJ::AddWarning`, for the message text held by `sout`. -/
def AddWarning (file : File) (sout : Str) (s : Loader) : Loader :=
  { s with warnings := s.warnings ++ [lineTag file ++ sout] }

/-! ## Lines and parameters -/

/-- The lines that successive `std::getline` calls deliver until `eof()`: the text split at
every newline (a text ending in a newline delivers a last, empty line). -/
def splitLines : Str → List Str
  | [] => [[]]
  | c :: cs =>
    if c = '\n' then [] :: splitLines cs
    else
      match splitLines cs with
      | [] => [[c]]
      | l :: ls => (c :: l) :: ls

/-- `OBJ::ReadLine` on the line just taken from the stream: the keyword is the first
blank-separated word, the parameters are the rest of the line after it. -/
def ReadLine (file : File) (line : Str) : File :=
  let rest := line.dropWhile isspace
  let type := rest.takeWhile (fun c => !isspace c)
  { file with
    lineNo := file.lineNo + 1
    type := type
    params := if type = [] then [] else rest.dropWhile (fun c => !isspace c) }

/-- The words of `s`, `cur` being the reversed word in progress. -/
def readStringsAux : Str → Str → List Str
  | [], cur => if cur = [] then [] else [cur.reverse]
  | c :: cs, cur =>
    if isspace c then (if cur = [] then readStringsAux cs [] else cur.reverse :: readStringsAux cs [])
    else readStringsAux cs (c :: cur)

/-- The values that `while (sin >> value)` extracts when `value` is a `std::string`: the
blank-separated words. -/
def readStrings (s : Str) : List Str := readStringsAux s []

/-- One `sin >> value` for an `int`: blanks, an optional sign, at least one digit; it fails
when there is no digit or the value does not fit an `int`. Gives the value and the text
left in the stream. -/
def scanInt (s : Str) : Option (Int × Str) :=
  let r := s.dropWhile isspace
  let body : Bool × Str :=
    match r with
    | '-' :: t => (true, t)
    | '+' :: t => (false, t)
    | t => (false, t)
  let ds := body.2.takeWhile isdigit
  let v : Int := if body.1 then -(digitsVal ds : Int) else digitsVal ds
  if ds = [] then none
  else if v < INT_MIN ∨ INT_MAX < v then none
  else some (v, body.2.dropWhile isdigit)

/-- The loop `while (sin >> value)` for a scanner that consumes text; `fuel` bounds the
number of extractions. -/
def extractAll {T : Type} (scan : Str → Option (T × Str)) : Nat → Str → List T
  | 0, _ => []
  | fuel + 1, s =>
    match scan s with
    | none => []
    | some (x, rest) => x :: extractAll scan fuel rest

/-- The values that `while (sin >> value)` extracts when `value` is an `int`. -/
def readInts (s : Str) : List Int := extractAll scanInt (s.length + 1) s

/-- `n` times `out.pop_back()` (or `out.erase(--out.end())`). -/
def popBack {T : Type} : Nat → List T → List T
  | 0, out => out
  | n + 1, out => popBack n out.dropLast

/-- The message of both `ReadParams` for a wrong number of parameters. -/
def paramCountMsg (file : File) (numParams minParams : Int) (maxParams : Option Int) : Str :=
  "\'".toList ++ file.type ++ "\' does not take ".toList ++ showInt numParams ++
    " parameter(s) (expected ".toList ++ showInt minParams ++
    (match maxParams with
     | some m => if minParams ≠ m then "-".toList ++ showInt m else []
     | none => []) ++ ")".toList

/-- `OBJ::ReadParams(file, minParams, maxParams, defaultValue, out)`; `extract` is the loop
`while (sin >> value)` for the type `T`. Gives the new `out`. -/
def ReadParams {T : Type} (extract : Str → List T) (file : File) (minParams maxParams : Int)
    (defaultValue : T) (out : List T) (s : Loader) : List T × Loader :=
  let vals := extract file.params
  let numParams : Int := vals.length
  if numParams < minParams ∨ numParams > maxParams then
    (popBack vals.length (out ++ vals),
      AddError file (paramCountMsg file numParams minParams (some maxParams)) s)
  else
    (out ++ vals ++ List.replicate (maxParams - numParams).toNat defaultValue, s)

/-- `OBJ::ReadParams(file, minParams, out)`, the form without an upper bound. -/
def ReadParamsMin {T : Type} (extract : Str → List T) (file : File) (minParams : Int)
    (out : List T) (s : Loader) : List T × Loader :=
  let vals := extract file.params
  let numParams : Int := vals.length
  if numParams < minParams then
    (popBack vals.length (out ++ vals),
      AddError file (paramCountMsg file numParams minParams none) s)
  else
    (out ++ vals, s)

/-! ## The `f` handler -/

/-- The loop of lines 219-223, `for (i = 0; i < Step_f_idx_elem && currentPos != npos; ++i)`:
`n` is the number of rounds left before `i` reaches `Step_f_idx_elem`. Gives the final `i`,
`currentPos` and `face`. -/
def groupLoop (vertex : Str) : Nat → Nat → Option Nat → List Int →
    Option (Nat × Option Nat × List Int)
  | 0, i, currentPos, face => some (i, currentPos, face)
  | _ + 1, i, none, face => some (i, none, face)
  | n + 1, i, some currentPos, face =>
    let searchFrom := currentPos + (if i != 0 then 1 else 0)
    match substr vertex searchFrom ((find vertex '/' searchFrom).map (fun e => e - searchFrom)) with
    | none => none
    | some tok =>
      groupLoop vertex n (i + 1) (find vertex '/' searchFrom) (face ++ [toInt32 (atoi tok - 1)])

/-- The `switch (i)` of lines 224-229, whose `case 1` falls through to `case 2`. -/
def padGroup (i : Nat) (face : List Int) : List Int :=
  match i with
  | 1 => (face ++ [-1]) ++ [-1]
  | 2 => face ++ [-1]
  | _ => face

/-- The message of lines 236, 247, 258. -/
def relativeMsg (kind : Str) (relative size : Int) : Str :=
  "Relative index ".toList ++ showInt relative ++ " is out of defined range for \'".toList ++
    kind ++ "\' (size is ".toList ++ showInt size ++ ")".toList

/-- One of the three blocks of lines 231-263, for the element `face[face.size()-k]` and the
array of `size` elements named `kind`. -/
def resolveRelative (file : File) (kind : Str) (size : Int) (k : Nat) (face : List Int)
    (s : Loader) : Option (List Int × Loader) :=
  match face[face.length - k]? with
  | none => none
  | some x =>
    if x < -1 then
      let relative := x + 1
      let absolute := size + relative
      if absolute < 0 then some (face, AddError file (relativeMsg kind relative size) s)
      else some (face.set (face.length - k) absolute, s)
    else some (face, s)

/-- The message of line 267. -/
def slashMsg : Str := "Syntax error (f v, f v/vt, f v/vt/vn, f v//vn)".toList

/-- The message of lines 271, 275, 279; `index` is the element plus one. -/
def rangeMsg (kind : Str) (index : Int) : Str :=
  "Index ".toList ++ showInt index ++ " is out of defined range for \'".toList ++ kind ++
    "\'".toList

/-- One of the three checks of lines 270-281, for the element `face[face.size()-k]`. -/
def checkRange (file : File) (kind : Str) (size : Int) (k : Nat) (face : List Int)
    (s : Loader) : Option Loader :=
  match face[face.length - k]? with
  | none => none
  | some x =>
    if x ≥ size then some (AddError file (rangeMsg kind (toInt32 (x + 1))) s) else some s

/-- The body of the loop over the vertex groups of an `f` line (lines 217-281). -/
def vertexBody (file : File) (vertex : Str) (face : List Int) (s : Loader) :
    Option (List Int × Loader) :=
  let sizeV : Int := ((s.currentLod.v.length / Step_v : Nat) : Int)
  let sizeVt : Int := ((s.currentLod.vt.length / Step_vt : Nat) : Int)
  let sizeVn : Int := ((s.currentLod.vn.length / Step_vn : Nat) : Int)
  match groupLoop vertex Step_f_idx_elem 0 (some 0) face with
  | none => none
  | some (i, currentPos, face1) =>
    let face2 := padGroup i face1
    (resolveRelative file "v".toList sizeV 3 face2 s).bind fun r1 =>
    (resolveRelative file "vt".toList sizeVt 2 r1.1 r1.2).bind fun r2 =>
    (resolveRelative file "vn".toList sizeVn 1 r2.1 r2.2).bind fun r3 =>
    let s4 := if currentPos ≠ none then AddError file slashMsg r3.2 else r3.2
    (checkRange file "v".toList sizeV 3 r3.1 s4).bind fun s5 =>
    (checkRange file "vt".toList sizeVt 2 r3.1 s5).bind fun s6 =>
    (checkRange file "vn".toList sizeVn 1 r3.1 s6).bind fun s7 =>
    some (r3.1, s7)

/-- The loop over the vertex groups `vert` of an `f` line (line 216). -/
def vertexLoop (file : File) : List Str → List Int → Loader → Option (List Int × Loader)
  | [], face, s => some (face, s)
  | vertex :: rest, face, s =>
    (vertexBody file vertex face s).bind fun r => vertexLoop file rest r.1 r.2

/-- The loop of lines 290-292, `for (j = i; j < face.size(); j += Step_f_idx)`, counting in
`numUnavailable`; `fuel` bounds the number of rounds. -/
def countLoop (face : List Int) : Nat → Nat → Nat → Option Nat
  | 0, _, _ => none
  | fuel + 1, j, numUnavailable =>
    if j < face.length then
      match face[j]? with
      | none => none
      | some x => countLoop face fuel (j + Step_f_idx) (if x = -1 then numUnavailable + 1 else numUnavailable)
    else some numUnavailable

/-- The loop of lines 289-299, `for (i = 0; i < Step_f_idx; ++i)` with its `break`; `n` is
the number of rounds left. Gives the final `i`. -/
def mismatchLoop (file : File) (face : List Int) : Nat → Nat → Nat → Loader →
    Option (Nat × Loader)
  | 0, i, _, s => some (i, s)
  | n + 1, i, numUnavailable, s =>
    match countLoop face (face.length + 1) i numUnavailable with
    | none => none
    | some num =>
      if num % (face.length / Step_f_idx) ≠ 0 then
        some (i, AddError file "Vertex index mismatch".toList s)
      else mismatchLoop file face n (i + 1) num s

/-- The loop of lines 303-320, converting the face into a triangle fan; `fuel` bounds the
number of rounds. -/
def fanLoop (face : List Int) : Nat → Nat → ObjData → Option ObjData
  | 0, _, _ => none
  | fuel + 1, i, lod =>
    if i < face.length - Step_f_idx then
      face[i + Step_f_idx + IndexPos]?.bind fun a0 =>
      face[i + Step_f_idx + IndexTex]?.bind fun a1 =>
      face[i + Step_f_idx + IndexNor]?.bind fun a2 =>
      face[i + IndexPos]?.bind fun b0 =>
      face[i + IndexTex]?.bind fun b1 =>
      face[i + IndexNor]?.bind fun b2 =>
      face[IndexPos]?.bind fun c0 =>
      face[IndexTex]?.bind fun c1 =>
      face[IndexNor]?.bind fun c2 =>
      fanLoop face fuel (i + Step_f_idx)
        { lod with
          f := lod.f ++ [a0, a1, a2, b0, b1, b2, c0, c1, c2]
          usemtl := lod.usemtl ++ [lod.state.usemtl]
          g := lod.g ++ [lod.state.g] }
    else some lod

/-- The handler of an `f` line (lines 208-322). -/
def handleF (file : File) (s : Loader) : Option Loader :=
  let r := ReadParamsMin readStrings file Step_f_idx_elem [] s
  (vertexLoop file r.1 [] r.2).bind fun r1 =>
  let face := r1.1
  if face.length % Step_f_idx_elem ≠ 0 then
    some (AddError file "Parsing code bug".toList r1.2)
  else if face.length ≥ Step_f then
    (mismatchLoop file face Step_f_idx 0 0 r1.2).bind fun r2 =>
    if r2.1 = Step_f_idx then
      (fanLoop face (face.length + 1) Step_f_idx r2.2.currentLod).bind fun lod =>
      some { r2.2 with currentLod := lod }
    else some r2.2
  else some r1.2

/-! ## The `usemtl`, `lod` and keyword handlers -/

/-- The loop of lines 341-347: the index at which it breaks, or `none` when it runs to
`newmtl.end()`. -/
def findMtl (name : Str) : List MTL → Int → Option Int
  | [], _ => none
  | m :: rest, i => if m.newmtl = name then some i else findMtl name rest (i + 1)

/-- The handler of a `usemtl` line (lines 338-352). `mtlname.front()` is evaluated in the
first round of the loop or, when the material list is empty, at line 349: with an empty
`mtlname` there is no defined result. -/
def handleUsemtl (file : File) (s : Loader) : Option Loader :=
  let r := ReadParams readStrings file 1 1 [] [] s
  match r.1 with
  | [] => none
  | front :: _ =>
    match findMtl front r.2.currentLod.newmtl 0 with
    | some i =>
      some { r.2 with currentLod := { r.2.currentLod with state := { r.2.currentLod.state with usemtl := i } } }
    | none =>
      let s1 := AddError file ("Material \"".toList ++ front ++ "\" not defined".toList) r.2
      some { s1 with currentLod := { s1.currentLod with state := { s1.currentLod.state with usemtl := -1 } } }

/-- The loop of lines 706-710 over `lodData`: the contexts passed over, and the contexts
from the one at which it breaks. -/
def lodSearch (front : Int) : List ObjData → List ObjData × List ObjData
  | [] => ([], [])
  | d :: rest =>
    if front ≥ d.state.lod then ([], d :: rest)
    else ((d :: (lodSearch front rest).1), (lodSearch front rest).2)

/-- The handler of a `lod` line (lines 697-713). -/
def handleLod (file : File) (s : Loader) : Loader :=
  let r := ReadParams readInts file 1 1 0 [] s
  match r.1 with
  | [front] =>
    let s1 : Loader × List ObjData :=
      if r.2.currentLod.v.length = 0 ∧ r.2.currentLod.f.length = 0 then
        (AddWarning file ("Previous LOD ".toList ++ showInt r.2.currentLod.state.lod ++
            " does not contain any relevant data. Skipping...".toList) r.2,
          r.2.before ++ r.2.after)
      else (r.2, r.2.lodData)
    { s1.1 with
      before := (lodSearch front s1.2).1
      currentLod := ObjData.new
      after := (lodSearch front s1.2).2 }
  | _ => r.2

/-- The table `OBJ_KEYWORDS`. -/
def OBJ_KEYWORDS : List Str :=
  ["v", "vt", "vn", "f", "o", "vp", "deg", "bmat", "step", "cstype", "p", "l", "curv",
    "curv2", "surf", "parm", "trim", "hole", "scrv", "sp", "end", "con", "g", "s", "mg",
    "bevel", "c_interp", "d_interp", "lod", "usemtl", "mtllib", "shadow_obj", "trace_obj",
    "ctech", "stech", "maplib", "usemap"].map String.toList

/-- `OBJ_NUM_KEYWORDS`. -/
def OBJ_NUM_KEYWORDS : Nat := 37

/-- The table `MTL_KEYWORDS`. -/
def MTL_KEYWORDS : List Str :=
  ["newmtl", "Ka", "Kd", "Ks", "Ke", "Tr", "d", "Tf", "Ns", "Ni", "sharpness", "illum",
    "map_Ka", "map_Kd", "map_Ks", "map_Ke", "map_Tf", "disp", "decal", "bump"].map
    String.toList

/-- `MTL_NUM_KEYWORDS`. -/
def MTL_NUM_KEYWORDS : Nat := 20

/-- The search loops of lines 665-667, 678-680 and 716-718: the first `i` below `n` with
`type == table[i]`, or `n`. -/
def keywordIndex (table : List Str) (n : Nat) (type : Str) : Nat :=
  if table.indexOf type < n then table.indexOf type else n

/-- The last branch of the dispatch on a mesh line (lines 714-726). -/
def handleOther (file : File) (s : Loader) : Loader :=
  match file.type with
  | [] => s
  | c :: _ =>
    if c ≠ '#' then
      if keywordIndex OBJ_KEYWORDS OBJ_NUM_KEYWORDS file.type < OBJ_NUM_KEYWORDS then
        AddWarning file (" \'".toList ++
          OBJ_KEYWORDS.getD (keywordIndex OBJ_KEYWORDS OBJ_NUM_KEYWORDS file.type) [] ++
          "\' is not supported at this time".toList) s
      else AddError file (" Unknown type \'".toList ++ file.type ++ "\'".toList) s
    else s

/-! ## The material file -/

/-- Application of `fn` to the material `*mtl`, the iterator `mtl` standing at position `k`
of the material list of the active level of detail. -/
def setMtl (k : Nat) (fn : MTL → Option MTL) (s : Loader) : Option Loader :=
  match s.currentLod.newmtl[k]? with
  | none => none
  | some m =>
    (fn m).map fun m1 =>
      { s with currentLod := { s.currentLod with newmtl := s.currentLod.newmtl.set k m1 } }

/-- The loops `for (int i = 0; i < Step; ++i, ++it) dst[i] = *it`, `n` being the number of
rounds left and `it` the part of the source list from the iterator on. -/
def copyLoop : Nat → Int → List F32 → List F32 → Option (List F32)
  | 0, _, _, dst => some dst
  | _ + 1, _, [], _ => none
  | n + 1, i, x :: it, dst => (arrSet dst i x).bind fun dst1 => copyLoop n (i + 1) it dst1

/-- The loop of lines 481-483, `for (int i = 0; it != temp.end(); ++i, ++it)`. -/
def copyAll : Int → List F32 → List F32 → Option (List F32)
  | _, [], dst => some dst
  | i, x :: it, dst => (arrSet dst i x).bind fun dst1 => copyAll (i + 1) it dst1

/-- The handlers of `Ka`, `Kd`, `Ks`, `Ke`: three floats read, then copied to the member
chosen by `get` and `put`. -/
def mtlColor (env : Env) (file : File) (k : Nat) (defaultValue : F32) (get : MTL → List F32)
    (put : MTL → List F32 → MTL) (s : Loader) : Option Loader :=
  let r := ReadParams env.readFloats file 3 3 defaultValue [] s
  if r.1.length > 0 then setMtl k (fun m => (copyLoop 3 0 r.1 (get m)).map (put m)) r.2
  else some r.2

/-- The handlers of `Tr`, `d`, `Ns`, `Ni`, `sharpness`: one float read, then stored. -/
def mtlScalar (env : Env) (file : File) (k : Nat) (defaultValue : F32)
    (put : MTL → F32 → MTL) (s : Loader) : Option Loader :=
  let r := ReadParams env.readFloats file 1 1 defaultValue [] s
  match r.1 with
  | [] => some r.2
  | front :: _ => setMtl k (fun m => some (put m front)) r.2

/-- The loop over the candidate names of a texture map: the member keeps its value unless a
name can be opened. -/
def mapLoop (env : Env) : List Str → Str → Str
  | [], cur => cur
  | it :: rest, cur => if (env.fs it).isSome then it else mapLoop env rest cur

/-- The handlers of the texture map keywords: the member chosen by `put` is emptied, then
set to the first name that can be opened. -/
def mtlMap (env : Env) (file : File) (k : Nat) (put : MTL → Str → MTL) (s : Loader) :
    Option Loader :=
  let r := ReadParamsMin readStrings file 1 [] s
  if r.1.length > 0 then setMtl k (fun m => some (put m (mapLoop env r.1 []))) r.2
  else some r.2

/-- The handler of a `newmtl` line (lines 398-419). Gives the iterator `mtl`: `none` is
`newmtl.end()`. -/
def handleNewmtl (file : File) (s : Loader) : Option Nat × Loader :=
  let r := ReadParams readStrings file 0 1 "default".toList [] s
  match r.1 with
  | [] => (none, r.2)
  | front :: _ =>
    if r.2.currentLod.newmtl.all (fun m => m.newmtl != front) then
      (some r.2.currentLod.newmtl.length,
        { r.2 with currentLod := { r.2.currentLod with
            newmtl := r.2.currentLod.newmtl ++ [{ MTL.new with newmtl := front }] } })
    else
      (none, AddError file ("Redefinition of material \"".toList ++ front ++ "\"".toList) r.2)

/-- The branch of the dispatch taken when a material is active (lines 420-675); `k` is the
position of `mtl`. -/
def mtlProperty (env : Env) (file : File) (k : Nat) (s : Loader) : Option Loader :=
  if file.type = "Ka".toList then
    mtlColor env file k f0_2 MTL.Ka (fun m x => { m with Ka := x }) s
  else if file.type = "Kd".toList then
    mtlColor env file k f0_8 MTL.Kd (fun m x => { m with Kd := x }) s
  else if file.type = "Ks".toList then
    mtlColor env file k f1_0 MTL.Ks (fun m x => { m with Ks := x }) s
  else if file.type = "Ke".toList then
    mtlColor env file k f0_0 MTL.Ke (fun m x => { m with Ke := x }) s
  else if file.type = "Tr".toList then
    mtlScalar env file k f1_0 (fun m x => { m with Tr := x }) s
  else if file.type = "d".toList then
    mtlScalar env file k f1_0 (fun m x => { m with d := x }) s
  else if file.type = "Tf".toList then
    let r := ReadParams env.readFloats file 3 3 f1_0 [] s
    if r.1.length > 0 then
      setMtl k (fun m => (copyAll 0 r.1 m.Tf).map fun x => { m with Tf := x }) r.2
    else some r.2
  else if file.type = "Ns".toList then
    mtlScalar env file k f0_0 (fun m x => { m with Ns := x }) s
  else if file.type = "Ni".toList then
    mtlScalar env file k f10_0 (fun m x => { m with Ni := x }) s
  else if file.type = "sharpness".toList then
    mtlScalar env file k f60_0 (fun m x => { m with sharpness := x }) s
  else if file.type = "illum".toList then
    let r := ReadParams readInts file 1 1 1 [] s
    match r.1 with
    | [] => some r.2
    | front :: _ => setMtl k (fun m => some { m with illum := front }) r.2
  else if file.type = "map_Ka".toList then
    mtlMap env file k (fun m x => { m with map_Ka := x }) s
  else if file.type = "map_Kd".toList then
    mtlMap env file k (fun m x => { m with map_Kd := x }) s
  else if file.type = "map_Ks".toList then
    mtlMap env file k (fun m x => { m with map_Ks := x }) s
  else if file.type = "map_Ke".toList then
    mtlMap env file k (fun m x => { m with map_Ke := x }) s
  else if file.type = "map_Tf".toList then
    mtlMap env file k (fun m x => { m with map_Tf := x }) s
  else if file.type = "map_Ns".toList then
    mtlMap env file k (fun m x => { m with map_Ks := x }) s
  else if file.type = "map_Tr".toList then
    mtlMap env file k (fun m x => { m with map_Tr := x }) s
  else if file.type = "map_d".toList then
    mtlMap env file k (fun m x => { m with map_d := x }) s
  else if file.type = "disp".toList then
    mtlMap env file k (fun m x => { m with disp := x }) s
  else if file.type = "decal".toList then
    mtlMap env file k (fun m x => { m with decal := x }) s
  else if file.type = "bump".toList then
    mtlMap env file k (fun m x => { m with bump := x }) s
  else
    match file.type with
    | [] => some s
    | c :: _ =>
      if c ≠ '#' then
        if keywordIndex MTL_KEYWORDS MTL_NUM_KEYWORDS file.type < MTL_NUM_KEYWORDS then
          some (AddWarning file (" \'".toList ++
            MTL_KEYWORDS.getD (keywordIndex MTL_KEYWORDS MTL_NUM_KEYWORDS file.type) [] ++
            "\' is not supported at this time".toList) s)
        else some (AddError file (" Unknown type \'".toList ++ file.type ++ "\'".toList) s)
      else some s

/-- The branch of the dispatch taken when no material is active (lines 676-688). -/
def mtlOrphan (file : File) (s : Loader) : Loader :=
  match file.type with
  | [] => s
  | c :: _ =>
    if c ≠ '#' then
      if keywordIndex MTL_KEYWORDS MTL_NUM_KEYWORDS file.type < MTL_NUM_KEYWORDS then
        AddError file ("\'".toList ++ file.type ++
          "\' operating on undefined material".toList) s
      else AddError file (" Unknown type \'".toList ++ file.type ++ "\'".toList) s
    else s

/-- One round of the loop over the lines of a material file (lines 396-688), after
`ReadLine`; `mtl` is the iterator of the active material. -/
def mtlLine (env : Env) (file : File) (mtl : Option Nat) (s : Loader) :
    Option (Option Nat × Loader) :=
  if file.type = "newmtl".toList then some (handleNewmtl file s)
  else
    match mtl with
    | some k => (mtlProperty env file k s).map fun s1 => (mtl, s1)
    | none => some (mtl, mtlOrphan file s)

/-- The loop `while (!mtlFile.fin.eof())` over the lines left in the material file. -/
def mtlLoop (env : Env) : List Str → File → Option Nat → Loader → Option Loader
  | [], _, _, s => some s
  | line :: rest, file, mtl, s =>
    (mtlLine env (ReadLine file line) mtl s).bind fun r =>
      mtlLoop env rest (ReadLine file line) r.1 r.2

/-- The loop of lines 359-367 over the names of a `mtllib` line: the name and the text of
the first file that opens, with a warning for every name tried before it. -/
def openLoop (env : Env) (workingDirectory : Str) (file : File) :
    List Str → Loader → Option (Str × Str) × Loader
  | [], s => (none, s)
  | it :: rest, s =>
    match env.fs (workingDirectory ++ it) with
    | some text => (some (it, text), s)
    | none =>
      openLoop env workingDirectory file rest
        (AddWarning file ("Could not open \"".toList ++ it ++ "\"".toList) s)

/-- The handler of a `mtllib` line (lines 353-694). -/
def handleMtllib (env : Env) (workingDirectory : Str) (file : File) (s : Loader) :
    Option Loader :=
  let r := ReadParamsMin readStrings file 1 [] s
  let r1 := openLoop env workingDirectory file r.1 r.2
  match r1.1 with
  | some opened =>
    mtlLoop env (splitLines opened.2)
      { name := opened.1, lineNo := 0, type := [], params := [] } none r1.2
  | none => some (AddError file "Specified files could not be opened".toList r1.2)

/-! ## The mesh file -/

/-- The directory of `filename` as computed at lines 158-173. -/
def workingDirectory (filename : Str) : Str :=
  let lastForwardSlash := find_last_of filename '/'
  let lastDirectory1 : Option Nat := if lastForwardSlash ≠ none then lastForwardSlash else none
  let lastBackslash := find_last_of filename '\\'
  let lastDirectory2 : Option Nat :=
    match lastBackslash with
    | some b =>
      match lastForwardSlash with
      | none => lastForwardSlash
      | some a => if a > b then some a else some b
    | none => lastDirectory1
  match lastDirectory2 with
  | some p => filename.take (p + 1)
  | none => []

/-- One round of the loop over the lines of the mesh file (lines 191-726), after
`ReadLine`. -/
def objLine (env : Env) (wd : Str) (objFile : File) (s : Loader) : Option Loader :=
  if objFile.type = "o".toList then some { s with o := objFile.params }
  else if objFile.type = "v".toList then
    let r := ReadParams env.readFloats objFile (Step_v - 1 : Nat) Step_v f1_0 s.currentLod.v s
    some { r.2 with currentLod := { r.2.currentLod with v := r.1 } }
  else if objFile.type = "vt".toList then
    let r := ReadParams env.readFloats objFile (Step_vt - 2 : Nat) Step_vt f0_0 s.currentLod.vt s
    some { r.2 with currentLod := { r.2.currentLod with vt := r.1 } }
  else if objFile.type = "vn".toList then
    let r := ReadParams env.readFloats objFile Step_vn Step_vn f0_0 s.currentLod.vn s
    some { r.2 with currentLod := { r.2.currentLod with vn := r.1 } }
  else if objFile.type = "f".toList then handleF objFile s
  else if objFile.type = "g".toList then
    some { s with currentLod := { s.currentLod with state := { s.currentLod.state with g := objFile.params } } }
  else if objFile.type = "usemtl".toList then handleUsemtl objFile s
  else if objFile.type = "mtllib".toList then handleMtllib env wd objFile s
  else if objFile.type = "shadow_obj".toList then
    some { s with currentLod := { s.currentLod with shadow_obj := objFile.params } }
  else if objFile.type = "lod".toList then some (handleLod objFile s)
  else some (handleOther objFile s)

/-- The loop `while (!objFile.fin.eof())` over the lines left in the mesh file. -/
def objLoop (env : Env) (wd : Str) : List Str → File → Loader → Option Loader
  | [], _, s => some s
  | line :: rest, objFile, s =>
    (objLine env wd (ReadLine objFile line) s).bind fun s1 =>
      objLoop env wd rest (ReadLine objFile line) s1

/-- The reading part of `OBJ::OBJ(const std::string&)` (lines 158-737): the state in which the
constructor reaches the comment `create the main data structure`. -/
def load (env : Env) (filename : Str) : Option Loader :=
  match env.fs filename with
  | some text =>
    (objLoop env (workingDirectory filename) (splitLines text)
        { name := filename, lineNo := 0, type := [], params := [] } Loader.init).map fun s =>
      if s.currentLod.f.length = 0 then
        { s with warnings := s.warnings ++ ["File does not contain any face definitions".toList] }
      else s
  | none =>
    some { Loader.init with
      errors := ["\"".toList ++ filename ++ "\": File could not be opened".toList] }

/-! ## Materialization -/

/-- `OBJ::CreateArrayFromList`: the new array and `arraySize`. -/
def CreateArrayFromList {T : Type} (list : List T) : Option (List T) × Int :=
  (some list, (list.length : Int))

/-- The loops of lines 766-771 and 846-851, `for (int i = 0; i < num; i += step)` negating
`a[i+2]`; `fuel` bounds the number of rounds. A null array cannot be indexed. -/
def invertLoop (step : Nat) (num : Int) : Nat → Int → Option (List F32) → Option (Option (List F32))
  | 0, _, _ => none
  | fuel + 1, i, a =>
    if i < num then
      match a with
      | none => none
      | some arr =>
        (arrGet arr (i + 2)).bind fun x =>
        (arrSet arr (i + 2) (-x)).bind fun arr1 =>
        invertLoop step num fuel (i + step) (some arr1)
    else some a

/-- The body of the loop of lines 747-780 up to line 771, for the object `lodPtr` (whose
members are `d`) and the context `currentLod`; `file` and `o` are the members of `this`. -/
def materializeLod (file o : Str) (d : ObjFields) (currentLod : ObjData) : Option ObjFields :=
  let d1 : ObjFields :=
    { d with
      v := (CreateArrayFromList currentLod.v).1, num_v := (CreateArrayFromList currentLod.v).2
      vt := (CreateArrayFromList currentLod.vt).1, num_vt := (CreateArrayFromList currentLod.vt).2
      vn := (CreateArrayFromList currentLod.vn).1, num_vn := (CreateArrayFromList currentLod.vn).2
      newmtl := (CreateArrayFromList currentLod.newmtl).1
      num_newmtl := (CreateArrayFromList currentLod.newmtl).2
      g := (CreateArrayFromList currentLod.g).1, num_g := (CreateArrayFromList currentLod.g).2
      usemtl := (CreateArrayFromList currentLod.usemtl).1
      num_usemtl := (CreateArrayFromList currentLod.usemtl).2
      f := (CreateArrayFromList currentLod.f).1, num_f := (CreateArrayFromList currentLod.f).2
      file := file, o := o, shadow_obj := currentLod.shadow_obj }
  (invertLoop Step_v d1.num_v (d1.num_v.toNat + 1) 0 d1.v).bind fun v1 =>
  (invertLoop Step_vn d1.num_vn (d1.num_vn.toNat + 1) 0 d1.vn).bind fun vn1 =>
  some { d1 with v := v1, vn := vn1 }

/-- The loop `do ... while (true)` of lines 747-780: `d` holds the members of `lodPtr`,
`currentLod` is the context at the iterator and `rest` the contexts after it. Every further
object is made by `new OBJ`. -/
def materializeLoop (file o : Str) : ObjFields → ObjData → List ObjData → Option OBJ
  | d, currentLod, [] => (materializeLod file o d currentLod).map OBJ.last
  | d, currentLod, next :: rest =>
    (materializeLod file o d currentLod).bind fun d1 =>
    (materializeLoop file o (ObjFields.init []) next rest).map fun n => OBJ.link d1 n

/-- The constructor `OBJ::OBJ(const std::string &filename)`. -/
def OBJ.new (env : Env) (filename : Str) : Option OBJ :=
  (load env filename).bind fun s =>
    let this : ObjFields :=
      { ObjFields.init filename with o := s.o, errors := s.errors, warnings := s.warnings }
    if s.errors.length = 0 then
      match s.lodData with
      | [] => none
      | currentLod :: rest => materializeLoop filename s.o this currentLod rest
    else some (OBJ.last this)

/-! ## `DumpErrors`, `DumpWarnings` -/

/-- The loop of lines 794-800 (and 807-813) from the entry at the iterator on, `n` entries
having been written; the output is the list of the lines written. -/
def dumpLoop (what : Str) (size : Nat) (Max : Nat) : List Str → Nat → List Str
  | [], _ => []
  | i :: rest, n =>
    i :: (if n + 1 = Max then
        ["<< ".toList ++ showInt ((size - (n + 1) : Nat) : Int) ++ " more ".toList ++ what ++
          " >>".toList]
      else dumpLoop what size Max rest (n + 1))

/-- `OBJ::DumpErrors`: the lines written to `out`. -/
def OBJ.DumpErrors (this : OBJ) (MaxErrors : Nat) : List Str :=
  dumpLoop "error(s)".toList this.d.errors.length MaxErrors this.d.errors 0 ++
    ["--".toList ++ showInt (this.d.errors.length : Int) ++ " error(s)--".toList]

/-- `OBJ::DumpWarnings`: the lines written to `out`. -/
def OBJ.DumpWarnings (this : OBJ) (MaxWarnings : Nat) : List Str :=
  dumpLoop "warning(s)".toList this.d.warnings.length MaxWarnings this.d.warnings 0 ++
    ["--".toList ++ showInt (this.d.warnings.length : Int) ++ " warning(s)--".toList]

/-! ## `Reverse` -/

/-- The loop of lines 840-844 on the array `f` seen as an array of `Face` (nine `int`s:
`v1`, `v2`, `v3` of three `int`s each); `fuel` bounds the number of rounds. -/
def swapLoop (NUM_FACES : Int) : Nat → Int → Option (List Int) → Option (Option (List Int))
  | 0, _, _ => none
  | fuel + 1, i, f =>
    if i < NUM_FACES then
      match f with
      | none => none
      | some face =>
        (arrGet face (9 * i)).bind fun t0 =>
        (arrGet face (9 * i + 1)).bind fun t1 =>
        (arrGet face (9 * i + 2)).bind fun t2 =>
        (arrGet face (9 * i + 6)).bind fun w0 =>
        (arrGet face (9 * i + 7)).bind fun w1 =>
        (arrGet face (9 * i + 8)).bind fun w2 =>
        (arrSet face (9 * i) w0).bind fun a1 =>
        (arrSet a1 (9 * i + 1) w1).bind fun a2 =>
        (arrSet a2 (9 * i + 2) w2).bind fun a3 =>
        (arrSet a3 (9 * i + 6) t0).bind fun a4 =>
        (arrSet a4 (9 * i + 7) t1).bind fun a5 =>
        (arrSet a5 (9 * i + 8) t2).bind fun a6 =>
        swapLoop NUM_FACES fuel (i + 1) (some a6)
    else some f

/-- One round of the loop of lines 832-853: `num_f` and `f` are the members of `this`, `d`
holds the members of the object `lod`. Gives the array `this->f` and the members of `lod`
after the round. -/
def reverseLod (num_f : Int) (f : Option (List Int)) (d : ObjFields) :
    Option (Option (List Int) × ObjFields) :=
  let NUM_FACES := Int.tdiv num_f Step_f_idx
  (swapLoop NUM_FACES (NUM_FACES.toNat + 1) 0 f).bind fun f1 =>
  (invertLoop Step_v d.num_v (d.num_v.toNat + 1) 0 d.v).bind fun v1 =>
  (invertLoop Step_vn d.num_vn (d.num_vn.toNat + 1) 0 d.vn).bind fun vn1 =>
  some (f1, { d with v := v1, vn := vn1 })

/-- The loop `do ... while (lod != NULL)` of lines 832-853 from the object `lod` on. The
array `this->f` is carried along; the member `f` of the objects is not touched here. -/
def reverseLoop (num_f : Int) : Option (List Int) → OBJ → Option (Option (List Int) × OBJ)
  | f, .last d => (reverseLod num_f f d).map fun r => (r.1, OBJ.last r.2)
  | f, .link d n =>
    (reverseLod num_f f d).bind fun r =>
    (reverseLoop num_f r.1 n).map fun r1 => (r1.1, OBJ.link r.2 r1.2)

/-- The object with its member `f` replaced. -/
def OBJ.withF (f : Option (List Int)) : OBJ → OBJ
  | .last d => .last { d with f := f }
  | .link d n => .link { d with f := f } n

/-- `OBJ::Reverse`. -/
def OBJ.Reverse (this : OBJ) : Option OBJ :=
  (reverseLoop this.d.num_f this.d.f this).map fun r => r.2.withF r.1


/-! ## Notions used to state and prove the properties -/

/-- The element pushed for the component of `vertex` that starts at `pos`, `e` being the
position of the next `/` (`none`: there is none). -/
def component (vertex : Str) (pos : Nat) (e : Option Nat) : Int :=
  toInt32 (atoi ((substr vertex pos (e.map fun x => x - pos)).getD []) - 1)

/-- The three elements that lines 217-229 push for `vertex`, and the final `currentPos`. -/
def rawGroup (vertex : Str) : (Int × Int × Int) × Option Nat :=
  match find vertex '/' 0 with
  | none => ((component vertex 0 none, -1, -1), none)
  | some e1 =>
    match find vertex '/' (e1 + 1) with
    | none => ((component vertex 0 (some e1), component vertex (e1 + 1) none, -1), none)
    | some e2 =>
      ((component vertex 0 (some e1), component vertex (e1 + 1) (some e2),
          component vertex (e2 + 1) (find vertex '/' (e2 + 1))), find vertex '/' (e2 + 1))

/-- The loader with the messages `es` appended to its error log. -/
def addErrs (es : List Str) (s : Loader) : Loader := { s with errors := s.errors ++ es }

/-- The value that a block of lines 231-263 leaves in an element holding `x`, for an array
of `size` elements. -/
def resolved (size x : Int) : Int :=
  if x < -1 then (if size + (x + 1) < 0 then x else size + (x + 1)) else x

/-- The errors that a block of lines 231-263 records for an element holding `x`. -/
def relErr (file : File) (kind : Str) (size x : Int) : List Str :=
  if x < -1 ∧ size + (x + 1) < 0 then [lineTag file ++ relativeMsg kind (x + 1) size] else []

/-- The errors that a check of lines 270-281 records for an element holding `x`. -/
def rangeErr (file : File) (kind : Str) (size x : Int) : List Str :=
  if x ≥ size then [lineTag file ++ rangeMsg kind (toInt32 (x + 1))] else []

/-- The errors that line 266-269 records for the final `currentPos`. -/
def slashErr (file : File) (currentPos : Option Nat) : List Str :=
  if currentPos ≠ none then [lineTag file ++ slashMsg] else []

/-- `(int)currentLod->v.size()/Step_v`. -/
def sizeV (s : Loader) : Int := ((s.currentLod.v.length / Step_v : Nat) : Int)

/-- `(int)currentLod->vt.size()/Step_vt`. -/
def sizeVt (s : Loader) : Int := ((s.currentLod.vt.length / Step_vt : Nat) : Int)

/-- `(int)currentLod->vn.size()/Step_vn`. -/
def sizeVn (s : Loader) : Int := ((s.currentLod.vn.length / Step_vn : Nat) : Int)

/-- The three elements that the body of the vertex loop leaves in `face` for `vertex`. -/
def vertexTriple (s : Loader) (vertex : Str) : List Int :=
  [resolved (sizeV s) (rawGroup vertex).1.1, resolved (sizeVt s) (rawGroup vertex).1.2.1,
    resolved (sizeVn s) (rawGroup vertex).1.2.2]

/-- The errors that the body of the vertex loop records for `vertex`, in order. -/
def vertexErrs (file : File) (s : Loader) (vertex : Str) : List Str :=
  relErr file "v".toList (sizeV s) (rawGroup vertex).1.1 ++
  relErr file "vt".toList (sizeVt s) (rawGroup vertex).1.2.1 ++
  relErr file "vn".toList (sizeVn s) (rawGroup vertex).1.2.2 ++
  slashErr file (rawGroup vertex).2 ++
  rangeErr file "v".toList (sizeV s) (resolved (sizeV s) (rawGroup vertex).1.1) ++
  rangeErr file "vt".toList (sizeVt s) (resolved (sizeVt s) (rawGroup vertex).1.2.1) ++
  rangeErr file "vn".toList (sizeVn s) (resolved (sizeVn s) (rawGroup vertex).1.2.2)

/-- All blocks have three elements. -/
def Blocks3 (ts : List (List Int)) : Prop := ∀ t ∈ ts, t.length = 3

/-- The number of blocks from block `k` on that hold `-1` at place `r`. -/
def omittedFrom (ts : List (List Int)) (r k : Nat) : Nat :=
  (ts.drop k).countP fun t => decide (t[r]? = some (-1))

/-- The omission pattern of the blocks is uniform: at each of the three places the number
of blocks holding `-1` is a multiple of the number of blocks. -/
def Uniform (ts : List (List Int)) : Prop :=
  ∀ r, r < 3 → omittedFrom ts r 0 % ts.length = 0

instance (ts : List (List Int)) : Decidable (Uniform ts) := by
  unfold Uniform; infer_instance

/-- Triangle `k` of a fan over the blocks `ts`: the blocks `k+1`, `k` and `0`, in this
order. -/
def fanTri (ts : List (List Int)) (k : Nat) : List Int :=
  ts.getD (k + 1) [] ++ ts.getD k [] ++ ts.getD 0 []

/-- The triangles `k`, ..., `k+m-1` of the fan over `ts`, in increasing order. -/
def fanTris (ts : List (List Int)) (k m : Nat) : List Int :=
  (List.range m).flatMap fun j => fanTri ts (k + j)

/-- The vertex groups of an `f` line. -/
def groupsOf (file : File) : List Str := readStrings file.params

/-- The triples that the vertex loop leaves in `face` for the groups of an `f` line. -/
def triplesOf (file : File) (s : Loader) : List (List Int) :=
  (groupsOf file).map (vertexTriple s)

/-- The errors that the vertex loop records for the groups of an `f` line. -/
def groupErrs (file : File) (s : Loader) : List Str :=
  ((groupsOf file).map (vertexErrs file s)).flatten

/-- The step from `s` to `t` leaves the geometry of every pending context as it is and
drops no error: only the material list and the cursor of the active context, the
diagnostics and the object name may differ. -/
structure Frame (s t : Loader) : Prop where
  before : t.before = s.before
  after : t.after = s.after
  v : t.currentLod.v = s.currentLod.v
  vt : t.currentLod.vt = s.currentLod.vt
  vn : t.currentLod.vn = s.currentLod.vn
  f : t.currentLod.f = s.currentLod.f
  usemtl : t.currentLod.usemtl = s.currentLod.usemtl
  g : t.currentLod.g = s.currentLod.g
  errors : ∃ es, t.errors = s.errors ++ es

/-- Whenever the step `x` from `s` has a result, the result is framed by `s`. -/
def FrameOpt (s : Loader) (x : Option Loader) : Prop := ∀ t, x = some t → Frame s t

/-- The element `x` of `f` is `-1` or a valid index into an array of `n` elements. -/
def InRange (n x : Int) : Prop := x = -1 ∨ (0 ≤ x ∧ x < n)

/-- Every triple of the list `f` holds, in this order, an `InRange` position index for
`cv` positions, texture index for `cvt` texture coordinates and normal index for `cvn`
normals. -/
def okF (cv cvt cvn : Int) : List Int → Prop
  | [] => True
  | a :: b :: c :: rest => InRange cv a ∧ InRange cvt b ∧ InRange cvn c ∧ okF cv cvt cvn rest
  | _ => False

/-- The lists of a context have the shape of whole records: positions of four floats,
texture coordinates and normals of three, and one material index and one group name for
every nine elements of `f`. -/
def ObjData.Shaped (d : ObjData) : Prop :=
  d.v.length % 4 = 0 ∧ d.vt.length % 3 = 0 ∧ d.vn.length % 3 = 0 ∧
    d.f.length = 9 * d.usemtl.length ∧ d.f.length = 9 * d.g.length

/-- Every index of the list `f` of a context is `-1` or valid for the lists of the
context. -/
def ObjData.IndexOK (d : ObjData) : Prop :=
  okF ((d.v.length / 4 : Nat) : Int) ((d.vt.length / 3 : Nat) : Int)
    ((d.vn.length / 3 : Nat) : Int) d.f

/-- The invariant of the reading loop. -/
def Inv (s : Loader) : Prop :=
  (∀ d ∈ s.lodData, d.Shaped) ∧ (s.errors = [] → ∀ d ∈ s.lodData, d.IndexOK)

/-- The block `t` is a triple of indices that are `-1` or valid. -/
def GoodTriple (cv cvt cvn : Int) (t : List Int) : Prop :=
  ∃ a b c, t = [a, b, c] ∧ InRange cv a ∧ InRange cvt b ∧ InRange cvn c

/-- The object with members `d` is the materialization of the context `c`: every array has
the elements of the list of `c` in the same order and every count is the length of the
list, except that the element at each place `4k+2` of `v` and `3k+2` of `vn` is the negated
element of the list. -/
def Sealed (c : ObjData) (d : ObjFields) : Prop :=
  (∃ v : List F32, d.v = some v ∧
    ∀ j : Nat, v[j]? = (c.v[j]?).map fun x => if j % 4 = 2 then -x else x) ∧
  (∃ vn : List F32, d.vn = some vn ∧
    ∀ j : Nat, vn[j]? = (c.vn[j]?).map fun x => if j % 3 = 2 then -x else x) ∧
  d.vt = some c.vt ∧ d.newmtl = some c.newmtl ∧ d.f = some c.f ∧
  d.usemtl = some c.usemtl ∧ d.g = some c.g ∧
  d.num_v = (c.v.length : Int) ∧ d.num_vt = (c.vt.length : Int) ∧
  d.num_vn = (c.vn.length : Int) ∧ d.num_newmtl = (c.newmtl.length : Int) ∧
  d.num_f = (c.f.length : Int) ∧ d.num_usemtl = (c.usemtl.length : Int) ∧
  d.num_g = (c.g.length : Int)

/-- The element pushed for a component with the text `p`: `atoi(p) - 1`. -/
def elementOf (p : Str) : Int := toInt32 (atoi p - 1)

/-- A decimal numeral: a non-empty string of decimal digits. -/
def Numeral (ds : Str) : Prop := ds ≠ [] ∧ ∀ c ∈ ds, isdigit c = true

instance (ds : Str) : Decidable (Numeral ds) := by
  unfold Numeral; infer_instance

/-- A `float` extraction for sample files: the words `0` and `1` are read as `0.0f` and
`1.0f`, any other word ends the extraction. -/
def sampleFloats (s : Str) : List F32 :=
  ((readStrings s).takeWhile fun w => w = "0".toList || w = "1".toList).map fun w =>
    if w = "1".toList then f1_0 else f0_0

/-- A sample environment: one file, named `name`, with the content `text`. -/
def sampleEnv (name text : String) : Env :=
  { fs := fun n => if n = name.toList then some text.toList else none
    readFloats := sampleFloats }

/-- A sample `f` line: line 4 of `m.obj`, with the parameters `params`. -/
def sampleLine (params : String) : File :=
  { name := "m.obj".toList, lineNo := 4, type := "f".toList, params := params.toList }

/-- A sample loader state: one context holding the given number of positions. -/
def sampleLoader (positions : Nat) : Loader :=
  { Loader.init with
    currentLod := { ObjData.new with v := List.replicate (4 * positions) f0_0 } }

/-- A mesh file of one triangle. -/
def sampleTriangle : Env :=
  sampleEnv "m.obj" "v 0 0 0\nv 1 0 0\nv 0 1 0\nf 1 2 3"

/-- A mesh file with a valid line before and after a line of unknown keyword. -/
def sampleBroken : Env :=
  sampleEnv "m.obj" "v 0 0 0\nfoo\nv 1 0 0"

/-- The error that lines 231-263 have recorded for an element that they leave at `x`: one
`Relative index` message when `x` is below `-1` (the relative index `x + 1` could not be
resolved), none otherwise. -/
def unresolvedErr (file : File) (kind : Str) (size x : Int) : List Str :=
  if x < -1 then [lineTag file ++ relativeMsg kind (x + 1) size] else []

/-- A mesh file of five lines, each of an unknown keyword: five errors are recorded. -/
def sampleFiveErrors : Env :=
  sampleEnv "m.obj" "a\nb\nc\nd\ne"

/-- A mesh file of two levels of detail: one position, then, after `lod -1`, a triangle. -/
def sampleTwoLods : Env :=
  sampleEnv "m.obj" "v 0 0 0\nlod -1\nv 0 0 0\nv 1 0 0\nv 0 1 0\nf 1 2 3"

/-- A mesh file of three levels of detail, marked `A` (the initial one), `B` (made by
`lod 2`) and `C` (made by `lod 1`), each with one position. -/
def sampleRanks : Env :=
  sampleEnv "m.obj"
    "shadow_obj A\nv 0 0 0\nlod 2\nshadow_obj B\nv 0 0 0\nlod 1\nshadow_obj C\nv 0 0 0"

/-- A sample loader state: one context with the materials `red` and `blue`, nothing else. -/
def sampleMaterials : Loader :=
  { Loader.init with
    currentLod := { ObjData.new with
      newmtl := [{ MTL.new with newmtl := "red".toList },
        { MTL.new with newmtl := "blue".toList }] } }

/-- The ten keywords that the dispatch on a mesh line compares the keyword with before it
reaches its last branch (lines 190-697). -/
def actedUpon : List Str :=
  ["o", "v", "vt", "vn", "f", "g", "usemtl", "mtllib", "shadow_obj", "lod"].map String.toList

/-- The keyword that `ReadLine` takes from a line: its first blank-separated word. -/
def keywordOf (line : Str) : Str :=
  (line.dropWhile isspace).takeWhile fun c => !isspace c

/-- The names of the materials of a context, in the order of its material list. -/
def ObjData.names (d : ObjData) : List Str := d.newmtl.map MTL.newmtl

/-- The step from `s` to `t` leaves the contexts other than the active one as they are, and
in the active one it only appends to the names of the materials, without making two names
equal. -/
structure Grows (s t : Loader) : Prop where
  before : t.before = s.before
  after : t.after = s.after
  names : ∃ extra, t.currentLod.names = s.currentLod.names ++ extra
  nodup : s.currentLod.names.Nodup → t.currentLod.names.Nodup

/-- Whenever the step `x` from `s` has a result, the result grows `s`. -/
def GrowsOpt (s : Loader) (x : Option Loader) : Prop := ∀ t, x = some t → Grows s t

/-- In every pending context the names of the materials are pairwise different. -/
def UniqueNames (s : Loader) : Prop := ∀ d ∈ s.lodData, d.names.Nodup

/-- A mesh file `m.obj` that names the material file `r.mtl`, in which the material `red`
is defined twice, each time followed by a `Kd` line. -/
def sampleLibrary : Env :=
  { fs := fun n =>
      if n = "m.obj".toList then some "mtllib r.mtl".toList
      else if n = "r.mtl".toList then
        some "newmtl red\nKd 1 0 0\nnewmtl red\nKd 0 1 0".toList
      else none
    readFloats := sampleFloats }

/-- A file system that uses backslashes: the mesh file `dir\m.obj`, which names the
material file `r.mtl`, and the material file `dir\r.mtl` next to it. -/
def sampleBackslash : Env :=
  { fs := fun n =>
      if n = "dir\\m.obj".toList then some "mtllib r.mtl".toList
      else if n = "dir\\r.mtl".toList then some "newmtl red".toList
      else none
    readFloats := sampleFloats }

/-- A mesh file of one quadrilateral. -/
def sampleQuad : Env :=
  sampleEnv "m.obj" "v 0 0 0\nv 1 0 0\nv 1 1 0\nv 0 1 0\nf 1 2 3 4"

/-- A mesh file of one triangle that names a material file which does not exist. -/
def sampleMissingLibrary : Env :=
  sampleEnv "m.obj" "v 0 0 0\nv 1 0 0\nv 0 1 0\nf 1 2 3\nmtllib a.mtl b.mtl"

/-- The parameters that `ReadLine` takes from a line: the text after its keyword. -/
def paramsOf (line : Str) : Str :=
  (ReadLine { name := [], lineNo := 0, type := [], params := [] } line).params

/-- The warning of line 362 for the candidate `name`. -/
def couldNotOpen (file : File) (name : Str) : Str :=
  lineTag file ++ ("Could not open \"".toList ++ name ++ "\"".toList)

/-- The errors that a line of a material file records when no material is active and its
keyword is not `newmtl` (lines 676-688). -/
def orphanErr (file : File) : List Str :=
  if file.type = [] ∨ file.type.head? = some '#' then []
  else if file.type ∈ MTL_KEYWORDS then
    [lineTag file ++ ("\'".toList ++ file.type ++ "\' operating on undefined material".toList)]
  else [lineTag file ++ (" Unknown type \'".toList ++ file.type ++ "\'".toList)]

/-- The errors that the lines `lines`, read one after the other from the stream of `file`,
record when no material is active. -/
def orphanErrs : File → List Str → List Str
  | _, [] => []
  | file, line :: rest => orphanErr (ReadLine file line) ++ orphanErrs (ReadLine file line) rest

/-- Every pending context has the shape of whole records. -/
def AllShaped (s : Loader) : Prop := ∀ d ∈ s.lodData, d.Shaped

instance (d : ObjData) : Decidable d.Shaped := by
  unfold ObjData.Shaped; infer_instance

/-- Every pending context has the recorded rank (`state.lod`) 0. -/
def RankZero (s : Loader) : Prop := ∀ d ∈ s.lodData, d.state.lod = 0

/-- The step from `s` to `t` leaves the contexts other than the active one as they are, and
leaves the recorded rank of the active one as it is. -/
structure SameRank (s t : Loader) : Prop where
  before : t.before = s.before
  after : t.after = s.after
  lod : t.currentLod.state.lod = s.currentLod.state.lod

/-- Whenever the step `x` from `s` has a result, the result has the ranks of `s`. -/
def SameRankOpt (s : Loader) (x : Option Loader) : Prop := ∀ t, x = some t → SameRank s t

/-- The contexts among which an `lod` line with one parameter inserts the new context: the
pending contexts, without the active one if it holds no position and no face index. -/
def keptContexts (s : Loader) : List ObjData :=
  if s.currentLod.v.length = 0 ∧ s.currentLod.f.length = 0 then s.before ++ s.after
  else s.lodData

/-- The material indices of a context are in range: the active material index and every
entry of the list `usemtl` are at least `-1` and below the number of materials. -/
def ObjData.MtlOK (d : ObjData) : Prop :=
  (-1 ≤ d.state.usemtl ∧ d.state.usemtl < (d.newmtl.length : Int)) ∧
    ∀ x ∈ d.usemtl, -1 ≤ x ∧ x < (d.newmtl.length : Int)

instance (d : ObjData) : Decidable d.MtlOK := by
  unfold ObjData.MtlOK; infer_instance

/-- The material indices of every pending context are in range. -/
def AllMtlOK (s : Loader) : Prop := ∀ d ∈ s.lodData, d.MtlOK

/-- The step from `s` to `t` leaves the parse cursor of the active context as it is. -/
def SameState (s t : Loader) : Prop := t.currentLod.state = s.currentLod.state

/-- Whenever the step `x` from `s` has a result, the result has the parse cursor of `s`. -/
def SameStateOpt (s : Loader) (x : Option Loader) : Prop := ∀ t, x = some t → SameState s t

/-- A mesh file with a material file of two materials: a triangle made before any
`usemtl`, one made under `usemtl blue`, one under the undefined `usemtl green`. -/
def sampleStamps : Env :=
  { fs := fun n =>
      if n = "m.obj".toList then
        some ("v 0 0 0\nv 1 0 0\nv 0 1 0\nmtllib r.mtl\nf 1 2 3\nusemtl blue\nf 1 2 3\n" ++
          "usemtl green\nf 1 2 3").toList
      else if n = "r.mtl".toList then some "newmtl red\nnewmtl blue".toList
      else none
    readFloats := sampleFloats }

/-- The mesh file of `sampleStamps` without its undefined material, so that it is read
without error. -/
def sampleStamped : Env :=
  { fs := fun n =>
      if n = "m.obj".toList then
        some "v 0 0 0\nv 1 0 0\nv 0 1 0\nmtllib r.mtl\nf 1 2 3\nusemtl blue\nf 1 2 3".toList
      else if n = "r.mtl".toList then some "newmtl red\nnewmtl blue".toList
      else none
    readFloats := sampleFloats }

/-! ## Theorems -/

/-! ### The body of the vertex loop -/

theorem find_lt_length {s : Str} {c : Char} {p e : Nat} (h : find s c p = some e) :
    p ≤ e ∧ e < s.length := by
  unfold find at h
  split at h
  · rename_i hlt
    simp at h
    subst h
    simp [List.length_drop] at hlt ⊢
    omega
  · simp at h

theorem substr_some {s : Str} {p : Nat} (h : p ≤ s.length) (cnt : Option Nat) :
    substr s p cnt = some ((substr s p cnt).getD []) := by
  unfold substr
  cases cnt <;> simp [h]

theorem groupLoop_step (vertex : Str) (n i cp : Nat) (face : List Int)
    (h : cp + (if i != 0 then 1 else 0) ≤ vertex.length) :
    groupLoop vertex (n + 1) i (some cp) face =
      groupLoop vertex n (i + 1) (find vertex '/' (cp + (if i != 0 then 1 else 0)))
        (face ++ [component vertex (cp + (if i != 0 then 1 else 0))
          (find vertex '/' (cp + (if i != 0 then 1 else 0)))]) := by
  rw [groupLoop]
  rw [substr_some h]
  rfl

theorem groupLoop_rawGroup (vertex : Str) (face : List Int) :
    ∃ i f1, groupLoop vertex Step_f_idx_elem 0 (some 0) face = some (i, (rawGroup vertex).2, f1) ∧
      padGroup i f1 = face ++ [(rawGroup vertex).1.1, (rawGroup vertex).1.2.1, (rawGroup vertex).1.2.2] := by
  unfold rawGroup Step_f_idx_elem
  rw [groupLoop_step vertex 2 0 0 face (by simp)]
  simp only [bne_self_eq_false, Bool.false_eq_true, if_false, Nat.add_zero, Nat.zero_add]
  cases h1 : find vertex '/' 0 with
  | none => exact ⟨1, face ++ [component vertex 0 none], by simp [groupLoop], by simp [padGroup]⟩
  | some e1 =>
    have hl1 := (find_lt_length h1).2
    rw [groupLoop_step vertex 1 1 e1 _ (by simp; omega)]
    simp only [show ((1 : Nat) != 0) = true from rfl, if_true]
    cases h2 : find vertex '/' (e1 + 1) with
    | none => exact ⟨2, face ++ [component vertex 0 (some e1), component vertex (e1 + 1) none], by simp [groupLoop], by simp [padGroup]⟩
    | some e2 =>
      have hl2 := (find_lt_length h2).2
      rw [groupLoop_step vertex 0 2 e2 _ (by simp; omega)]
      simp only [show ((2 : Nat) != 0) = true from rfl, if_true]
      exact ⟨3, _, by simp [groupLoop]; rfl, by simp [padGroup]⟩

@[simp] theorem addErrs_nil (s : Loader) : addErrs [] s = s := by
  simp [addErrs]

@[simp] theorem addErrs_addErrs (a b : List Str) (s : Loader) :
    addErrs a (addErrs b s) = addErrs (b ++ a) s := by
  simp [addErrs]

@[simp] theorem addErrs_currentLod (a : List Str) (s : Loader) :
    (addErrs a s).currentLod = s.currentLod := rfl

theorem AddError_eq (file : File) (m : Str) (s : Loader) :
    AddError file m s = addErrs [lineTag file ++ m] s := rfl

theorem last3_0 (pre : List Int) (a b c : Int) :
    (pre ++ [a, b, c])[(pre ++ [a, b, c]).length - 3]? = some a := by
  have : (pre ++ [a, b, c]).length - 3 = pre.length := by simp
  rw [this, List.getElem?_append_right (le_refl _)]
  simp

theorem last3_1 (pre : List Int) (a b c : Int) :
    (pre ++ [a, b, c])[(pre ++ [a, b, c]).length - 2]? = some b := by
  have : (pre ++ [a, b, c]).length - 2 = pre.length + 1 := by simp
  rw [this, List.getElem?_append_right (by omega)]
  simp

theorem last3_2 (pre : List Int) (a b c : Int) :
    (pre ++ [a, b, c])[(pre ++ [a, b, c]).length - 1]? = some c := by
  have : (pre ++ [a, b, c]).length - 1 = pre.length + 2 := by simp
  rw [this, List.getElem?_append_right (by omega)]
  simp

theorem set3_0 (pre : List Int) (a b c x : Int) :
    (pre ++ [a, b, c]).set ((pre ++ [a, b, c]).length - 3) x = pre ++ [x, b, c] := by
  simp [List.set_append]

theorem set3_1 (pre : List Int) (a b c x : Int) :
    (pre ++ [a, b, c]).set ((pre ++ [a, b, c]).length - 2) x = pre ++ [a, x, c] := by
  have : pre.length + 3 - 2 = pre.length + 1 := by omega
  simp [this, List.set_append]

theorem set3_2 (pre : List Int) (a b c x : Int) :
    (pre ++ [a, b, c]).set ((pre ++ [a, b, c]).length - 1) x = pre ++ [a, b, x] := by
  have : pre.length + 3 - 1 = pre.length + 2 := by omega
  simp [this, List.set_append]

theorem resolveRelative_0 (file : File) (kind : Str) (size : Int) (pre : List Int)
    (a b c : Int) (s : Loader) :
    resolveRelative file kind size 3 (pre ++ [a, b, c]) s =
      some (pre ++ [resolved size a, b, c], addErrs (relErr file kind size a) s) := by
  unfold resolveRelative
  simp only [last3_0, set3_0]
  unfold resolved relErr
  by_cases h1 : a < -1 <;> by_cases h2 : size + (a + 1) < 0 <;> simp [h1, h2, AddError_eq]

theorem resolveRelative_1 (file : File) (kind : Str) (size : Int) (pre : List Int)
    (a b c : Int) (s : Loader) :
    resolveRelative file kind size 2 (pre ++ [a, b, c]) s =
      some (pre ++ [a, resolved size b, c], addErrs (relErr file kind size b) s) := by
  unfold resolveRelative
  simp only [last3_1, set3_1]
  unfold resolved relErr
  by_cases h1 : b < -1 <;> by_cases h2 : size + (b + 1) < 0 <;> simp [h1, h2, AddError_eq]

theorem resolveRelative_2 (file : File) (kind : Str) (size : Int) (pre : List Int)
    (a b c : Int) (s : Loader) :
    resolveRelative file kind size 1 (pre ++ [a, b, c]) s =
      some (pre ++ [a, b, resolved size c], addErrs (relErr file kind size c) s) := by
  unfold resolveRelative
  simp only [last3_2, set3_2]
  unfold resolved relErr
  by_cases h1 : c < -1 <;> by_cases h2 : size + (c + 1) < 0 <;> simp [h1, h2, AddError_eq]

theorem checkRange_0 (file : File) (kind : Str) (size : Int) (pre : List Int)
    (a b c : Int) (s : Loader) :
    checkRange file kind size 3 (pre ++ [a, b, c]) s =
      some (addErrs (rangeErr file kind size a) s) := by
  unfold checkRange
  rw [last3_0]
  unfold rangeErr
  by_cases h1 : a ≥ size <;> simp [h1, AddError_eq]

theorem checkRange_1 (file : File) (kind : Str) (size : Int) (pre : List Int)
    (a b c : Int) (s : Loader) :
    checkRange file kind size 2 (pre ++ [a, b, c]) s =
      some (addErrs (rangeErr file kind size b) s) := by
  unfold checkRange
  rw [last3_1]
  unfold rangeErr
  by_cases h1 : b ≥ size <;> simp [h1, AddError_eq]

theorem checkRange_2 (file : File) (kind : Str) (size : Int) (pre : List Int)
    (a b c : Int) (s : Loader) :
    checkRange file kind size 1 (pre ++ [a, b, c]) s =
      some (addErrs (rangeErr file kind size c) s) := by
  unfold checkRange
  rw [last3_2]
  unfold rangeErr
  by_cases h1 : c ≥ size <;> simp [h1, AddError_eq]

theorem vertexBody_eq (file : File) (vertex : Str) (face : List Int) (s : Loader) :
    vertexBody file vertex face s =
      some (face ++ vertexTriple s vertex, addErrs (vertexErrs file s vertex) s) := by
  obtain ⟨i, f1, h1, h2⟩ := groupLoop_rawGroup vertex face
  unfold vertexBody
  simp only [h1, h2]
  rw [resolveRelative_0]
  simp only [Option.bind_eq_bind, Option.some_bind]
  rw [resolveRelative_1]
  simp only [Option.some_bind]
  rw [resolveRelative_2]
  simp only [Option.some_bind]
  rw [checkRange_0]
  simp only [Option.some_bind]
  rw [checkRange_1]
  simp only [Option.some_bind]
  rw [checkRange_2]
  simp only [Option.some_bind]
  simp [vertexTriple, vertexErrs, sizeV, sizeVt, sizeVn, slashErr, AddError_eq]
  by_cases h : (rawGroup vertex).2 = none <;> simp [h]

/-! ### The vertex loop, the uniformity check and the fan loop -/

theorem vertexTriple_addErrs (es : List Str) (s : Loader) :
    vertexTriple (addErrs es s) = vertexTriple s := rfl

theorem vertexErrs_addErrs (file : File) (es : List Str) (s : Loader) :
    vertexErrs file (addErrs es s) = vertexErrs file s := rfl

theorem vertexLoop_eq (file : File) (vert : List Str) (face : List Int) (s : Loader) :
    vertexLoop file vert face s =
      some (face ++ (vert.map (vertexTriple s)).flatten,
        addErrs ((vert.map (vertexErrs file s)).flatten) s) := by
  induction vert generalizing face s with
  | nil => simp [vertexLoop]
  | cons v rest ih =>
    rw [vertexLoop, vertexBody_eq]
    simp only [Option.some_bind, Option.bind_eq_bind]
    rw [ih]
    simp [vertexTriple_addErrs, vertexErrs_addErrs, List.append_assoc]

theorem blocks3_vertex (s : Loader) (vert : List Str) : Blocks3 (vert.map (vertexTriple s)) := by
  intro t ht
  simp only [List.mem_map] at ht
  obtain ⟨v, _, rfl⟩ := ht
  rfl

theorem flatten_length3 (ts : List (List Int)) (h : Blocks3 ts) :
    ts.flatten.length = 3 * ts.length := by
  induction ts with
  | nil => rfl
  | cons t rest ih =>
    have h1 : t.length = 3 := h t (by simp)
    have h2 : Blocks3 rest := fun x hx => h x (by simp [hx])
    simp [ih h2, h1]
    omega

theorem flatten_get3 (ts : List (List Int)) (h : Blocks3 ts) (k r : Nat) (hr : r < 3) :
    ts.flatten[3 * k + r]? = (ts[k]?).bind fun t => t[r]? := by
  induction ts generalizing k with
  | nil => simp
  | cons t rest ih =>
    have h1 : t.length = 3 := h t (by simp)
    have h2 : Blocks3 rest := fun x hx => h x (by simp [hx])
    cases k with
    | zero =>
      simp only [List.flatten_cons, Nat.mul_zero, Nat.zero_add, List.getElem?_cons_zero,
        Option.some_bind]
      rw [List.getElem?_append_left (by omega)]
    | succ k =>
      simp only [List.flatten_cons, List.getElem?_cons_succ]
      rw [List.getElem?_append_right (by omega)]
      have : 3 * (k + 1) + r - t.length = 3 * k + r := by omega
      rw [this, ih h2]

theorem omittedFrom_ge (ts : List (List Int)) (r k : Nat) (h : ts.length ≤ k) :
    omittedFrom ts r k = 0 := by
  simp [omittedFrom, List.drop_eq_nil_of_le h]

theorem omittedFrom_lt (ts : List (List Int)) (r k : Nat) (h : k < ts.length) :
    omittedFrom ts r k =
      (if ts[k][r]? = some (-1) then 1 else 0) + omittedFrom ts r (k + 1) := by
  unfold omittedFrom
  rw [List.drop_eq_getElem_cons h, List.countP_cons]
  simp only [decide_eq_true_eq]
  omega

theorem countLoop_eq (ts : List (List Int)) (h : Blocks3 ts) (r : Nat) (hr : r < 3)
    (fuel k num : Nat) (hf : ts.length < k + fuel) (hf0 : 0 < fuel) :
    countLoop ts.flatten fuel (3 * k + r) num = some (num + omittedFrom ts r k) := by
  induction fuel generalizing k num with
  | zero => omega
  | succ fuel ih =>
    rw [countLoop, flatten_length3 ts h]
    by_cases hk : k < ts.length
    · have hj : 3 * k + r < 3 * ts.length := by omega
      rw [if_pos hj, flatten_get3 ts h k r hr]
      have ht : ts[k].length = 3 := h _ (List.getElem_mem _)
      have hx : ts[k][r]? = some (ts[k][r]) := List.getElem?_eq_getElem (by omega)
      simp only [List.getElem?_eq_getElem hk, Option.some_bind, hx]
      have : 3 * k + r + Step_f_idx = 3 * (k + 1) + r := by simp [Step_f_idx]; omega
      rw [this, ih (k + 1) _ (by omega) (by omega), omittedFrom_lt ts r k hk, hx]
      simp only [Option.some.injEq]
      by_cases hv : ts[k][r] = -1 <;> simp [hv]; omega
    · have hj : ¬ 3 * k + r < 3 * ts.length := by omega
      rw [if_neg hj, omittedFrom_ge ts r k (by omega)]
      rfl

theorem countLoop_start (ts : List (List Int)) (h : Blocks3 ts) (r : Nat) (hr : r < 3)
    (num : Nat) :
    countLoop ts.flatten (ts.flatten.length + 1) r num = some (num + omittedFrom ts r 0) := by
  have := countLoop_eq ts h r hr (ts.flatten.length + 1) 0 num
    (by rw [flatten_length3 ts h]; omega) (by omega)
  simpa using this

theorem flatten_div3 (ts : List (List Int)) (h : Blocks3 ts) :
    ts.flatten.length / Step_f_idx = ts.length := by
  rw [flatten_length3 ts h]; simp [Step_f_idx]

theorem mismatchLoop_cases (file : File) (ts : List (List Int)) (h : Blocks3 ts)
    (s : Loader) :
    (Uniform ts ∧ mismatchLoop file ts.flatten Step_f_idx 0 0 s = some (3, s)) ∨
    (¬ Uniform ts ∧ ∃ i, i < 3 ∧ mismatchLoop file ts.flatten Step_f_idx 0 0 s =
        some (i, AddError file "Vertex index mismatch".toList s)) := by
  have e0 := countLoop_start ts h 0 (by omega)
  have e1 := countLoop_start ts h 1 (by omega)
  have e2 := countLoop_start ts h 2 (by omega)
  have hd := flatten_div3 ts h
  by_cases h0 : omittedFrom ts 0 0 % ts.length = 0
  · by_cases h1 : omittedFrom ts 1 0 % ts.length = 0
    · by_cases h2 : omittedFrom ts 2 0 % ts.length = 0
      · left
        refine ⟨?_, ?_⟩
        · intro r hr
          interval_cases r <;> assumption
        · have h01 : (0 + omittedFrom ts 0 0 + omittedFrom ts 1 0) % ts.length = 0 := by
            rw [Nat.zero_add, Nat.add_mod, h0, h1]; simp
          have h012 : (0 + omittedFrom ts 0 0 + omittedFrom ts 1 0 + omittedFrom ts 2 0)
              % ts.length = 0 := by
            rw [Nat.add_mod, h01, h2]; simp
          simp only [Step_f_idx, mismatchLoop, e0, e1, e2, hd, Nat.zero_add] at *
          simp [h0, h01, h012]
      · right
        refine ⟨fun hu => h2 (hu 2 (by omega)), 2, by omega, ?_⟩
        have h01 : (0 + omittedFrom ts 0 0 + omittedFrom ts 1 0) % ts.length = 0 := by
          rw [Nat.zero_add, Nat.add_mod, h0, h1]; simp
        have h012 : (0 + omittedFrom ts 0 0 + omittedFrom ts 1 0 + omittedFrom ts 2 0)
            % ts.length ≠ 0 := by
          rw [Nat.add_mod, h01]; simpa using h2
        simp only [Step_f_idx, mismatchLoop, e0, e1, e2, hd, Nat.zero_add] at *
        simp [h0, h01, h012]
    · right
      refine ⟨fun hu => h1 (hu 1 (by omega)), 1, by omega, ?_⟩
      have h01 : (0 + omittedFrom ts 0 0 + omittedFrom ts 1 0) % ts.length ≠ 0 := by
        rw [Nat.zero_add, Nat.add_mod, h0]; simpa using h1
      simp only [Step_f_idx, mismatchLoop, e0, e1, e2, hd, Nat.zero_add] at *
      simp [h0, h01]
  · right
    refine ⟨fun hu => h0 (hu 0 (by omega)), 0, by omega, ?_⟩
    simp only [Step_f_idx, mismatchLoop, e0, e1, e2, hd, Nat.zero_add] at *
    simp [h0]

theorem block_eq (t : List Int) (h : t.length = 3) : ∃ a b c, t = [a, b, c] := by
  match t, h with
  | [a, b, c], _ => exact ⟨a, b, c, rfl⟩

theorem flatten_block (ts : List (List Int)) (h : Blocks3 ts) (k : Nat) (hk : k < ts.length) :
    ∃ a b c, ts.getD k [] = [a, b, c] ∧ ts.flatten[3 * k]? = some a ∧
      ts.flatten[3 * k + 1]? = some b ∧ ts.flatten[3 * k + 2]? = some c := by
  have ht : ts[k].length = 3 := h _ (List.getElem_mem _)
  obtain ⟨a, b, c, habc⟩ := block_eq _ ht
  refine ⟨a, b, c, ?_, ?_, ?_, ?_⟩
  · rw [List.getD_eq_getElem _ _ hk, habc]
  · have := flatten_get3 ts h k 0 (by omega)
    rw [Nat.add_zero] at this
    rw [this, List.getElem?_eq_getElem hk, habc]; rfl
  · rw [flatten_get3 ts h k 1 (by omega), List.getElem?_eq_getElem hk, habc]; rfl
  · rw [flatten_get3 ts h k 2 (by omega), List.getElem?_eq_getElem hk, habc]; rfl

theorem fanTris_succ (ts : List (List Int)) (k m : Nat) :
    fanTris ts k (m + 1) = fanTri ts k ++ fanTris ts (k + 1) m := by
  unfold fanTris
  rw [List.range_succ_eq_map]
  simp only [List.flatMap_cons, List.flatMap_map, Nat.add_zero]
  congr 1
  congr 1
  funext j
  congr 1
  omega

theorem fanLoop_eq (ts : List (List Int)) (h : Blocks3 ts) (m fuel k : Nat) (lod : ObjData)
    (hk : k + m + 1 = ts.length) (hf : m < fuel) :
    fanLoop ts.flatten fuel (3 * k) lod =
      some { lod with
        f := lod.f ++ fanTris ts k m
        usemtl := lod.usemtl ++ List.replicate m lod.state.usemtl
        g := lod.g ++ List.replicate m lod.state.g } := by
  induction m generalizing fuel k lod with
  | zero =>
    cases fuel with
    | zero => omega
    | succ fuel =>
      rw [fanLoop, flatten_length3 ts h]
      have : ¬ 3 * k < 3 * ts.length - Step_f_idx := by simp [Step_f_idx]; omega
      rw [if_neg this]
      simp [fanTris]
  | succ m ih =>
    cases fuel with
    | zero => omega
    | succ fuel =>
      rw [fanLoop, flatten_length3 ts h]
      have : 3 * k < 3 * ts.length - Step_f_idx := by simp [Step_f_idx]; omega
      rw [if_pos this]
      obtain ⟨a0, a1, a2, ha, ha0, ha1, ha2⟩ := flatten_block ts h (k + 1) (by omega)
      obtain ⟨b0, b1, b2, hb, hb0, hb1, hb2⟩ := flatten_block ts h k (by omega)
      obtain ⟨c0, c1, c2, hc, hc0, hc1, hc2⟩ := flatten_block ts h 0 (by omega)
      have e1 : 3 * k + Step_f_idx + IndexPos = 3 * (k + 1) := by
        simp [Step_f_idx, IndexPos]; omega
      have e2 : 3 * k + Step_f_idx + IndexTex = 3 * (k + 1) + 1 := by
        simp [Step_f_idx, IndexTex]; omega
      have e3 : 3 * k + Step_f_idx + IndexNor = 3 * (k + 1) + 2 := by
        simp [Step_f_idx, IndexNor]; omega
      have e4 : 3 * k + IndexPos = 3 * k := rfl
      have e5 : 3 * k + IndexTex = 3 * k + 1 := rfl
      have e6 : 3 * k + IndexNor = 3 * k + 2 := rfl
      have e7 : IndexPos = 3 * 0 := rfl
      have e8 : IndexTex = 3 * 0 + 1 := rfl
      have e9 : IndexNor = 3 * 0 + 2 := rfl
      have e10 : 3 * k + Step_f_idx = 3 * (k + 1) := by simp [Step_f_idx]; omega
      rw [e1, e2, e3, e4, e5, e6, e10]
      rw [ha0, ha1, ha2, hb0, hb1, hb2]
      simp only [Option.some_bind]
      rw [e7, e8, e9, hc0, hc1, hc2]
      simp only [Option.some_bind]
      rw [ih fuel (k + 1) _ (by omega) (by omega), fanTris_succ]
      simp only [fanTri, ha, hb, hc, List.replicate_succ, List.append_assoc, List.cons_append,
        List.nil_append]

theorem popBack_eq_take {T : Type} (n : Nat) (l : List T) :
    popBack n l = l.take (l.length - n) := by
  induction n generalizing l with
  | zero => simp [popBack]
  | succ n ih =>
    rw [popBack, ih, List.dropLast_eq_take, List.take_take, List.length_take]
    congr 1
    omega

theorem popBack_append {T : Type} (out vals : List T) :
    popBack vals.length (out ++ vals) = out := by
  rw [popBack_eq_take]
  simp

theorem handleF_few (file : File) (s : Loader) (h : (groupsOf file).length < 3) :
    handleF file s =
      some (AddError file (paramCountMsg file (groupsOf file).length 3 none) s) := by
  unfold handleF ReadParamsMin
  have h' : (((readStrings file.params).length : Nat) : Int) < ((Step_f_idx_elem : Nat) : Int) := by
    simp only [Step_f_idx_elem, groupsOf] at *
    exact_mod_cast h
  have hp : popBack (readStrings file.params).length ([] ++ readStrings file.params) = [] :=
    popBack_append [] _
  simp only [h', if_true, hp]
  simp [vertexLoop, Step_f_idx_elem, Step_f, Step_f_idx, groupsOf]

theorem handleF_uniform (file : File) (s : Loader) (h : 3 ≤ (groupsOf file).length)
    (hu : Uniform (triplesOf file s)) :
    handleF file s =
      some { addErrs (groupErrs file s) s with
        currentLod := { s.currentLod with
          f := s.currentLod.f ++ fanTris (triplesOf file s) 1 ((groupsOf file).length - 2)
          usemtl := s.currentLod.usemtl ++
            List.replicate ((groupsOf file).length - 2) s.currentLod.state.usemtl
          g := s.currentLod.g ++
            List.replicate ((groupsOf file).length - 2) s.currentLod.state.g } } := by
  unfold handleF ReadParamsMin
  have h' : ¬ (((readStrings file.params).length : Nat) : Int) < ((Step_f_idx_elem : Nat) : Int) := by
    simp only [Step_f_idx_elem, groupsOf] at *
    push_cast
    omega
  simp only [h', if_false, List.nil_append]
  rw [vertexLoop_eq]
  simp only [Option.some_bind, Option.bind_eq_bind, List.nil_append]
  have hb : Blocks3 (triplesOf file s) := blocks3_vertex s _
  have hlen : (triplesOf file s).length = (groupsOf file).length := by simp [triplesOf]
  have hfl := flatten_length3 _ hb
  rw [hlen] at hfl
  change (if (triplesOf file s).flatten.length % Step_f_idx_elem ≠ 0 then _
    else if (triplesOf file s).flatten.length ≥ Step_f then
      (mismatchLoop file (triplesOf file s).flatten Step_f_idx 0 0
        (addErrs (groupErrs file s) s)).bind _
    else _) = _
  have c1 : ¬ (triplesOf file s).flatten.length % Step_f_idx_elem ≠ 0 := by
    rw [hfl]; simp [Step_f_idx_elem]
  have c2 : (triplesOf file s).flatten.length ≥ Step_f := by
    rw [hfl]; simp [Step_f, Step_f_idx, Step_f_idx_elem]; omega
  rw [if_neg c1, if_pos c2]
  rcases mismatchLoop_cases file (triplesOf file s) hb (addErrs (groupErrs file s) s) with
    ⟨_, hm⟩ | ⟨hn, _⟩
  · rw [hm]
    simp only [Option.some_bind, Step_f_idx, if_true]
    have := fanLoop_eq (triplesOf file s) hb ((groupsOf file).length - 2)
      ((triplesOf file s).flatten.length + 1) 1 (addErrs (groupErrs file s) s).currentLod
      (by rw [hlen]; omega) (by rw [hfl]; omega)
    rw [Nat.mul_one] at this
    change (fanLoop (triplesOf file s).flatten ((triplesOf file s).flatten.length + 1) 3
      (addErrs (groupErrs file s) s).currentLod).bind _ = _
    rw [this]
    rfl
  · exact absurd hu hn

theorem handleF_mismatch (file : File) (s : Loader) (h : 3 ≤ (groupsOf file).length)
    (hu : ¬ Uniform (triplesOf file s)) :
    handleF file s =
      some (AddError file "Vertex index mismatch".toList (addErrs (groupErrs file s) s)) := by
  unfold handleF ReadParamsMin
  have h' : ¬ (((readStrings file.params).length : Nat) : Int) < ((Step_f_idx_elem : Nat) : Int) := by
    simp only [Step_f_idx_elem, groupsOf] at *
    push_cast
    omega
  simp only [h', if_false, List.nil_append]
  rw [vertexLoop_eq]
  simp only [Option.some_bind, Option.bind_eq_bind, List.nil_append]
  have hb : Blocks3 (triplesOf file s) := blocks3_vertex s _
  have hlen : (triplesOf file s).length = (groupsOf file).length := by simp [triplesOf]
  have hfl := flatten_length3 _ hb
  rw [hlen] at hfl
  change (if (triplesOf file s).flatten.length % Step_f_idx_elem ≠ 0 then _
    else if (triplesOf file s).flatten.length ≥ Step_f then
      (mismatchLoop file (triplesOf file s).flatten Step_f_idx 0 0
        (addErrs (groupErrs file s) s)).bind _
    else _) = _
  have c1 : ¬ (triplesOf file s).flatten.length % Step_f_idx_elem ≠ 0 := by
    rw [hfl]; simp [Step_f_idx_elem]
  have c2 : (triplesOf file s).flatten.length ≥ Step_f := by
    rw [hfl]; simp [Step_f, Step_f_idx, Step_f_idx_elem]; omega
  rw [if_neg c1, if_pos c2]
  rcases mismatchLoop_cases file (triplesOf file s) hb (addErrs (groupErrs file s) s) with
    ⟨hy, _⟩ | ⟨_, i, hi, hm⟩
  · exact absurd hy hu
  · rw [hm]
    simp only [Option.some_bind, Step_f_idx]
    rw [if_neg (by omega)]

/-! ### Steps that leave the geometry alone -/

theorem Frame.refl (s : Loader) : Frame s s :=
  ⟨rfl, rfl, rfl, rfl, rfl, rfl, rfl, rfl, ⟨[], by simp⟩⟩

theorem Frame.trans {s t u : Loader} (h1 : Frame s t) (h2 : Frame t u) : Frame s u := by
  obtain ⟨e1, he1⟩ := h1.errors
  obtain ⟨e2, he2⟩ := h2.errors
  exact ⟨h2.before.trans h1.before, h2.after.trans h1.after, h2.v.trans h1.v,
    h2.vt.trans h1.vt, h2.vn.trans h1.vn, h2.f.trans h1.f, h2.usemtl.trans h1.usemtl,
    h2.g.trans h1.g, ⟨e1 ++ e2, by rw [he2, he1, List.append_assoc]⟩⟩

theorem frame_AddError (file : File) (m : Str) (s : Loader) : Frame s (AddError file m s) :=
  ⟨rfl, rfl, rfl, rfl, rfl, rfl, rfl, rfl, ⟨_, rfl⟩⟩

theorem frame_AddWarning (file : File) (m : Str) (s : Loader) :
    Frame s (AddWarning file m s) :=
  ⟨rfl, rfl, rfl, rfl, rfl, rfl, rfl, rfl, ⟨[], by simp [AddWarning]⟩⟩

theorem frame_ReadParams {T : Type} (extract : Str → List T) (file : File) (a b : Int)
    (dv : T) (out : List T) (s : Loader) :
    Frame s (ReadParams extract file a b dv out s).2 := by
  unfold ReadParams
  dsimp only
  split
  · exact frame_AddError _ _ _
  · exact Frame.refl _

theorem frame_ReadParamsMin {T : Type} (extract : Str → List T) (file : File) (a : Int)
    (out : List T) (s : Loader) :
    Frame s (ReadParamsMin extract file a out s).2 := by
  unfold ReadParamsMin
  dsimp only
  split
  · exact frame_AddError _ _ _
  · exact Frame.refl _

theorem frameOpt_ite {c : Prop} [Decidable c] {s : Loader} {a b : Option Loader}
    (ha : FrameOpt s a) (hb : FrameOpt s b) : FrameOpt s (if c then a else b) := by
  split
  · exact ha
  · exact hb

theorem frameOpt_some {s t : Loader} (h : Frame s t) : FrameOpt s (some t) := by
  intro u hu
  cases hu
  exact h

theorem frameOpt_trans {s t : Loader} {x : Option Loader} (h : Frame s t)
    (hx : FrameOpt t x) : FrameOpt s x :=
  fun u hu => h.trans (hx u hu)

theorem frameOpt_setMtl (k : Nat) (fn : MTL → Option MTL) (s : Loader) :
    FrameOpt s (setMtl k fn s) := by
  intro t h
  unfold setMtl at h
  split at h
  · simp at h
  · rename_i m _
    cases hm : fn m with
    | none => simp [hm] at h
    | some m1 =>
      simp [hm] at h
      subst h
      exact ⟨rfl, rfl, rfl, rfl, rfl, rfl, rfl, rfl, ⟨[], by simp⟩⟩

theorem frameOpt_mtlColor (env : Env) (file : File) (k : Nat) (dv : F32)
    (get : MTL → List F32) (put : MTL → List F32 → MTL) (s : Loader) :
    FrameOpt s (mtlColor env file k dv get put s) := by
  unfold mtlColor
  dsimp only
  exact frameOpt_ite (frameOpt_trans (frame_ReadParams _ _ _ _ _ _ _) (frameOpt_setMtl _ _ _))
    (frameOpt_some (frame_ReadParams _ _ _ _ _ _ _))

theorem frameOpt_mtlScalar (env : Env) (file : File) (k : Nat) (dv : F32)
    (put : MTL → F32 → MTL) (s : Loader) :
    FrameOpt s (mtlScalar env file k dv put s) := by
  unfold mtlScalar
  dsimp only
  split
  · exact frameOpt_some (frame_ReadParams _ _ _ _ _ _ _)
  · exact frameOpt_trans (frame_ReadParams _ _ _ _ _ _ _) (frameOpt_setMtl _ _ _)

theorem frameOpt_mtlMap (env : Env) (file : File) (k : Nat) (put : MTL → Str → MTL)
    (s : Loader) : FrameOpt s (mtlMap env file k put s) := by
  unfold mtlMap
  dsimp only
  exact frameOpt_ite (frameOpt_trans (frame_ReadParamsMin _ _ _ _ _) (frameOpt_setMtl _ _ _))
    (frameOpt_some (frame_ReadParamsMin _ _ _ _ _))

theorem frameOpt_mtlProperty (env : Env) (file : File) (k : Nat) (s : Loader) :
    FrameOpt s (mtlProperty env file k s) := by
  unfold mtlProperty
  repeat' (with_reducible apply frameOpt_ite)
  all_goals first
    | with_reducible exact frameOpt_mtlColor _ _ _ _ _ _ _
    | with_reducible exact frameOpt_mtlScalar _ _ _ _ _ _
    | with_reducible exact frameOpt_mtlMap _ _ _ _ _
    | with_reducible exact frameOpt_trans (frame_ReadParams _ _ _ _ _ _ _) (frameOpt_setMtl _ _ _)
    | with_reducible exact frameOpt_some (frame_ReadParams _ _ _ _ _ _ _)
    | skip
  · dsimp only
    split
    · exact frameOpt_some (frame_ReadParams _ _ _ _ _ _ _)
    · exact frameOpt_trans (frame_ReadParams _ _ _ _ _ _ _) (frameOpt_setMtl _ _ _)
  · split
    · exact frameOpt_some (Frame.refl _)
    · repeat' (with_reducible apply frameOpt_ite)
      · exact frameOpt_some (frame_AddWarning _ _ _)
      · exact frameOpt_some (frame_AddError _ _ _)
      · exact frameOpt_some (Frame.refl _)

theorem frame_mtlOrphan (file : File) (s : Loader) : Frame s (mtlOrphan file s) := by
  unfold mtlOrphan
  split
  · exact Frame.refl _
  · split
    · split
      · exact frame_AddError _ _ _
      · exact frame_AddError _ _ _
    · exact Frame.refl _

theorem frame_handleNewmtl (file : File) (s : Loader) : Frame s (handleNewmtl file s).2 := by
  unfold handleNewmtl
  dsimp only
  split
  · exact frame_ReadParams _ _ _ _ _ _ _
  · split
    · exact (frame_ReadParams _ _ _ _ _ _ _).trans
        ⟨rfl, rfl, rfl, rfl, rfl, rfl, rfl, rfl, ⟨[], by simp⟩⟩
    · exact (frame_ReadParams _ _ _ _ _ _ _).trans (frame_AddError _ _ _)

theorem frame_mtlLine (env : Env) (file : File) (mtl : Option Nat) (s : Loader)
    (r : Option Nat × Loader) (h : mtlLine env file mtl s = some r) : Frame s r.2 := by
  unfold mtlLine at h
  split at h
  · cases h
    exact frame_handleNewmtl _ _
  · split at h
    · rename_i k
      cases hp : mtlProperty env file k s with
      | none => simp [hp] at h
      | some t =>
        simp [hp] at h
        subst h
        exact frameOpt_mtlProperty env file k s t hp
    · cases h
      exact frame_mtlOrphan _ _

theorem frame_mtlLoop (env : Env) (lines : List Str) (file : File) (mtl : Option Nat)
    (s t : Loader) (h : mtlLoop env lines file mtl s = some t) : Frame s t := by
  induction lines generalizing file mtl s with
  | nil =>
    simp [mtlLoop] at h
    subst h
    exact Frame.refl _
  | cons line rest ih =>
    rw [mtlLoop] at h
    cases hl : mtlLine env (ReadLine file line) mtl s with
    | none => simp [hl] at h
    | some r =>
      simp [hl] at h
      exact (frame_mtlLine _ _ _ _ _ hl).trans (ih _ _ _ h)

theorem frame_openLoop (env : Env) (wd : Str) (file : File) (names : List Str) (s : Loader) :
    Frame s (openLoop env wd file names s).2 := by
  induction names generalizing s with
  | nil => exact Frame.refl _
  | cons it rest ih =>
    rw [openLoop]
    split
    · exact Frame.refl _
    · exact (frame_AddWarning _ _ _).trans (ih _)

theorem frame_handleMtllib (env : Env) (wd : Str) (file : File) (s t : Loader)
    (h : handleMtllib env wd file s = some t) : Frame s t := by
  unfold handleMtllib at h
  dsimp only at h
  have h1 := frame_ReadParamsMin readStrings file 1 [] s
  have h2 := frame_openLoop env wd file (ReadParamsMin readStrings file 1 [] s).1
    (ReadParamsMin readStrings file 1 [] s).2
  split at h
  · exact (h1.trans h2).trans (frame_mtlLoop _ _ _ _ _ _ h)
  · cases h
    exact (h1.trans h2).trans (frame_AddError _ _ _)

theorem frame_handleUsemtl (file : File) (s t : Loader)
    (h : handleUsemtl file s = some t) : Frame s t := by
  unfold handleUsemtl at h
  dsimp only at h
  have h1 := frame_ReadParams readStrings file 1 1 [] [] s
  split at h
  · simp at h
  · split at h
    · cases h
      exact h1.trans ⟨rfl, rfl, rfl, rfl, rfl, rfl, rfl, rfl, ⟨[], by simp⟩⟩
    · cases h
      exact h1.trans ((frame_AddError _ _ _).trans
        ⟨rfl, rfl, rfl, rfl, rfl, rfl, rfl, rfl, ⟨[], by simp⟩⟩)

theorem frame_handleOther (file : File) (s : Loader) : Frame s (handleOther file s) := by
  unfold handleOther
  split
  · exact Frame.refl _
  · split
    · split
      · exact frame_AddWarning _ _ _
      · exact frame_AddError _ _ _
    · exact Frame.refl _

theorem InRange.mono {n m x : Int} (h : InRange n x) (hnm : n ≤ m) : InRange m x := by
  rcases h with h | ⟨h1, h2⟩
  · exact Or.inl h
  · exact Or.inr ⟨h1, by omega⟩

theorem okF_mono {cv cvt cvn cv' cvt' cvn' : Int} (h1 : cv ≤ cv') (h2 : cvt ≤ cvt')
    (h3 : cvn ≤ cvn') : ∀ (l : List Int), okF cv cvt cvn l → okF cv' cvt' cvn' l
  | [], _ => trivial
  | [_], h => h.elim
  | [_, _], h => h.elim
  | _ :: _ :: _ :: rest, h =>
    ⟨h.1.mono h1, h.2.1.mono h2, h.2.2.1.mono h3, okF_mono h1 h2 h3 rest h.2.2.2⟩

theorem okF_append {cv cvt cvn : Int} : ∀ (l1 l2 : List Int), okF cv cvt cvn l1 →
    okF cv cvt cvn l2 → okF cv cvt cvn (l1 ++ l2)
  | [], _, _, h2 => h2
  | [_], _, h, _ => h.elim
  | [_, _], _, h, _ => h.elim
  | _ :: _ :: _ :: rest, l2, h, h2 =>
    ⟨h.1, h.2.1, h.2.2.1, okF_append rest l2 h.2.2.2 h2⟩

theorem okF_get {cv cvt cvn : Int} : ∀ (l : List Int), okF cv cvt cvn l →
    ∀ (j : Nat) (x : Int), l[j]? = some x →
      InRange (if j % 3 = 0 then cv else if j % 3 = 1 then cvt else cvn) x
  | [], _, j, x, hx => by simp at hx
  | [_], h, _, _, _ => h.elim
  | [_, _], h, _, _, _ => h.elim
  | a :: b :: c :: rest, h, j, x, hx => by
    match j with
    | 0 => simp at hx; subst hx; simpa using h.1
    | 1 => simp at hx; subst hx; simpa using h.2.1
    | 2 => simp at hx; subst hx; simpa using h.2.2.1
    | j + 3 =>
      have := okF_get rest h.2.2.2 j x (by simpa using hx)
      have e : (j + 3) % 3 = j % 3 := by omega
      rw [e]
      exact this

theorem inv_frame {s t : Loader} (h : Frame s t) (hi : Inv s) : Inv t := by
  obtain ⟨es, hes⟩ := h.errors
  have key : ∀ d ∈ t.lodData, ∃ d' ∈ s.lodData, d.v = d'.v ∧ d.vt = d'.vt ∧ d.vn = d'.vn ∧
      d.f = d'.f ∧ d.usemtl = d'.usemtl ∧ d.g = d'.g := by
    intro d hd
    simp only [Loader.lodData, List.mem_append, List.mem_cons, h.before, h.after] at hd ⊢
    rcases hd with hd | hd | hd
    · exact ⟨d, Or.inl hd, rfl, rfl, rfl, rfl, rfl, rfl⟩
    · subst hd
      exact ⟨s.currentLod, Or.inr (Or.inl rfl), h.v, h.vt, h.vn, h.f, h.usemtl, h.g⟩
    · exact ⟨d, Or.inr (Or.inr hd), rfl, rfl, rfl, rfl, rfl, rfl⟩
  constructor
  · intro d hd
    obtain ⟨d', hd', e1, e2, e3, e4, e5, e6⟩ := key d hd
    have := hi.1 d' hd'
    simpa only [ObjData.Shaped, e1, e2, e3, e4, e5, e6] using this
  · intro he d hd
    have hs : s.errors = [] := by
      rw [hes] at he
      exact (List.append_eq_nil.mp he).1
    obtain ⟨d', hd', e1, e2, e3, e4, e5, e6⟩ := key d hd
    have := hi.2 hs d' hd'
    simpa only [ObjData.IndexOK, e1, e2, e3, e4, e5, e6] using this

/-- The active context is replaced by `d` and the error log is extended: what has to hold
of `d` for the invariant to be kept. -/
theorem inv_current {s t : Loader} (hi : Inv s) (hb : t.before = s.before)
    (ha : t.after = s.after) (he : ∃ es, t.errors = s.errors ++ es)
    (hs : s.currentLod.Shaped → t.currentLod.Shaped)
    (hk : t.errors = [] → s.currentLod.Shaped → s.currentLod.IndexOK → t.currentLod.IndexOK) :
    Inv t := by
  obtain ⟨es, hes⟩ := he
  have hcur : s.currentLod ∈ s.lodData := by simp [Loader.lodData]
  constructor
  · intro d hd
    simp only [Loader.lodData, List.mem_append, List.mem_cons, hb, ha] at hd
    rcases hd with hd | hd | hd
    · exact hi.1 d (by simp [Loader.lodData, hd])
    · subst hd; exact hs (hi.1 _ hcur)
    · exact hi.1 d (by simp [Loader.lodData, hd])
  · intro he d hd
    have hs0 : s.errors = [] := by
      rw [hes] at he
      exact (List.append_eq_nil.mp he).1
    simp only [Loader.lodData, List.mem_append, List.mem_cons, hb, ha] at hd
    rcases hd with hd | hd | hd
    · exact hi.2 hs0 d (by simp [Loader.lodData, hd])
    · subst hd; exact hk he (hi.1 _ hcur) (hi.2 hs0 _ hcur)
    · exact hi.2 hs0 d (by simp [Loader.lodData, hd])

theorem ReadParams_length {T : Type} (extract : Str → List T) (file : File) (a b : Int)
    (dv : T) (out : List T) (s : Loader) :
    (ReadParams extract file a b dv out s).1.length = out.length ∨
      (ReadParams extract file a b dv out s).1.length = out.length + b.toNat := by
  unfold ReadParams
  dsimp only
  split
  · left; rw [popBack_append]
  · right
    rename_i h
    simp only [List.length_append, List.length_replicate]
    omega

/-! ### The invariant of the reading loop -/

theorem resolved_inRange (file : File) (kind : Str) (size x : Int)
    (h1 : relErr file kind size x = []) (h2 : rangeErr file kind size (resolved size x) = []) :
    InRange size (resolved size x) := by
  unfold relErr at h1
  unfold rangeErr at h2
  unfold resolved at h2 ⊢
  unfold InRange
  by_cases hx : x < -1
  · by_cases ha : size + (x + 1) < 0
    · simp [hx, ha] at h1
    · simp only [hx, ha, if_true, if_false] at h2 ⊢
      right; omega
  · simp only [hx, if_false] at h2 ⊢
    by_cases hr : x ≥ size
    · simp [hr] at h2
    · omega

theorem goodTriple_of_noErrs (file : File) (s : Loader) (vertex : Str)
    (h : vertexErrs file s vertex = []) :
    GoodTriple (sizeV s) (sizeVt s) (sizeVn s) (vertexTriple s vertex) := by
  unfold vertexErrs at h
  simp only [List.append_eq_nil] at h
  obtain ⟨⟨⟨⟨⟨⟨r1, r2⟩, r3⟩, _⟩, c1⟩, c2⟩, c3⟩ := h
  exact ⟨_, _, _, rfl, resolved_inRange _ _ _ _ r1 c1, resolved_inRange _ _ _ _ r2 c2,
    resolved_inRange _ _ _ _ r3 c3⟩

theorem okF_good3 {cv cvt cvn : Int} {t1 t2 t3 : List Int} (h1 : GoodTriple cv cvt cvn t1)
    (h2 : GoodTriple cv cvt cvn t2) (h3 : GoodTriple cv cvt cvn t3) :
    okF cv cvt cvn (t1 ++ t2 ++ t3) := by
  obtain ⟨a1, b1, c1, rfl, x1, y1, z1⟩ := h1
  obtain ⟨a2, b2, c2, rfl, x2, y2, z2⟩ := h2
  obtain ⟨a3, b3, c3, rfl, x3, y3, z3⟩ := h3
  exact ⟨x1, y1, z1, x2, y2, z2, x3, y3, z3, trivial⟩

theorem fanTris_ok {cv cvt cvn : Int} (ts : List (List Int))
    (h : ∀ t ∈ ts, GoodTriple cv cvt cvn t) (m k : Nat) (hk : k + m + 1 ≤ ts.length) :
    okF cv cvt cvn (fanTris ts k m) ∧ (fanTris ts k m).length = 9 * m := by
  induction m generalizing k with
  | zero => simp [fanTris, okF]
  | succ m ih =>
    rw [fanTris_succ]
    have g : ∀ i, i < ts.length → GoodTriple cv cvt cvn (ts.getD i []) := by
      intro i hi
      rw [List.getD_eq_getElem _ _ hi]
      exact h _ (List.getElem_mem _)
    have g1 := g (k + 1) (by omega)
    have g2 := g k (by omega)
    have g3 := g 0 (by omega)
    obtain ⟨i1, i2⟩ := ih (k + 1) (by omega)
    refine ⟨okF_append _ _ (okF_good3 g1 g2 g3) i1, ?_⟩
    obtain ⟨a1, b1, c1, e1, -⟩ := g1
    obtain ⟨a2, b2, c2, e2, -⟩ := g2
    obtain ⟨a3, b3, c3, e3, -⟩ := g3
    simp only [fanTri, e1, e2, e3, List.length_append, i2, List.length_cons, List.length_nil]
    omega

theorem fanTris_length (ts : List (List Int)) (h : Blocks3 ts) (m k : Nat)
    (hk : k + m + 1 ≤ ts.length) : (fanTris ts k m).length = 9 * m := by
  induction m generalizing k with
  | zero => simp [fanTris]
  | succ m ih =>
    rw [fanTris_succ]
    have g : ∀ i, i < ts.length → (ts.getD i []).length = 3 := by
      intro i hi
      rw [List.getD_eq_getElem _ _ hi]
      exact h _ (List.getElem_mem _)
    simp only [fanTri, List.length_append, g (k + 1) (by omega), g k (by omega),
      g 0 (by omega), ih (k + 1) (by omega)]
    omega

theorem inv_handleF (file : File) (s t : Loader) (h : handleF file s = some t)
    (hi : Inv s) : Inv t := by
  by_cases hn : (groupsOf file).length < 3
  · rw [handleF_few file s hn] at h
    cases h
    exact inv_frame (frame_AddError _ _ _) hi
  · have hn3 : 3 ≤ (groupsOf file).length := by omega
    have hfr : Frame s (addErrs (groupErrs file s) s) :=
      ⟨rfl, rfl, rfl, rfl, rfl, rfl, rfl, rfl, ⟨_, rfl⟩⟩
    by_cases hu : Uniform (triplesOf file s)
    · rw [handleF_uniform file s hn3 hu] at h
      cases h
      have hb : Blocks3 (triplesOf file s) := blocks3_vertex s _
      have hlen : (triplesOf file s).length = (groupsOf file).length := by simp [triplesOf]
      have hl := fanTris_length (triplesOf file s) hb ((groupsOf file).length - 2) 1
        (by rw [hlen]; omega)
      refine inv_current hi rfl rfl ⟨_, rfl⟩ ?_ ?_
      · intro hs
        obtain ⟨h1, h2, h3, h4, h5⟩ := hs
        refine ⟨h1, h2, h3, ?_, ?_⟩
        · simp only [List.length_append, hl, List.length_replicate]; omega
        · simp only [List.length_append, hl, List.length_replicate]; omega
      · intro he _ hk
        have hE : groupErrs file s = [] := (List.append_eq_nil.mp he).2
        have hall : ∀ t ∈ triplesOf file s,
            GoodTriple (sizeV s) (sizeVt s) (sizeVn s) t := by
          intro t ht
          simp only [triplesOf, List.mem_map] at ht
          obtain ⟨v, hv, rfl⟩ := ht
          apply goodTriple_of_noErrs file
          unfold groupErrs at hE
          rw [List.flatten_eq_nil_iff] at hE
          exact hE _ (List.mem_map_of_mem _ hv)
        exact okF_append _ _ hk
          (fanTris_ok _ hall ((groupsOf file).length - 2) 1 (by rw [hlen]; omega)).1
    · rw [handleF_mismatch file s hn3 hu] at h
      cases h
      exact inv_frame (hfr.trans (frame_AddError _ _ _)) hi

theorem inv_init : Inv Loader.init := by
  constructor
  · intro d hd
    simp only [Loader.lodData, Loader.init, List.nil_append, List.mem_singleton] at hd
    subst hd
    simp [ObjData.Shaped, ObjData.new]
  · intro _ d hd
    simp only [Loader.lodData, Loader.init, List.nil_append, List.mem_singleton] at hd
    subst hd
    simp [ObjData.IndexOK, ObjData.new, okF]

theorem inv_new : ObjData.new.Shaped ∧ ObjData.new.IndexOK := by
  simp [ObjData.Shaped, ObjData.IndexOK, ObjData.new, okF]

theorem inv_readV (env : Env) (file : File) (s : Loader) (hi : Inv s) :
    Inv { (ReadParams env.readFloats file ((Step_v - 1 : Nat) : Int) (Step_v : Nat) f1_0
            s.currentLod.v s).2 with
          currentLod := { (ReadParams env.readFloats file ((Step_v - 1 : Nat) : Int)
              (Step_v : Nat) f1_0 s.currentLod.v s).2.currentLod with
            v := (ReadParams env.readFloats file ((Step_v - 1 : Nat) : Int) (Step_v : Nat)
              f1_0 s.currentLod.v s).1 } } := by
  have hf := frame_ReadParams env.readFloats file ((Step_v - 1 : Nat) : Int) (Step_v : Nat) f1_0
    s.currentLod.v s
  have hl := ReadParams_length env.readFloats file ((Step_v - 1 : Nat) : Int) (Step_v : Nat)
    f1_0 s.currentLod.v s
  have e4 : ((Step_v : Nat) : Int).toNat = 4 := rfl
  rw [e4] at hl
  refine inv_current hi hf.before hf.after hf.errors ?_ ?_
  · intro hs
    obtain ⟨h1, h2, h3, h4, h5⟩ := hs
    refine ⟨?_, ?_, ?_, ?_, ?_⟩
    · show List.length _ % 4 = 0
      rcases hl with hl | hl <;> (rw [hl]; omega)
    · show List.length _ % 3 = 0
      rw [hf.vt]; exact h2
    · show List.length _ % 3 = 0
      rw [hf.vn]; exact h3
    · show List.length _ = 9 * List.length _
      rw [hf.f, hf.usemtl]; exact h4
    · show List.length _ = 9 * List.length _
      rw [hf.f, hf.g]; exact h5
  · intro _ _ hk
    unfold ObjData.IndexOK at hk ⊢
    show okF _ _ _ _
    simp only [hf.vt, hf.vn, hf.f]
    refine okF_mono ?_ (le_refl _) (le_refl _) _ hk
    have : s.currentLod.v.length / 4 ≤ (ReadParams env.readFloats file ((Step_v - 1 : Nat) : Int)
        (Step_v : Nat) f1_0 s.currentLod.v s).1.length / 4 := by
      apply Nat.div_le_div_right
      rcases hl with hl | hl <;> omega
    exact_mod_cast this

theorem inv_readVt (env : Env) (file : File) (s : Loader) (hi : Inv s) :
    Inv { (ReadParams env.readFloats file ((Step_vt - 2 : Nat) : Int) (Step_vt : Nat) f0_0
            s.currentLod.vt s).2 with
          currentLod := { (ReadParams env.readFloats file ((Step_vt - 2 : Nat) : Int)
              (Step_vt : Nat) f0_0 s.currentLod.vt s).2.currentLod with
            vt := (ReadParams env.readFloats file ((Step_vt - 2 : Nat) : Int) (Step_vt : Nat)
              f0_0 s.currentLod.vt s).1 } } := by
  have hf := frame_ReadParams env.readFloats file ((Step_vt - 2 : Nat) : Int) (Step_vt : Nat)
    f0_0 s.currentLod.vt s
  have hl := ReadParams_length env.readFloats file ((Step_vt - 2 : Nat) : Int) (Step_vt : Nat)
    f0_0 s.currentLod.vt s
  have e4 : ((Step_vt : Nat) : Int).toNat = 3 := rfl
  rw [e4] at hl
  refine inv_current hi hf.before hf.after hf.errors ?_ ?_
  · intro hs
    obtain ⟨h1, h2, h3, h4, h5⟩ := hs
    refine ⟨?_, ?_, ?_, ?_, ?_⟩
    · show List.length _ % 4 = 0
      rw [hf.v]; exact h1
    · show List.length _ % 3 = 0
      rcases hl with hl | hl <;> (rw [hl]; omega)
    · show List.length _ % 3 = 0
      rw [hf.vn]; exact h3
    · show List.length _ = 9 * List.length _
      rw [hf.f, hf.usemtl]; exact h4
    · show List.length _ = 9 * List.length _
      rw [hf.f, hf.g]; exact h5
  · intro _ _ hk
    unfold ObjData.IndexOK at hk ⊢
    show okF _ _ _ _
    simp only [hf.v, hf.vn, hf.f]
    refine okF_mono (le_refl _) ?_ (le_refl _) _ hk
    have : s.currentLod.vt.length / 3 ≤ (ReadParams env.readFloats file
        ((Step_vt - 2 : Nat) : Int) (Step_vt : Nat) f0_0 s.currentLod.vt s).1.length / 3 := by
      apply Nat.div_le_div_right
      rcases hl with hl | hl <;> omega
    exact_mod_cast this

theorem inv_readVn (env : Env) (file : File) (s : Loader) (hi : Inv s) :
    Inv { (ReadParams env.readFloats file (Step_vn : Nat) (Step_vn : Nat) f0_0
            s.currentLod.vn s).2 with
          currentLod := { (ReadParams env.readFloats file (Step_vn : Nat)
              (Step_vn : Nat) f0_0 s.currentLod.vn s).2.currentLod with
            vn := (ReadParams env.readFloats file (Step_vn : Nat) (Step_vn : Nat)
              f0_0 s.currentLod.vn s).1 } } := by
  have hf := frame_ReadParams env.readFloats file (Step_vn : Nat) (Step_vn : Nat)
    f0_0 s.currentLod.vn s
  have hl := ReadParams_length env.readFloats file (Step_vn : Nat) (Step_vn : Nat)
    f0_0 s.currentLod.vn s
  have e4 : ((Step_vn : Nat) : Int).toNat = 3 := rfl
  rw [e4] at hl
  refine inv_current hi hf.before hf.after hf.errors ?_ ?_
  · intro hs
    obtain ⟨h1, h2, h3, h4, h5⟩ := hs
    refine ⟨?_, ?_, ?_, ?_, ?_⟩
    · show List.length _ % 4 = 0
      rw [hf.v]; exact h1
    · show List.length _ % 3 = 0
      rw [hf.vt]; exact h2
    · show List.length _ % 3 = 0
      rcases hl with hl | hl <;> (rw [hl]; omega)
    · show List.length _ = 9 * List.length _
      rw [hf.f, hf.usemtl]; exact h4
    · show List.length _ = 9 * List.length _
      rw [hf.f, hf.g]; exact h5
  · intro _ _ hk
    unfold ObjData.IndexOK at hk ⊢
    show okF _ _ _ _
    simp only [hf.v, hf.vt, hf.f]
    refine okF_mono (le_refl _) (le_refl _) ?_ _ hk
    have : s.currentLod.vn.length / 3 ≤ (ReadParams env.readFloats file
        (Step_vn : Nat) (Step_vn : Nat) f0_0 s.currentLod.vn s).1.length / 3 := by
      apply Nat.div_le_div_right
      rcases hl with hl | hl <;> omega
    exact_mod_cast this

theorem lodSearch_append (front : Int) (l : List ObjData) :
    (lodSearch front l).1 ++ (lodSearch front l).2 = l := by
  induction l with
  | nil => rfl
  | cons d rest ih =>
    rw [lodSearch]
    split
    · rfl
    · simp [ih]

theorem inv_handleLod (file : File) (s : Loader) (hi : Inv s) : Inv (handleLod file s) := by
  have hf := frame_ReadParams readInts file 1 1 0 [] s
  have hr := inv_frame hf hi
  unfold handleLod
  dsimp only
  split
  · rename_i front _
    have sub : ∀ (l : List ObjData), (∀ d ∈ l, d ∈ (ReadParams readInts file 1 1 0 [] s).2.lodData) →
        ∀ d ∈ (lodSearch front l).1 ++ ObjData.new :: (lodSearch front l).2,
          d = ObjData.new ∨ d ∈ (ReadParams readInts file 1 1 0 [] s).2.lodData := by
      intro l hl d hd
      simp only [List.mem_append, List.mem_cons] at hd
      have hmem : ∀ x, x ∈ (lodSearch front l).1 ∨ x ∈ (lodSearch front l).2 → x ∈ l := by
        intro x hx
        rw [← lodSearch_append front l]
        exact List.mem_append.mpr hx
      rcases hd with hd | hd | hd
      · exact Or.inr (hl d (hmem d (Or.inl hd)))
      · exact Or.inl hd
      · exact Or.inr (hl d (hmem d (Or.inr hd)))
    split
    · have hl : ∀ d ∈ (ReadParams readInts file 1 1 0 [] s).2.before ++
          (ReadParams readInts file 1 1 0 [] s).2.after,
          d ∈ (ReadParams readInts file 1 1 0 [] s).2.lodData := by
        intro d hd
        simp only [Loader.lodData, List.mem_append, List.mem_cons] at hd ⊢
        tauto
      constructor
      · intro d hd
        rcases sub _ hl d hd with h | h
        · subst h; exact inv_new.1
        · exact hr.1 d h
      · intro he d hd
        rcases sub _ hl d hd with h | h
        · subst h; exact inv_new.2
        · exact hr.2 he d h
    · constructor
      · intro d hd
        rcases sub _ (fun d hd => hd) d hd with h | h
        · subst h; exact inv_new.1
        · exact hr.1 d h
      · intro he d hd
        rcases sub _ (fun d hd => hd) d hd with h | h
        · subst h; exact inv_new.2
        · exact hr.2 he d h
  · exact hr

theorem inv_objLine (env : Env) (wd : Str) (file : File) (s t : Loader)
    (h : objLine env wd file s = some t) (hi : Inv s) : Inv t := by
  unfold objLine at h
  split at h
  · cases h
    exact inv_frame (s := s) ⟨rfl, rfl, rfl, rfl, rfl, rfl, rfl, rfl, ⟨[], by simp⟩⟩ hi
  split at h
  · cases h
    exact inv_readV env file s hi
  split at h
  · cases h
    exact inv_readVt env file s hi
  split at h
  · cases h
    exact inv_readVn env file s hi
  split at h
  · exact inv_handleF file s t h hi
  split at h
  · cases h
    exact inv_frame (s := s) ⟨rfl, rfl, rfl, rfl, rfl, rfl, rfl, rfl, ⟨[], by simp⟩⟩ hi
  split at h
  · exact inv_frame (frame_handleUsemtl file s t h) hi
  split at h
  · exact inv_frame (frame_handleMtllib env wd file s t h) hi
  split at h
  · cases h
    exact inv_frame (s := s) ⟨rfl, rfl, rfl, rfl, rfl, rfl, rfl, rfl, ⟨[], by simp⟩⟩ hi
  split at h
  · cases h
    exact inv_handleLod file s hi
  · cases h
    exact inv_frame (frame_handleOther file s) hi

theorem inv_objLoop (env : Env) (wd : Str) (lines : List Str) (file : File) (s t : Loader)
    (h : objLoop env wd lines file s = some t) (hi : Inv s) : Inv t := by
  induction lines generalizing file s with
  | nil =>
    simp [objLoop] at h
    subst h
    exact hi
  | cons line rest ih =>
    rw [objLoop] at h
    cases hl : objLine env wd (ReadLine file line) s with
    | none => simp [hl] at h
    | some s1 =>
      simp [hl] at h
      exact ih _ _ h (inv_objLine _ _ _ _ _ hl hi)

theorem inv_load (env : Env) (filename : Str) (s : Loader) (h : load env filename = some s) :
    Inv s := by
  unfold load at h
  split at h
  · rename_i text _
    cases hl : objLoop env (workingDirectory filename) (splitLines text)
        { name := filename, lineNo := 0, type := [], params := [] } Loader.init with
    | none => simp [hl] at h
    | some s1 =>
      simp [hl] at h
      have h1 := inv_objLoop _ _ _ _ _ _ hl inv_init
      subst h
      split
      · exact inv_frame (s := s1) ⟨rfl, rfl, rfl, rfl, rfl, rfl, rfl, rfl, ⟨[], by simp⟩⟩ h1
      · exact h1
  · cases h
    constructor
    · intro d hd
      simp only [Loader.lodData, Loader.init, List.nil_append, List.mem_singleton] at hd
      subst hd
      exact inv_new.1
    · intro he
      simp at he

/-! ### Materialization -/

theorem arrGet_nat {α : Type} (a : List α) (n : Nat) : arrGet a (n : Int) = a[n]? := by
  simp [arrGet]

theorem arrSet_nat {α : Type} (a : List α) (n : Nat) (x : α) (h : n < a.length) :
    arrSet a (n : Int) x = some (a.set n x) := by
  simp [arrSet, h]

theorem invertLoop_spec (step : Nat) (hstep : step = 3 ∨ step = 4) (fuel : Nat) :
    ∀ (k : Nat) (arr : List F32), arr.length % step = 0 → step * k ≤ arr.length →
      arr.length < step * k + fuel →
      ∃ r, invertLoop step (arr.length : Int) fuel ((step * k : Nat) : Int) (some arr) =
          some (some r) ∧ r.length = arr.length ∧
        ∀ j, r[j]? = (arr[j]?).map fun x => if step * k ≤ j ∧ j % step = 2 then -x else x := by
  induction fuel with
  | zero => intro k arr _ h1 h2; omega
  | succ fuel ih =>
    intro k arr hlen hk hf
    rw [invertLoop]
    by_cases hi : ((step * k : Nat) : Int) < (arr.length : Int)
    · rw [if_pos hi]
      have hi' : step * k < arr.length := by exact_mod_cast hi
      have hin : step * k + 2 < arr.length := by
        rcases hstep with rfl | rfl <;> omega
      have e2 : ((step * k : Nat) : Int) + 2 = ((step * k + 2 : Nat) : Int) := by push_cast; ring
      have e3 : ((step * k : Nat) : Int) + (step : Int) = ((step * (k + 1) : Nat) : Int) := by
        push_cast; ring
      simp only [e2, e3, arrGet_nat, List.getElem?_eq_getElem hin, Option.some_bind,
        Option.bind_eq_bind, arrSet_nat _ _ _ hin]
      obtain ⟨r, hr, hrl, hrj⟩ := ih (k + 1) (arr.set (step * k + 2) (-arr[step * k + 2]))
        (by simpa using hlen) (by simp; rcases hstep with rfl | rfl <;> omega)
        (by simp; rcases hstep with rfl | rfl <;> omega)
      simp only [List.length_set] at hr hrl
      refine ⟨r, hr, hrl, ?_⟩
      intro j
      rw [hrj j, List.getElem?_set]
      by_cases hj : step * k + 2 = j
      · subst hj
        have c1 : ¬ (step * (k + 1) ≤ step * k + 2 ∧ (step * k + 2) % step = 2) := by
          rcases hstep with rfl | rfl <;> omega
        have c2 : step * k ≤ step * k + 2 ∧ (step * k + 2) % step = 2 := by
          rcases hstep with rfl | rfl <;> omega
        rw [if_pos rfl, if_pos hin]
        simp only [Option.map_some', if_neg c1, List.getElem?_eq_getElem hin, if_pos c2]
      · have c : (step * (k + 1) ≤ j ∧ j % step = 2) ↔ (step * k ≤ j ∧ j % step = 2) := by
          rcases hstep with rfl | rfl <;> omega
        simp only [if_neg hj, c]
    · rw [if_neg hi]
      have hi' : ¬ step * k < arr.length := by exact_mod_cast hi
      refine ⟨arr, rfl, rfl, ?_⟩
      intro j
      cases hj : arr[j]? with
      | none => rfl
      | some x =>
        have : j < arr.length := by
          rcases List.getElem?_eq_some_iff.mp hj with ⟨h, _⟩
          exact h
        have c : ¬ (step * k ≤ j ∧ j % step = 2) := by omega
        simp [c]

theorem invertLoop_start (step : Nat) (hstep : step = 3 ∨ step = 4) (arr : List F32)
    (hlen : arr.length % step = 0) :
    ∃ r, invertLoop step (arr.length : Int) ((arr.length : Int).toNat + 1) 0 (some arr) =
        some (some r) ∧ r.length = arr.length ∧
      ∀ j, r[j]? = (arr[j]?).map fun x => if j % step = 2 then -x else x := by
  obtain ⟨r, h1, h2, h3⟩ := invertLoop_spec step hstep (arr.length + 1) 0 arr hlen
    (by omega) (by omega)
  refine ⟨r, ?_, h2, ?_⟩
  · simpa using h1
  · intro j
    rw [h3 j]
    simp

theorem materializeLod_spec (file o : Str) (d : ObjFields) (c : ObjData) (hc : c.Shaped) :
    ∃ d1, materializeLod file o d c = some d1 ∧ Sealed c d1 ∧ d1.file = file ∧ d1.o = o ∧
      d1.shadow_obj = c.shadow_obj ∧ d1.errors = d.errors ∧ d1.warnings = d.warnings := by
  obtain ⟨rv, hv1, _, hv3⟩ := invertLoop_start 4 (Or.inr rfl) c.v hc.1
  obtain ⟨rn, hn1, _, hn3⟩ := invertLoop_start 3 (Or.inl rfl) c.vn hc.2.2.1
  unfold materializeLod
  simp only [CreateArrayFromList, Step_v, Step_vn]
  rw [hv1]
  simp only [Option.some_bind, Option.bind_eq_bind]
  rw [hn1]
  simp only [Option.some_bind]
  exact ⟨_, rfl, ⟨⟨rv, rfl, hv3⟩, ⟨rn, rfl, hn3⟩, rfl, rfl, rfl, rfl, rfl, rfl, rfl, rfl, rfl,
    rfl, rfl, rfl⟩, rfl, rfl, rfl, rfl, rfl⟩

theorem materializeLoop_spec (file o : Str) (rest : List ObjData) :
    ∀ (d : ObjFields) (c : ObjData), (∀ x ∈ c :: rest, x.Shaped) →
      ∃ obj, materializeLoop file o d c rest = some obj ∧
        List.Forall₂ Sealed (c :: rest) obj.chain ∧ obj.d.errors = d.errors ∧
        obj.d.warnings = d.warnings ∧ ∀ x ∈ obj.chain, x.file = file ∧ x.o = o := by
  induction rest with
  | nil =>
    intro d c h
    obtain ⟨d1, h1, h2, h3, h4, _, h6, h7⟩ := materializeLod_spec file o d c (h c (by simp))
    refine ⟨OBJ.last d1, by simp [materializeLoop, h1], ?_, h6, h7, ?_⟩
    · exact List.Forall₂.cons h2 List.Forall₂.nil
    · intro x hx
      simp only [OBJ.chain, List.mem_singleton] at hx
      subst hx
      exact ⟨h3, h4⟩
  | cons next rest ih =>
    intro d c h
    obtain ⟨d1, h1, h2, h3, h4, _, h6, h7⟩ := materializeLod_spec file o d c (h c (by simp))
    obtain ⟨n, g1, g2, _, _, g5⟩ := ih (ObjFields.init []) next
      (fun x hx => h x (List.mem_cons_of_mem _ hx))
    refine ⟨OBJ.link d1 n, by simp [materializeLoop, h1, g1], ?_, h6, h7, ?_⟩
    · exact List.Forall₂.cons h2 g2
    · intro x hx
      simp only [OBJ.chain, List.mem_cons] at hx
      rcases hx with hx | hx
      · subst hx; exact ⟨h3, h4⟩
      · exact g5 x hx

/-! ### Vertex groups made of numerals -/

theorem find_none_of_not_mem (pre ds : Str) (c : Char) (h : c ∉ ds) :
    find (pre ++ ds) c pre.length = none := by
  unfold find
  rw [List.drop_left]
  have : ¬ List.indexOf c ds < ds.length := by
    rw [List.indexOf_lt_length]
    exact h
  rw [if_neg this]

theorem find_some_of_not_mem (pre ds rest : Str) (c : Char) (h : c ∉ ds) :
    find (pre ++ (ds ++ c :: rest)) c pre.length = some (pre.length + ds.length) := by
  unfold find
  rw [List.drop_left, List.indexOf_append_of_not_mem h, List.indexOf_cons_self]
  simp

theorem substr_mid (pre ds rest : Str) :
    substr (pre ++ (ds ++ rest)) pre.length (some ds.length) = some ds := by
  unfold substr
  rw [if_pos (by simp)]
  simp [List.drop_left]

theorem substr_end (pre ds : Str) :
    substr (pre ++ ds) pre.length none = some ds := by
  unfold substr
  rw [if_pos (by simp)]
  simp [List.drop_left]

theorem rawGroup_one (p1 : Str) (h1 : '/' ∉ p1) :
    rawGroup p1 = ((elementOf p1, -1, -1), none) := by
  have f1 := find_none_of_not_mem [] p1 '/' h1
  have s1 := substr_end [] p1
  simp only [List.nil_append, List.length_nil] at f1 s1
  unfold rawGroup
  rw [f1]
  simp only [component, Option.map_none', s1, Option.getD_some, elementOf]

theorem rawGroup_two (p1 p2 : Str) (h1 : '/' ∉ p1) (h2 : '/' ∉ p2) :
    rawGroup (p1 ++ '/' :: p2) = ((elementOf p1, elementOf p2, -1), none) := by
  have f1 := find_some_of_not_mem [] p1 p2 '/' h1
  have s1 := substr_mid [] p1 ('/' :: p2)
  have f2 := find_none_of_not_mem (p1 ++ ['/']) p2 '/' h2
  have s2 := substr_end (p1 ++ ['/']) p2
  simp only [List.nil_append, List.length_nil, Nat.zero_add, List.append_assoc,
    List.singleton_append, List.length_append, List.length_singleton] at f1 s1 f2 s2
  unfold rawGroup
  rw [f1]
  simp only [f2, component, Option.map_some', Option.map_none', Nat.sub_zero, s1, s2,
    Option.getD_some, elementOf]

theorem rawGroup_three (p1 p2 p3 : Str) (h1 : '/' ∉ p1) (h2 : '/' ∉ p2) (h3 : '/' ∉ p3) :
    rawGroup (p1 ++ '/' :: (p2 ++ '/' :: p3)) =
      ((elementOf p1, elementOf p2, elementOf p3), none) := by
  have f1 := find_some_of_not_mem [] p1 (p2 ++ '/' :: p3) '/' h1
  have s1 := substr_mid [] p1 ('/' :: (p2 ++ '/' :: p3))
  have f2 := find_some_of_not_mem (p1 ++ ['/']) p2 p3 '/' h2
  have s2 := substr_mid (p1 ++ ['/']) p2 ('/' :: p3)
  have f3 := find_none_of_not_mem (p1 ++ '/' :: (p2 ++ ['/'])) p3 '/' h3
  have s3 := substr_end (p1 ++ '/' :: (p2 ++ ['/'])) p3
  simp only [List.nil_append, List.length_nil, Nat.zero_add, List.append_assoc,
    List.singleton_append, List.length_append, List.length_singleton, List.cons_append,
    List.length_cons] at f1 s1 f2 s2 f3 s3
  unfold rawGroup
  rw [f1]
  simp only [f2]
  have e : p1.length + 1 + p2.length + 1 = p1.length + (p2.length + 1 + 1) := by omega
  rw [e, f3]
  simp only [component, Option.map_some', Option.map_none', Nat.sub_zero, s1, s3,
    Option.getD_some, elementOf]
  have e2 : p1.length + 1 + p2.length - (p1.length + 1) = p2.length := by omega
  rw [e2, s2]
  rfl

theorem toInt32_eq (x : Int) (h1 : INT_MIN ≤ x) (h2 : x ≤ INT_MAX) : toInt32 x = x := by
  unfold toInt32
  unfold INT_MIN at h1
  unfold INT_MAX at h2
  omega

theorem digits_slash_free (ds : Str) (h : ∀ c ∈ ds, isdigit c = true) : '/' ∉ ds := by
  intro hm
  exact absurd (h _ hm) (by decide)

theorem takeWhile_digits (ds : Str) (h : ∀ c ∈ ds, isdigit c = true) :
    ds.takeWhile isdigit = ds := by
  rw [List.takeWhile_eq_self_iff]
  exact h

theorem atoi_digits (ds : Str) (h : ∀ c ∈ ds, isdigit c = true) :
    atoi ds = toInt32 (digitsVal ds) := by
  cases ds with
  | nil => rfl
  | cons c cs =>
    have hc : isdigit c = true := h c (by simp)
    have hs : isspace c = false := by
      cases hsp : isspace c with
      | false => rfl
      | true =>
        exfalso
        simp only [isspace, Bool.or_eq_true, decide_eq_true_eq] at hsp
        rcases hsp with ((((hsp | hsp) | hsp) | hsp) | hsp) | hsp <;>
          (subst hsp; exact absurd hc (by decide))
    have hm : c ≠ '-' := by
      intro e; subst e; exact absurd hc (by decide)
    have hp : c ≠ '+' := by
      intro e; subst e; exact absurd hc (by decide)
    unfold atoi
    rw [List.dropWhile_cons_of_neg (by simp [hs])]
    split
    · rename_i r heq
      exact absurd (List.cons.inj heq).1 hm
    · rename_i r heq
      exact absurd (List.cons.inj heq).1 hp
    · rw [takeWhile_digits _ h]

theorem atoi_minus_digits (ds : Str) (h : ∀ c ∈ ds, isdigit c = true) :
    atoi ('-' :: ds) = toInt32 (-(digitsVal ds : Int)) := by
  unfold atoi
  rw [List.dropWhile_cons_of_neg (by decide)]
  simp only [takeWhile_digits _ h]

theorem elementOf_numeral (ds : Str) (h : Numeral ds) (h2 : (digitsVal ds : Int) ≤ INT_MAX) :
    elementOf ds = (digitsVal ds : Int) - 1 := by
  unfold elementOf
  have h0 : (0 : Int) ≤ (digitsVal ds : Int) := Int.ofNat_nonneg _
  have e1 : toInt32 (digitsVal ds : Int) = (digitsVal ds : Int) :=
    toInt32_eq _ (by unfold INT_MIN; omega) h2
  unfold INT_MAX at h2
  rw [atoi_digits ds h.2, e1,
    toInt32_eq _ (by unfold INT_MIN; omega) (by unfold INT_MAX; omega)]

theorem elementOf_nil : elementOf [] = -1 := by decide

theorem elementOf_minus_numeral (ds : Str) (h : Numeral ds)
    (h2 : (digitsVal ds : Int) ≤ INT_MAX) :
    elementOf ('-' :: ds) = -(digitsVal ds : Int) - 1 := by
  unfold elementOf
  have h0 : (0 : Int) ≤ (digitsVal ds : Int) := Int.ofNat_nonneg _
  unfold INT_MAX at h2
  have e1 : toInt32 (-(digitsVal ds : Int)) = -(digitsVal ds : Int) :=
    toInt32_eq _ (by unfold INT_MIN; omega) (by unfold INT_MAX; omega)
  rw [atoi_minus_digits ds h.2, e1,
    toInt32_eq _ (by unfold INT_MIN; omega) (by unfold INT_MAX; omega)]

theorem indexOf_count (c : Char) (l : Str) :
    (List.indexOf c l < l.length → l.count c = 1 + (l.drop (List.indexOf c l + 1)).count c) ∧
    (¬ List.indexOf c l < l.length → l.count c = 0) := by
  induction l with
  | nil => simp
  | cons x xs ih =>
    by_cases hx : x = c
    · subst hx
      simp [List.indexOf_cons_self]
      omega
    · rw [List.indexOf_cons_ne _ (fun h => hx h), List.count_cons_of_ne (fun h => hx h.symm)]
      simp only [List.length_cons, List.drop_succ_cons]
      exact ⟨fun h => ih.1 (by omega), fun h => ih.2 (by omega)⟩

theorem find_count (s : Str) (c : Char) (p : Nat) :
    (find s c p = none → (s.drop p).count c = 0) ∧
    (∀ e, find s c p = some e → (s.drop p).count c = 1 + (s.drop (e + 1)).count c) := by
  unfold find
  by_cases h : List.indexOf c (s.drop p) < (s.drop p).length
  · rw [if_pos h]
    refine ⟨by simp, ?_⟩
    intro e he
    simp only [Option.some.injEq] at he
    subst he
    rw [(indexOf_count c (s.drop p)).1 h, List.drop_drop]
    congr 3
  · rw [if_neg h]
    exact ⟨fun _ => (indexOf_count c (s.drop p)).2 h, by simp⟩

theorem slash_iff (vertex : Str) : (rawGroup vertex).2 ≠ none ↔ 3 ≤ vertex.count '/' := by
  have c0 := find_count vertex '/' 0
  rw [List.drop_zero] at c0
  cases h1 : find vertex '/' 0 with
  | none =>
    have := c0.1 h1
    simp only [rawGroup, h1, ne_eq, not_true_eq_false, false_iff]
    omega
  | some e1 =>
    have k1 := c0.2 e1 h1
    have c1 := find_count vertex '/' (e1 + 1)
    cases h2 : find vertex '/' (e1 + 1) with
    | none =>
      have := c1.1 h2
      simp only [rawGroup, h1, h2, ne_eq, not_true_eq_false, false_iff]
      omega
    | some e2 =>
      have k2 := c1.2 e2 h2
      have c2 := find_count vertex '/' (e2 + 1)
      cases h3 : find vertex '/' (e2 + 1) with
      | none =>
        have := c2.1 h3
        simp only [rawGroup, h1, h2, h3, ne_eq, not_true_eq_false, false_iff]
        omega
      | some e3 =>
        have k3 := c2.2 e3 h3
        simp only [rawGroup, h1, h2, h3, ne_eq, reduceCtorEq, not_false_eq_true, true_iff]
        omega

theorem rangeMsg_ne_slash (kind : Str) (index : Int) : rangeMsg kind index ≠ slashMsg := by
  intro h
  have h1 : (rangeMsg kind index).head? = some 'I' := rfl
  have h2 : slashMsg.head? = some 'S' := rfl
  rw [h, h2] at h1
  exact absurd h1 (by decide)

theorem relativeMsg_ne_slash (kind : Str) (r n : Int) : relativeMsg kind r n ≠ slashMsg := by
  intro h
  have h1 : (relativeMsg kind r n).head? = some 'R' := rfl
  have h2 : slashMsg.head? = some 'S' := rfl
  rw [h, h2] at h1
  exact absurd h1 (by decide)

theorem slash_not_mem_rangeErr (file : File) (kind : Str) (size x : Int) :
    lineTag file ++ slashMsg ∉ rangeErr file kind size x := by
  unfold rangeErr
  split
  · simp only [List.mem_singleton]
    intro h
    exact rangeMsg_ne_slash _ _ (List.append_cancel_left h).symm
  · simp

theorem slash_not_mem_relErr (file : File) (kind : Str) (size x : Int) :
    lineTag file ++ slashMsg ∉ relErr file kind size x := by
  unfold relErr
  split
  · simp only [List.mem_singleton]
    intro h
    exact relativeMsg_ne_slash _ _ _ (List.append_cancel_left h).symm
  · simp

theorem slash_mem_vertexErrs (file : File) (s : Loader) (vertex : Str) :
    (lineTag file ++ slashMsg ∈ vertexErrs file s vertex ↔ 3 ≤ vertex.count '/') ∧
      (vertexErrs file s vertex).count (lineTag file ++ slashMsg) ≤ 1 := by
  have n1 := slash_not_mem_relErr file "v".toList (sizeV s) (rawGroup vertex).1.1
  have n2 := slash_not_mem_relErr file "vt".toList (sizeVt s) (rawGroup vertex).1.2.1
  have n3 := slash_not_mem_relErr file "vn".toList (sizeVn s) (rawGroup vertex).1.2.2
  have n4 := slash_not_mem_rangeErr file "v".toList (sizeV s)
    (resolved (sizeV s) (rawGroup vertex).1.1)
  have n5 := slash_not_mem_rangeErr file "vt".toList (sizeVt s)
    (resolved (sizeVt s) (rawGroup vertex).1.2.1)
  have n6 := slash_not_mem_rangeErr file "vn".toList (sizeVn s)
    (resolved (sizeVn s) (rawGroup vertex).1.2.2)
  unfold vertexErrs
  constructor
  · simp only [List.mem_append, n1, n2, n3, n4, n5, n6, false_or, or_false]
    rw [← slash_iff]
    unfold slashErr
    split <;> simp_all
  · simp only [List.count_append, List.count_eq_zero_of_not_mem n1,
      List.count_eq_zero_of_not_mem n2, List.count_eq_zero_of_not_mem n3,
      List.count_eq_zero_of_not_mem n4, List.count_eq_zero_of_not_mem n5,
      List.count_eq_zero_of_not_mem n6]
    unfold slashErr
    split <;> simp

/-! ### The claims: construction and faces -/

/-- Claim C1. If the reading part of `OBJ::OBJ(filename)` ends with at least one recorded
error, the constructor completes, `HasErrors()` is true, every count is `0`, every array is
null and there is no next level of detail, whatever lines were read. -/
theorem C1_errors_leave_no_geometry (env : Env) (filename : Str) (s : Loader)
    (hload : load env filename = some s) (herr : s.errors ≠ []) :
    ∃ obj, OBJ.new env filename = some obj ∧ obj.d.errors = s.errors ∧
      obj.HasErrors = true ∧
      obj.d.num_v = 0 ∧ obj.d.num_vt = 0 ∧ obj.d.num_vn = 0 ∧ obj.d.num_f = 0 ∧
      obj.d.num_usemtl = 0 ∧ obj.d.num_g = 0 ∧ obj.d.num_newmtl = 0 ∧
      obj.d.v = none ∧ obj.d.vt = none ∧ obj.d.vn = none ∧ obj.d.newmtl = none ∧
      obj.d.f = none ∧ obj.d.usemtl = none ∧ obj.d.g = none ∧ obj.lod = none := by
  have hne : ¬ s.errors.length = 0 := by
    intro h
    exact herr (List.length_eq_zero.mp h)
  refine ⟨OBJ.last { ObjFields.init filename with
    o := s.o, errors := s.errors, warnings := s.warnings }, ?_, rfl, ?_, rfl, rfl, rfl, rfl,
    rfl, rfl, rfl, rfl, rfl, rfl, rfl, rfl, rfl, rfl, rfl⟩
  · unfold OBJ.new
    rw [hload]
    simp only [Option.some_bind, Option.bind_eq_bind, if_neg hne]
  · simp only [OBJ.HasErrors, OBJ.d]
    simpa using herr

/-- Instance of C1: a file whose second line has an unknown keyword, between two valid `v`
lines. -/
theorem C1_errors_leave_no_geometry_witness :
    ∃ obj, OBJ.new sampleBroken "m.obj".toList = some obj ∧ obj.HasErrors = true ∧
      obj.d.num_v = 0 ∧ obj.d.v = none ∧ obj.lod = none := by
  obtain ⟨obj, h⟩ := C1_errors_leave_no_geometry sampleBroken "m.obj".toList
    ((load sampleBroken "m.obj".toList).getD Loader.init) (by decide) (by decide)
  exact ⟨obj, h.1, h.2.2.1, h.2.2.2.1, h.2.2.2.2.2.2.2.2.2.2.1, h.2.2.2.2.2.2.2.2.2.2.2.2.2.2.2.2.2⟩

/-- Claim C2. If the reading part of `OBJ::OBJ(filename)` ends without a recorded error,
the constructor completes and its chain `this, this->lod, ...` has exactly one object for
every pending context, in the order of `lodData`; each object is the materialization of its
context (`Sealed`): every array equals the list of the context, element for element, except
that `v[4k+2]` and `vn[3k+2]` are negated once, and every count is the length of the
list. -/
theorem C2_chain_materializes_contexts (env : Env) (filename : Str) (s : Loader)
    (hload : load env filename = some s) (herr : s.errors = []) :
    ∃ obj, OBJ.new env filename = some obj ∧ obj.chain.length = s.lodData.length ∧
      List.Forall₂ Sealed s.lodData obj.chain := by
  have hinv := inv_load env filename s hload
  have hsh : ∀ x ∈ s.currentLod :: s.after, x.Shaped := by
    intro x hx
    exact hinv.1 x (by simp only [Loader.lodData, List.mem_append]; exact Or.inr hx)
  unfold OBJ.new
  rw [hload]
  simp only [Option.some_bind, Option.bind_eq_bind, herr, List.length_nil, if_true]
  cases hl : s.lodData with
  | nil => simp [Loader.lodData] at hl
  | cons c rest =>
    have hall : ∀ x ∈ c :: rest, x.Shaped := by
      intro x hx
      exact hinv.1 x (by rw [hl]; exact hx)
    obtain ⟨obj, h1, h2, _⟩ := materializeLoop_spec filename s.o rest
      { ObjFields.init filename with o := s.o, errors := [], warnings := s.warnings } c hall
    exact ⟨obj, h1, h2.length_eq.symm, h2⟩

/-- Instance of C2: the mesh file of one triangle. -/
theorem C2_chain_materializes_contexts_witness :
    ∃ obj, OBJ.new sampleTriangle "m.obj".toList = some obj ∧ obj.chain.length = 1 := by
  obtain ⟨obj, h1, h2, _⟩ := C2_chain_materializes_contexts sampleTriangle "m.obj".toList
    ((load sampleTriangle "m.obj".toList).getD Loader.init) (by decide) (by decide)
  exact ⟨obj, h1, h2⟩

/-- Claim C3. The vertex loop leaves in `face` one triple for each of the `N` vertex groups
of an `f` line (`triplesOf`). For `N ≥ 3` groups whose omission pattern is uniform (in each of
the three slots the number of triples holding `-1` is a multiple of `N`), the handler appends exactly `9 * (N - 2)` integers to `f`, and `N - 2` copies of the active
material index to `usemtl` and of the active group name to `g`. For an `f` line with `N < 3`
vertex groups it leaves `f`, `usemtl` and `g` as they are and records exactly one error. -/
theorem C3_face_appends_triangles (file : File) (s : Loader) :
    vertexLoop file (groupsOf file) [] s =
      some ((triplesOf file s).flatten, addErrs (groupErrs file s) s) ∧
    (3 ≤ (groupsOf file).length → Uniform (triplesOf file s) →
      ∃ t added, handleF file s = some t ∧
        t.currentLod.f = s.currentLod.f ++ added ∧
        added.length = 9 * ((groupsOf file).length - 2) ∧
        t.currentLod.usemtl = s.currentLod.usemtl ++
          List.replicate ((groupsOf file).length - 2) s.currentLod.state.usemtl ∧
        t.currentLod.g = s.currentLod.g ++
          List.replicate ((groupsOf file).length - 2) s.currentLod.state.g) ∧
    ((groupsOf file).length < 3 →
      ∃ t e, handleF file s = some t ∧ t.currentLod.f = s.currentLod.f ∧
        t.currentLod.usemtl = s.currentLod.usemtl ∧ t.currentLod.g = s.currentLod.g ∧
        t.errors = s.errors ++ [e]) := by
  refine ⟨by rw [vertexLoop_eq]; rfl, ?_, ?_⟩
  · intro hn hu
    have hb : Blocks3 (triplesOf file s) := blocks3_vertex s _
    have hlen : (triplesOf file s).length = (groupsOf file).length := by simp [triplesOf]
    exact ⟨_, fanTris (triplesOf file s) 1 ((groupsOf file).length - 2),
      handleF_uniform file s hn hu, rfl,
      fanTris_length _ hb _ 1 (by rw [hlen]; omega), rfl, rfl⟩
  · intro hn
    exact ⟨_, _, handleF_few file s hn, rfl, rfl, rfl, rfl⟩

/-- Instance of C3: a quadrilateral over four positions gives two triangles, a line of two
groups gives none and one error. -/
theorem C3_face_appends_triangles_witness :
    (∃ t added, handleF (sampleLine " 1 2 3 4") (sampleLoader 4) = some t ∧
        t.currentLod.f = added ∧ added.length = 18 ∧ t.currentLod.usemtl = [-1, -1]) ∧
    (∃ t e, handleF (sampleLine " 1 2") (sampleLoader 4) = some t ∧ t.currentLod.f = [] ∧
        t.errors = [e]) := by
  obtain ⟨t, added, h1, h2, h3, h4, _⟩ :=
    (C3_face_appends_triangles (sampleLine " 1 2 3 4") (sampleLoader 4)).2.1
      (by decide) (by decide)
  obtain ⟨u, e, g1, g2, _, _, g5⟩ :=
    (C3_face_appends_triangles (sampleLine " 1 2") (sampleLoader 4)).2.2 (by decide)
  exact ⟨⟨t, added, h1, h2, h3, h4⟩, ⟨u, e, g1, g2, g5⟩⟩

/-- Claim C4 as stated fails: for the line `f 1 2 3` over three positions the parsed
triples are `v0 = (0,-1,-1)`, `v1 = (1,-1,-1)`, `v2 = (2,-1,-1)` and the stored triangle
is `v2, v1, v0`, not `v0, v2, v1`. -/
theorem C4_counterexample :
    triplesOf (sampleLine " 1 2 3") (sampleLoader 3) = [[0, -1, -1], [1, -1, -1], [2, -1, -1]] ∧
    (handleF (sampleLine " 1 2 3") (sampleLoader 3)).map (fun t => t.currentLod.f) =
      some [2, -1, -1, 1, -1, -1, 0, -1, -1] ∧
    (handleF (sampleLine " 1 2 3") (sampleLoader 3)).map (fun t => t.currentLod.f) ≠
      some [0, -1, -1, 2, -1, -1, 1, -1, -1] := by
  decide

/-- Claim C4, amended. For an `f` line with `N ≥ 3` vertex groups and a uniform omission
pattern, with `v0 .. v(N-1)` the triples that the vertex loop leaves in `face`
(`triplesOf`), the triangles appended to `f` are, for
`i = 1 .. N-2` in increasing order, the three triples in the stored order
`v(i+1), v(i), v0` (below, `j = i - 1`). -/
theorem C4_fan_stored_order (file : File) (s : Loader) (hn : 3 ≤ (groupsOf file).length)
    (hu : Uniform (triplesOf file s)) :
    vertexLoop file (groupsOf file) [] s =
      some ((triplesOf file s).flatten, addErrs (groupErrs file s) s) ∧
    ∃ t, handleF file s = some t ∧
      t.currentLod.f = s.currentLod.f ++
        (List.range ((groupsOf file).length - 2)).flatMap fun j =>
          (triplesOf file s).getD (j + 2) [] ++ (triplesOf file s).getD (j + 1) [] ++
            (triplesOf file s).getD 0 [] := by
  refine ⟨by rw [vertexLoop_eq]; rfl, _, handleF_uniform file s hn hu, ?_⟩
  show s.currentLod.f ++ fanTris (triplesOf file s) 1 ((groupsOf file).length - 2) = _
  unfold fanTris fanTri
  congr 2
  funext j
  have e1 : 1 + j + 1 = j + 2 := by omega
  have e2 : 1 + j = j + 1 := by omega
  rw [e1, e2]

/-- Instance of the amended C4: the quadrilateral `f 1 2 3 4` is stored as the triangles
`v2, v1, v0` and `v3, v2, v0`. -/
theorem C4_fan_stored_order_witness :
    ∃ t, handleF (sampleLine " 1 2 3 4") (sampleLoader 4) = some t ∧
      t.currentLod.f = [2, -1, -1, 1, -1, -1, 0, -1, -1, 3, -1, -1, 2, -1, -1, 0, -1, -1] := by
  obtain ⟨_, t, h1, h2⟩ := C4_fan_stored_order (sampleLine " 1 2 3 4") (sampleLoader 4)
    (by decide) (by decide)
  refine ⟨t, h1, ?_⟩
  rw [h2]
  decide

/-! ### The claims: vertex groups -/

theorem resolved_of_ge (size x : Int) (h : -1 ≤ x) : resolved size x = x := by
  unfold resolved
  rw [if_neg (by omega)]

theorem relErr_of_ge (file : File) (kind : Str) (size x : Int) (h : -1 ≤ x) :
    relErr file kind size x = [] := by
  unfold relErr
  rw [if_neg (by omega)]

theorem vertexBody_plain (file : File) (vertex : Str) (face : List Int) (s : Loader)
    (x y z : Int) (hr : rawGroup vertex = ((x, y, z), none)) (hx : -1 ≤ x) (hy : -1 ≤ y)
    (hz : -1 ≤ z) :
    ∃ es, vertexBody file vertex face s = some (face ++ [x, y, z], addErrs es s) ∧
      lineTag file ++ slashMsg ∉ es := by
  refine ⟨rangeErr file "v".toList (sizeV s) x ++ rangeErr file "vt".toList (sizeVt s) y ++
    rangeErr file "vn".toList (sizeVn s) z, ?_, ?_⟩
  · rw [vertexBody_eq]
    simp only [vertexTriple, vertexErrs, hr, resolved_of_ge _ _ hx, resolved_of_ge _ _ hy,
      resolved_of_ge _ _ hz, relErr_of_ge _ _ _ _ hx, relErr_of_ge _ _ _ _ hy,
      relErr_of_ge _ _ _ _ hz, slashErr, ne_eq, not_true_eq_false, if_false, List.nil_append,
      List.append_nil]
  · simp only [List.mem_append, not_or]
    exact ⟨⟨slash_not_mem_rangeErr _ _ _ _, slash_not_mem_rangeErr _ _ _ _⟩,
      slash_not_mem_rangeErr _ _ _ _⟩

/-- Claim C5. For decimal numerals `da`, `db`, `dc` with positive values `a`, `b`, `c` that
fit an `int`, the body of the vertex loop leaves for each of the vertex groups `a`, `a/b`,
`a/b/c` and `a//c` exactly one triple in `face`, holding the index minus one in every
present slot and `-1` in exactly the omitted slots, and none of the errors it records is the
syntax error. -/
theorem C5_valid_groups_parse (file : File) (face : List Int) (s : Loader) (da db dc : Str)
    (ha : Numeral da) (hb : Numeral db) (hc : Numeral dc)
    (ha1 : 1 ≤ digitsVal da) (hb1 : 1 ≤ digitsVal db) (hc1 : 1 ≤ digitsVal dc)
    (ha2 : (digitsVal da : Int) ≤ INT_MAX) (hb2 : (digitsVal db : Int) ≤ INT_MAX)
    (hc2 : (digitsVal dc : Int) ≤ INT_MAX) :
    (∃ es, vertexBody file da face s =
        some (face ++ [(digitsVal da : Int) - 1, -1, -1], addErrs es s) ∧
      lineTag file ++ slashMsg ∉ es) ∧
    (∃ es, vertexBody file (da ++ '/' :: db) face s =
        some (face ++ [(digitsVal da : Int) - 1, (digitsVal db : Int) - 1, -1], addErrs es s) ∧
      lineTag file ++ slashMsg ∉ es) ∧
    (∃ es, vertexBody file (da ++ '/' :: (db ++ '/' :: dc)) face s =
        some (face ++ [(digitsVal da : Int) - 1, (digitsVal db : Int) - 1,
          (digitsVal dc : Int) - 1], addErrs es s) ∧
      lineTag file ++ slashMsg ∉ es) ∧
    (∃ es, vertexBody file (da ++ '/' :: '/' :: dc) face s =
        some (face ++ [(digitsVal da : Int) - 1, -1, (digitsVal dc : Int) - 1], addErrs es s) ∧
      lineTag file ++ slashMsg ∉ es) := by
  have sa := digits_slash_free da ha.2
  have sb := digits_slash_free db hb.2
  have sc := digits_slash_free dc hc.2
  have ea := elementOf_numeral da ha ha2
  have eb := elementOf_numeral db hb hb2
  have ec := elementOf_numeral dc hc hc2
  have pa : (-1 : Int) ≤ (digitsVal da : Int) - 1 := by omega
  have pb : (-1 : Int) ≤ (digitsVal db : Int) - 1 := by omega
  have pc : (-1 : Int) ≤ (digitsVal dc : Int) - 1 := by omega
  refine ⟨?_, ?_, ?_, ?_⟩
  · exact vertexBody_plain file da face s _ _ _ (by rw [rawGroup_one da sa, ea]) pa
      (le_refl _) (le_refl _)
  · exact vertexBody_plain file _ face s _ _ _ (by rw [rawGroup_two da db sa sb, ea, eb]) pa pb
      (le_refl _)
  · exact vertexBody_plain file _ face s _ _ _
      (by rw [rawGroup_three da db dc sa sb sc, ea, eb, ec]) pa pb pc
  · have h := rawGroup_three da [] dc sa (by simp) sc
    rw [List.nil_append, ea, ec, elementOf_nil] at h
    exact vertexBody_plain file _ face s _ _ _ h pa (le_refl _) pc

/-- Instance of C5: the group `7/8/9`. -/
theorem C5_valid_groups_parse_witness :
    ∃ es, vertexBody (sampleLine " 7/8/9 1 2") "7/8/9".toList [] (sampleLoader 3) =
      some ([6, 7, 8], addErrs es (sampleLoader 3)) := by
  obtain ⟨es, h, _⟩ := (C5_valid_groups_parse (sampleLine " 7/8/9 1 2") [] (sampleLoader 3)
    "7".toList "8".toList "9".toList (by decide) (by decide) (by decide) (by decide)
    (by decide) (by decide) (by decide) (by decide) (by decide)).2.2.1
  exact ⟨es, h⟩

/-- Claim C6 as stated fails: the vertex groups `5/`, `/5` and `/` are none of `v`, `v/vt`,
`v/vt/vn`, `v//vn`, yet with five positions, texture coordinates on none, the body of the
vertex loop leaves the triples `(4,-1,-1)`, `(-1,4,-1)`, `(-1,-1,-1)` and records no syntax
error for any of them. -/
theorem C6_counterexample :
    (vertexBody (sampleLine " 5/ 1 2") "5/".toList [] (sampleLoader 5)).map
        (fun r => (r.1, decide (lineTag (sampleLine " 5/ 1 2") ++ slashMsg ∈ r.2.errors))) =
      some ([4, -1, -1], false) ∧
    (vertexBody (sampleLine " /5 1 2") "/5".toList [] (sampleLoader 5)).map
        (fun r => (r.1, decide (lineTag (sampleLine " /5 1 2") ++ slashMsg ∈ r.2.errors))) =
      some ([-1, 4, -1], false) ∧
    (vertexBody (sampleLine " / 1 2") "/".toList [] (sampleLoader 5)).map
        (fun r => (r.1, decide (lineTag (sampleLine " / 1 2") ++ slashMsg ∈ r.2.errors))) =
      some ([-1, -1, -1], false) := by
  decide

/-- Claim C6, amended. The body of the vertex loop leaves one triple in `face` for every
vertex group, and among the errors it records the syntax error occurs exactly when the
group holds three or more `/`, and then once. -/
theorem C6_slash_error_iff_three_slashes (file : File) (vertex : Str) (face : List Int)
    (s : Loader) :
    ∃ t es, vertexBody file vertex face s = some (face ++ t, addErrs es s) ∧ t.length = 3 ∧
      (lineTag file ++ slashMsg ∈ es ↔ 3 ≤ vertex.count '/') ∧
      es.count (lineTag file ++ slashMsg) ≤ 1 :=
  ⟨vertexTriple s vertex, vertexErrs file s vertex, vertexBody_eq file vertex face s, rfl,
    (slash_mem_vertexErrs file s vertex).1, (slash_mem_vertexErrs file s vertex).2⟩

/-- Claim C7 as stated fails: with ten positions the relative token `-3` is stored as the
zero-based index `7`, not as `10 + (-3 + 1) = 8`. -/
theorem C7_counterexample :
    (vertexBody (sampleLine " -3 1 2") "-3".toList [] (sampleLoader 10)).map (fun r => r.1) =
      some [7, -1, -1] ∧
    (7 : Int) ≠ 10 + (-3 + 1) := by
  decide

theorem minus_slash_free (ds : Str) (h : ∀ c ∈ ds, isdigit c = true) : '/' ∉ '-' :: ds := by
  simp only [List.mem_cons, not_or]
  exact ⟨by decide, digits_slash_free ds h⟩

theorem resolved_minus (size a : Int) (ha : 1 ≤ a) (h : 0 ≤ size + -a) :
    resolved size (-a - 1) = size + -a := by
  unfold resolved
  rw [if_pos (by omega), if_neg (by omega)]
  omega

/-- Claim C7, amended. For decimal numerals with values `a`, `b`, `c` from `1` to `INT_MAX`,
the relative tokens `t = -a`, `-b`, `-c` of a vertex group made of the token `-a` alone, or
of the three tokens separated by slashes, are stored as
the zero-based index `P + t`, `P` being the number of elements of the referenced array of
the active context, whenever that value is not negative. -/
theorem C7_relative_index_resolution (file : File) (face : List Int) (s : Loader)
    (da db dc : Str) (ha : Numeral da) (hb : Numeral db) (hc : Numeral dc)
    (ha1 : 1 ≤ digitsVal da) (hb1 : 1 ≤ digitsVal db) (hc1 : 1 ≤ digitsVal dc)
    (ha2 : (digitsVal da : Int) ≤ INT_MAX) (hb2 : (digitsVal db : Int) ≤ INT_MAX)
    (hc2 : (digitsVal dc : Int) ≤ INT_MAX) :
    (∃ x es, vertexBody file ('-' :: da) face s = some (face ++ [x, -1, -1], addErrs es s) ∧
      (0 ≤ sizeV s + -(digitsVal da : Int) → x = sizeV s + -(digitsVal da : Int))) ∧
    (∃ x y z es, vertexBody file (('-' :: da) ++ '/' :: (('-' :: db) ++ '/' :: ('-' :: dc)))
        face s = some (face ++ [x, y, z], addErrs es s) ∧
      (0 ≤ sizeV s + -(digitsVal da : Int) → x = sizeV s + -(digitsVal da : Int)) ∧
      (0 ≤ sizeVt s + -(digitsVal db : Int) → y = sizeVt s + -(digitsVal db : Int)) ∧
      (0 ≤ sizeVn s + -(digitsVal dc : Int) → z = sizeVn s + -(digitsVal dc : Int))) := by
  have sa := minus_slash_free da ha.2
  have sb := minus_slash_free db hb.2
  have sc := minus_slash_free dc hc.2
  have ea := elementOf_minus_numeral da ha ha2
  have eb := elementOf_minus_numeral db hb hb2
  have ec := elementOf_minus_numeral dc hc hc2
  have pa : (1 : Int) ≤ (digitsVal da : Int) := by exact_mod_cast ha1
  have pb : (1 : Int) ≤ (digitsVal db : Int) := by exact_mod_cast hb1
  have pc : (1 : Int) ≤ (digitsVal dc : Int) := by exact_mod_cast hc1
  constructor
  · refine ⟨resolved (sizeV s) (-(digitsVal da : Int) - 1), vertexErrs file s ('-' :: da), ?_,
      resolved_minus _ _ pa⟩
    rw [vertexBody_eq]
    simp only [vertexTriple, rawGroup_one _ sa, ea, resolved_of_ge _ (-1) (le_refl _)]
  · refine ⟨resolved (sizeV s) (-(digitsVal da : Int) - 1),
      resolved (sizeVt s) (-(digitsVal db : Int) - 1),
      resolved (sizeVn s) (-(digitsVal dc : Int) - 1),
      vertexErrs file s (('-' :: da) ++ '/' :: (('-' :: db) ++ '/' :: ('-' :: dc))), ?_,
      resolved_minus _ _ pa,
      resolved_minus _ _ pb, resolved_minus _ _ pc⟩
    rw [vertexBody_eq]
    simp only [vertexTriple, rawGroup_three _ _ _ sa sb sc, ea, eb, ec]

/-- Instance of the amended C7: with ten positions the token `-3` is stored as `7`. -/
theorem C7_relative_index_resolution_witness :
    ∃ x es, vertexBody (sampleLine " -3 1 2") "-3".toList [] (sampleLoader 10) =
      some ([x, -1, -1], addErrs es (sampleLoader 10)) ∧ x = 7 := by
  obtain ⟨x, es, h1, h2⟩ := (C7_relative_index_resolution (sampleLine " -3 1 2") []
    (sampleLoader 10) "3".toList "3".toList "3".toList (by decide) (by decide) (by decide)
    (by decide) (by decide) (by decide) (by decide) (by decide) (by decide)).1
  exact ⟨x, es, h1, h2 (by decide)⟩

/-! ### The claims: range errors, stored indices, Reverse -/

theorem relErr_eq_unresolved (file : File) (kind : Str) (size x : Int) :
    relErr file kind size x = unresolvedErr file kind size (resolved size x) := by
  unfold relErr unresolvedErr resolved
  by_cases h1 : x < -1
  · by_cases h2 : size + (x + 1) < 0
    · simp [h1, h2]
    · rw [if_neg (by tauto), if_pos h1, if_neg h2, if_neg (by omega)]
  · rw [if_neg (by tauto), if_neg h1, if_neg h1]

/-- Claim C8 as stated fails: with three positions the relative token `-9` cannot be
resolved; the component stays at `-10`, which is below the count `3`, and an out-of-range
error is recorded for it. -/
theorem C8_counterexample :
    vertexBody (sampleLine " -9 1 2") "-9".toList [] (sampleLoader 3) =
      some ([-10, -1, -1], addErrs
        ["m.obj: Line 4: Relative index -9 is out of defined range for \'v\' (size is 3)".toList]
        (sampleLoader 3)) ∧
    (-10 : Int) < sizeV (sampleLoader 3) := by
  decide

/-- Claim C8, amended. For every vertex group the body of the vertex loop completes, leaving
a triple `x, y, z` in `face`, and the errors it records are, in order and as a function of
`x`, `y`, `z`: one `Relative index` error for each component below `-1`; the syntax error if
text is left at the final `currentPos`; then from the bounds check exactly one error `Index n is out of defined range for 'k'`
for each component that is not below the element count of its array `k`, `n` being the
component plus one as an `int`, and none for a component below that count. -/
theorem C8_out_of_range_errors (file : File) (vertex : Str) (face : List Int) (s : Loader) :
    ∃ x y z currentPos, vertexBody file vertex face s = some (face ++ [x, y, z],
      addErrs (unresolvedErr file "v".toList (sizeV s) x ++
        unresolvedErr file "vt".toList (sizeVt s) y ++
        unresolvedErr file "vn".toList (sizeVn s) z ++
        slashErr file currentPos ++
        rangeErr file "v".toList (sizeV s) x ++
        rangeErr file "vt".toList (sizeVt s) y ++
        rangeErr file "vn".toList (sizeVn s) z) s) := by
  refine ⟨resolved (sizeV s) (rawGroup vertex).1.1, resolved (sizeVt s) (rawGroup vertex).1.2.1,
    resolved (sizeVn s) (rawGroup vertex).1.2.2, (rawGroup vertex).2, ?_⟩
  rw [vertexBody_eq]
  simp only [vertexTriple, vertexErrs]
  rw [relErr_eq_unresolved file _ (sizeV s), relErr_eq_unresolved file _ (sizeVt s),
    relErr_eq_unresolved file _ (sizeVn s)]

/-- The example of claim C8: the line `f 5 1 2` over three positions records exactly one
error, naming the index `5` and the kind `v`, and the triangle is still stored. -/
theorem face_five_of_three :
    (handleF (sampleLine " 5 1 2") (sampleLoader 3)).map
        (fun t => (t.errors, t.currentLod.f)) =
      some (["m.obj: Line 4: Index 5 is out of defined range for \'v\'".toList],
        [1, -1, -1, 0, -1, -1, 4, -1, -1]) := by
  decide

theorem forall₂_mem_right {α β : Type} {R : α → β → Prop} {l1 : List α} {l2 : List β}
    (h : List.Forall₂ R l1 l2) : ∀ y ∈ l2, ∃ x ∈ l1, R x y := by
  induction h with
  | nil => intro y hy; simp at hy
  | cons hr _ ih =>
    intro y hy
    simp only [List.mem_cons] at hy
    rcases hy with hy | hy
    · subst hy
      exact ⟨_, by simp, hr⟩
    · obtain ⟨x, hx, hxy⟩ := ih y hy
      exact ⟨x, by simp [hx], hxy⟩

/-- Claim C9. In every object of a chain built by `OBJ::OBJ(filename)`, every element of a
materialized array `f` is `-1` or a valid index into the arrays of the same object: the
elements at the places `3k` are below `num_v/4`, those at `3k+1` below `num_vt/3`, those at
`3k+2` below `num_vn/3`. -/
theorem C9_stored_indices_in_range (env : Env) (filename : Str) (obj : OBJ)
    (hnew : OBJ.new env filename = some obj) (d : ObjFields) (hd : d ∈ obj.chain)
    (f : List Int) (hf : d.f = some f) (j : Nat) (x : Int) (hx : f[j]? = some x) :
    x = -1 ∨ (0 ≤ x ∧
      x < (if j % 3 = 0 then d.num_v / 4 else if j % 3 = 1 then d.num_vt / 3
        else d.num_vn / 3)) := by
  unfold OBJ.new at hnew
  cases hload : load env filename with
  | none => simp [hload] at hnew
  | some s =>
    rw [hload] at hnew
    simp only [Option.some_bind, Option.bind_eq_bind] at hnew
    have hinv := inv_load env filename s hload
    by_cases he : s.errors.length = 0
    · rw [if_pos he] at hnew
      have he' : s.errors = [] := List.length_eq_zero.mp he
      cases hl : s.lodData with
      | nil => simp [Loader.lodData] at hl
      | cons c rest =>
        rw [hl] at hnew
        have hall : ∀ y ∈ c :: rest, y.Shaped := by
          intro y hy
          exact hinv.1 y (by rw [hl]; exact hy)
        obtain ⟨obj1, h1, h2, _⟩ := materializeLoop_spec filename s.o rest
          { ObjFields.init filename with o := s.o, errors := s.errors, warnings := s.warnings }
          c hall
        simp only [] at hnew
        rw [h1] at hnew
        cases hnew
        obtain ⟨ctx, hctx, hs⟩ := forall₂_mem_right h2 d hd
        have hok := hinv.2 he' ctx (by rw [hl]; exact hctx)
        obtain ⟨_, _, _, _, ef, _, _, nv, nvt, nvn, _⟩ := hs
        rw [ef] at hf
        cases hf
        have := okF_get _ hok j x hx
        rw [nv, nvt, nvn]
        unfold InRange at this
        split_ifs at this ⊢ <;> omega
    · rw [if_neg he] at hnew
      cases hnew
      simp only [OBJ.chain, List.mem_singleton] at hd
      subst hd
      simp [ObjFields.init] at hf

/-- Instance of C9: the first element of `f` in the mesh of one triangle. -/
theorem C9_stored_indices_in_range_witness :
    (2 : Int) = -1 ∨ (0 ≤ (2 : Int) ∧ (2 : Int) < 12 / 4) := by
  have h := C9_stored_indices_in_range sampleTriangle "m.obj".toList
    ((OBJ.new sampleTriangle "m.obj".toList).getD (OBJ.last (ObjFields.init [])))
    (by decide)
    ((OBJ.new sampleTriangle "m.obj".toList).getD (OBJ.last (ObjFields.init []))).d
    (by decide) [2, -1, -1, 1, -1, -1, 0, -1, -1] (by decide) 0 2 (by decide)
  exact h

/-- Claim C10, the code at a failing input: the mesh of one triangle is materialized with
`num_f = 9`; `Reverse` then takes `NUM_FACES = num_f / Step_f_idx = 3` and in its second
round reads `face[1].v1`, the element `f[9]`, outside the array of nine elements: the call
has no defined result, so nothing is restored by a second call. -/
theorem C10_reverse_leaves_the_array :
    (OBJ.new sampleTriangle "m.obj".toList).map (fun obj => (obj.d.num_f, obj.d.f)) =
      some (9, some [2, -1, -1, 1, -1, -1, 0, -1, -1]) ∧
    arrGet [2, -1, -1, 1, -1, -1, 0, -1, -1] (9 * 1) = none ∧
    (OBJ.new sampleTriangle "m.obj".toList).bind OBJ.Reverse = none := by
  decide

/-! ### The two forms of ReadParams -/

theorem ReadParams_accept {T : Type} (extract : Str → List T) (file : File)
    (minParams maxParams : Int) (dv : T) (out : List T) (s : Loader)
    (h1 : minParams ≤ ((extract file.params).length : Int))
    (h2 : ((extract file.params).length : Int) ≤ maxParams) :
    ReadParams extract file minParams maxParams dv out s =
      (out ++ extract file.params ++
        List.replicate (maxParams - ((extract file.params).length : Int)).toNat dv, s) := by
  unfold ReadParams
  dsimp only
  rw [if_neg (by omega)]

theorem ReadParams_reject {T : Type} (extract : Str → List T) (file : File)
    (minParams maxParams : Int) (dv : T) (out : List T) (s : Loader)
    (h : ¬ (minParams ≤ ((extract file.params).length : Int) ∧
      ((extract file.params).length : Int) ≤ maxParams)) :
    ReadParams extract file minParams maxParams dv out s =
      (out, { s with errors := s.errors ++ [lineTag file ++
        paramCountMsg file ((extract file.params).length : Int) minParams (some maxParams)] }) := by
  unfold ReadParams
  dsimp only
  rw [if_pos (by omega), popBack_append]
  rfl

theorem ReadParamsMin_accept {T : Type} (extract : Str → List T) (file : File)
    (minParams : Int) (out : List T) (s : Loader)
    (h1 : minParams ≤ ((extract file.params).length : Int)) :
    ReadParamsMin extract file minParams out s = (out ++ extract file.params, s) := by
  unfold ReadParamsMin
  dsimp only
  rw [if_neg (by omega)]

theorem ReadParamsMin_reject {T : Type} (extract : Str → List T) (file : File)
    (minParams : Int) (out : List T) (s : Loader)
    (h : ((extract file.params).length : Int) < minParams) :
    ReadParamsMin extract file minParams out s =
      (out, { s with errors := s.errors ++ [lineTag file ++
        paramCountMsg file ((extract file.params).length : Int) minParams none] }) := by
  unfold ReadParamsMin
  dsimp only
  rw [if_pos h, popBack_append]
  rfl

/-- Claim C14. `ReadParams` accepts or rejects as a whole. Bounded form: with `n` parsed
values and `minParams ≤ n ≤ maxParams` the list becomes the old list, then the parsed values,
then `maxParams - n` copies of the default, and the loader (so both logs) is unchanged;
otherwise the list is the old list and exactly one error is appended, whose text names the
keyword, `n` and the expected range (`paramCountMsg`). Form without upper bound: with
`n ≥ minParams` the list becomes the old list then the parsed values, with nothing recorded;
otherwise it is unchanged and exactly one error is appended. -/
theorem C14_readparams_accept_or_reject {T : Type} (extract : Str → List T) (file : File)
    (minParams maxParams : Int) (dv : T) (out : List T) (s : Loader) :
    (minParams ≤ ((extract file.params).length : Int) →
      ((extract file.params).length : Int) ≤ maxParams →
      ReadParams extract file minParams maxParams dv out s =
        (out ++ extract file.params ++
          List.replicate (maxParams - ((extract file.params).length : Int)).toNat dv, s)) ∧
    (¬ (minParams ≤ ((extract file.params).length : Int) ∧
        ((extract file.params).length : Int) ≤ maxParams) →
      ReadParams extract file minParams maxParams dv out s =
        (out, { s with errors := s.errors ++ [file.name ++ ": Line ".toList ++
          showInt file.lineNo ++ ": ".toList ++ ("\'".toList ++ file.type ++
          "\' does not take ".toList ++ showInt ((extract file.params).length : Int) ++
          " parameter(s) (expected ".toList ++ showInt minParams ++
          (if minParams ≠ maxParams then "-".toList ++ showInt maxParams else []) ++
          ")".toList)] })) ∧
    (minParams ≤ ((extract file.params).length : Int) →
      ReadParamsMin extract file minParams out s = (out ++ extract file.params, s)) ∧
    (((extract file.params).length : Int) < minParams →
      ReadParamsMin extract file minParams out s =
        (out, { s with errors := s.errors ++ [file.name ++ ": Line ".toList ++
          showInt file.lineNo ++ ": ".toList ++ ("\'".toList ++ file.type ++
          "\' does not take ".toList ++ showInt ((extract file.params).length : Int) ++
          " parameter(s) (expected ".toList ++ showInt minParams ++ [] ++ ")".toList)] })) :=
  ⟨ReadParams_accept extract file minParams maxParams dv out s,
    ReadParams_reject extract file minParams maxParams dv out s,
    ReadParamsMin_accept extract file minParams out s,
    ReadParamsMin_reject extract file minParams out s⟩

/-- Instance of C14: two integers on a line. Between one and three are expected: the list
gains them and one default. Exactly three are expected: the list is as before and one error
is recorded. At least one is expected: the list gains them. At least three: one error. -/
theorem C14_readparams_accept_or_reject_witness :
    ReadParams readInts (sampleLine " 1 2") 1 3 0 [7] (sampleLoader 0) =
      ([7, 1, 2, 0], sampleLoader 0) ∧
    ReadParams readInts (sampleLine " 1 2") 3 3 0 [7] (sampleLoader 0) =
      ([7], { sampleLoader 0 with errors :=
        ["m.obj: Line 4: \'f\' does not take 2 parameter(s) (expected 3)".toList] }) ∧
    ReadParamsMin readInts (sampleLine " 1 2") 1 [7] (sampleLoader 0) =
      ([7, 1, 2], sampleLoader 0) ∧
    ReadParamsMin readInts (sampleLine " 1 2") 3 [7] (sampleLoader 0) =
      ([7], { sampleLoader 0 with errors :=
        ["m.obj: Line 4: \'f\' does not take 2 parameter(s) (expected 3)".toList] }) :=
  ⟨(C14_readparams_accept_or_reject readInts (sampleLine " 1 2") 1 3 0 [7]
      (sampleLoader 0)).1 (by decide) (by decide),
    (C14_readparams_accept_or_reject readInts (sampleLine " 1 2") 3 3 0 [7]
      (sampleLoader 0)).2.1 (by decide),
    (C14_readparams_accept_or_reject readInts (sampleLine " 1 2") 1 3 0 [7]
      (sampleLoader 0)).2.2.1 (by decide),
    (C14_readparams_accept_or_reject readInts (sampleLine " 1 2") 3 3 0 [7]
      (sampleLoader 0)).2.2.2 (by decide)⟩

/-! ### The dump functions -/

theorem dumpLoop_cut (what : Str) (size Max : Nat) : ∀ (l : List Str) (n : Nat),
    n < Max → Max - n ≤ l.length →
    dumpLoop what size Max l n = l.take (Max - n) ++
      ["<< ".toList ++ showInt ((size - Max : Nat) : Int) ++ " more ".toList ++ what ++
        " >>".toList]
  | [], n, h1, h2 => by simp at h2; omega
  | i :: rest, n, h1, h2 => by
    rw [dumpLoop]
    by_cases c : n + 1 = Max
    · rw [if_pos c]
      have : Max - n = 1 := by omega
      rw [this, c]
      rfl
    · rw [if_neg c, dumpLoop_cut what size Max rest (n + 1) (by omega)
        (by simp at h2; omega)]
      have : Max - n = (Max - (n + 1)) + 1 := by omega
      rw [this, List.take_succ_cons]
      rfl

theorem dumpLoop_all (what : Str) (size Max : Nat) : ∀ (l : List Str) (n : Nat),
    Max ≤ n ∨ n + l.length < Max → dumpLoop what size Max l n = l
  | [], _, _ => rfl
  | i :: rest, n, h => by
    rw [dumpLoop, if_neg (by simp at h; omega),
      dumpLoop_all what size Max rest (n + 1) (by simp at h; omega)]

/-- Claim C19. For a log of `n` errors and a cap `c` with `1 ≤ c ≤ n`, `DumpErrors` writes
the first `c` entries in recorded order, then the line `<< (n-c) more error(s) >>`, then the
line `--n error(s)--`; for `c > n` it writes all `n` entries and then only the total line.
`DumpWarnings` does the same over the warning log, with `warning(s)` for `error(s)`. -/
theorem C19_dump_writes_cap_then_summary (this : OBJ) (c : Nat) :
    (1 ≤ c → c ≤ this.d.errors.length →
      this.DumpErrors c = this.d.errors.take c ++
        ["<< ".toList ++ showInt ((this.d.errors.length - c : Nat) : Int) ++
            " more error(s) >>".toList,
          "--".toList ++ showInt (this.d.errors.length : Int) ++ " error(s)--".toList]) ∧
    (this.d.errors.length < c →
      this.DumpErrors c = this.d.errors ++
        ["--".toList ++ showInt (this.d.errors.length : Int) ++ " error(s)--".toList]) ∧
    (1 ≤ c → c ≤ this.d.warnings.length →
      this.DumpWarnings c = this.d.warnings.take c ++
        ["<< ".toList ++ showInt ((this.d.warnings.length - c : Nat) : Int) ++
            " more warning(s) >>".toList,
          "--".toList ++ showInt (this.d.warnings.length : Int) ++ " warning(s)--".toList]) ∧
    (this.d.warnings.length < c →
      this.DumpWarnings c = this.d.warnings ++
        ["--".toList ++ showInt (this.d.warnings.length : Int) ++ " warning(s)--".toList]) := by
  refine ⟨fun h1 h2 => ?_, fun h => ?_, fun h1 h2 => ?_, fun h => ?_⟩
  · unfold OBJ.DumpErrors
    rw [dumpLoop_cut _ _ _ _ 0 (by omega) (by omega)]
    simp
  · unfold OBJ.DumpErrors
    rw [dumpLoop_all _ _ _ _ 0 (by omega)]
  · unfold OBJ.DumpWarnings
    rw [dumpLoop_cut _ _ _ _ 0 (by omega) (by omega)]
    simp
  · unfold OBJ.DumpWarnings
    rw [dumpLoop_all _ _ _ _ 0 (by omega)]

/-- Instance of C19: the mesh file of five unknown keywords, dumped with the cap 2, and with
the cap 7; its one warning, dumped with the cap 1 and with the cap 2. -/
theorem C19_dump_writes_cap_then_summary_witness :
    ∃ o, OBJ.new sampleFiveErrors "m.obj".toList = some o ∧
      o.DumpErrors 2 =
        ["m.obj: Line 1:  Unknown type \'a\'".toList,
          "m.obj: Line 2:  Unknown type \'b\'".toList,
          "<< 3 more error(s) >>".toList, "--5 error(s)--".toList] ∧
      o.DumpErrors 7 =
        ["m.obj: Line 1:  Unknown type \'a\'".toList,
          "m.obj: Line 2:  Unknown type \'b\'".toList,
          "m.obj: Line 3:  Unknown type \'c\'".toList,
          "m.obj: Line 4:  Unknown type \'d\'".toList,
          "m.obj: Line 5:  Unknown type \'e\'".toList, "--5 error(s)--".toList] ∧
      o.DumpWarnings 1 =
        ["File does not contain any face definitions".toList,
          "<< 0 more warning(s) >>".toList, "--1 warning(s)--".toList] ∧
      o.DumpWarnings 2 =
        ["File does not contain any face definitions".toList, "--1 warning(s)--".toList] :=
  ⟨(OBJ.new sampleFiveErrors "m.obj".toList).get (by decide), by simp,
    ((C19_dump_writes_cap_then_summary _ 2).1 (by decide) (by decide)).trans (by decide),
    ((C19_dump_writes_cap_then_summary _ 7).2.1 (by decide)).trans (by decide),
    ((C19_dump_writes_cap_then_summary _ 1).2.2.1 (by decide) (by decide)).trans (by decide),
    ((C19_dump_writes_cap_then_summary _ 2).2.2.2 (by decide)).trans (by decide)⟩

/-- Claim C20 fails at the cap 0. The mesh file of five unknown keywords has five errors
recorded and one warning; `DumpErrors` with the cap 0 writes all five errors and then the
total line, and `DumpWarnings` with the cap 0 writes the warning: the counter is compared
with the cap only after it has been incremented, so it never equals 0. -/
theorem C20_cap_zero_writes_every_entry :
    (OBJ.new sampleFiveErrors "m.obj".toList).map (fun o => o.DumpErrors 0) =
      some ["m.obj: Line 1:  Unknown type \'a\'".toList,
        "m.obj: Line 2:  Unknown type \'b\'".toList,
        "m.obj: Line 3:  Unknown type \'c\'".toList,
        "m.obj: Line 4:  Unknown type \'d\'".toList,
        "m.obj: Line 5:  Unknown type \'e\'".toList, "--5 error(s)--".toList] ∧
    (OBJ.new sampleFiveErrors "m.obj".toList).map (fun o => o.DumpWarnings 0) =
      some ["File does not contain any face definitions".toList,
        "--1 warning(s)--".toList] := by
  decide

/-! ### The later nodes of a chain, and the order of the contexts -/

/-- Claim C11 fails after the first node. In the chain of `sampleTwoLods` the first node has
no triangle and the second has the triangle `2 1 0`. `Reverse` returns, and has negated the
third component of every position in both nodes, but the triangle of the second node is as
before: its first and third index triple are not swapped. -/
theorem C11_reverse_skips_later_nodes :
    (OBJ.new sampleTwoLods "m.obj".toList).map (fun o => o.chain.map fun d => d.f) =
      some [some [], some [2, -1, -1, 1, -1, -1, 0, -1, -1]] ∧
    (OBJ.new sampleTwoLods "m.obj".toList).map (fun o => o.chain.map fun d => d.v) =
      some [some [f0_0, f0_0, f0_0.neg, f1_0],
        some [f0_0, f0_0, f0_0.neg, f1_0, f1_0, f0_0, f0_0.neg, f1_0,
          f0_0, f1_0, f0_0.neg, f1_0]] ∧
    ((OBJ.new sampleTwoLods "m.obj".toList).bind OBJ.Reverse).map
        (fun o => o.chain.map fun d => d.f) =
      some [some [], some [2, -1, -1, 1, -1, -1, 0, -1, -1]] ∧
    ((OBJ.new sampleTwoLods "m.obj".toList).bind OBJ.Reverse).map
        (fun o => o.chain.map fun d => d.v) =
      some [some [f0_0, f0_0, f0_0, f1_0],
        some [f0_0, f0_0, f0_0, f1_0, f1_0, f0_0, f0_0, f1_0, f0_0, f1_0, f0_0, f1_0]] := by
  decide

/-- Claim C12 fails. In `sampleRanks` the contexts are made in the order `A` (initial,
rank 0), `B` (`lod 2`), `C` (`lod 1`). The pending contexts, and the chain, are in the order
`C`, `B`, `A`, that is by rank 1, 2, 0: `C` was inserted before `B`, the first pending
context, and not before `A`, the first of rank at most 1. The rank recorded in every
context is 0, and no error is recorded. -/
theorem C12_contexts_not_ordered_by_rank :
    (load sampleRanks "m.obj".toList).map
        (fun s => (s.lodData.map fun d => (d.shadow_obj, d.state.lod), s.errors)) =
      some ([(" C".toList, 0), (" B".toList, 0), (" A".toList, 0)], []) ∧
    (OBJ.new sampleRanks "m.obj".toList).map (fun o => o.chain.map fun d => d.shadow_obj) =
      some [" C".toList, " B".toList, " A".toList] := by
  decide

/-! ### The dispatch on a mesh line, and the lod line -/

theorem objLine_v (env : Env) (wd : Str) (file : File) (s : Loader)
    (h : file.type = "v".toList) :
    objLine env wd file s = some
      { (ReadParams env.readFloats file (Step_v - 1 : Nat) Step_v f1_0 s.currentLod.v s).2 with
        currentLod :=
          { (ReadParams env.readFloats file (Step_v - 1 : Nat) Step_v f1_0 s.currentLod.v s).2.currentLod
            with v := (ReadParams env.readFloats file (Step_v - 1 : Nat) Step_v f1_0
              s.currentLod.v s).1 } } := by
  unfold objLine
  rw [h, if_neg (by decide), if_pos rfl]

theorem objLine_vt (env : Env) (wd : Str) (file : File) (s : Loader)
    (h : file.type = "vt".toList) :
    objLine env wd file s = some
      { (ReadParams env.readFloats file (Step_vt - 2 : Nat) Step_vt f0_0 s.currentLod.vt s).2 with
        currentLod :=
          { (ReadParams env.readFloats file (Step_vt - 2 : Nat) Step_vt f0_0 s.currentLod.vt s).2.currentLod
            with vt := (ReadParams env.readFloats file (Step_vt - 2 : Nat) Step_vt f0_0
              s.currentLod.vt s).1 } } := by
  unfold objLine
  rw [h, if_neg (by decide), if_neg (by decide), if_pos rfl]

theorem objLine_vn (env : Env) (wd : Str) (file : File) (s : Loader)
    (h : file.type = "vn".toList) :
    objLine env wd file s = some
      { (ReadParams env.readFloats file Step_vn Step_vn f0_0 s.currentLod.vn s).2 with
        currentLod :=
          { (ReadParams env.readFloats file Step_vn Step_vn f0_0 s.currentLod.vn s).2.currentLod
            with vn := (ReadParams env.readFloats file Step_vn Step_vn f0_0
              s.currentLod.vn s).1 } } := by
  unfold objLine
  rw [h, if_neg (by decide), if_neg (by decide), if_neg (by decide), if_pos rfl]

theorem objLine_usemtl (env : Env) (wd : Str) (file : File) (s : Loader)
    (h : file.type = "usemtl".toList) : objLine env wd file s = handleUsemtl file s := by
  unfold objLine
  rw [h, if_neg (by decide), if_neg (by decide), if_neg (by decide), if_neg (by decide),
    if_neg (by decide), if_neg (by decide), if_pos rfl]

theorem objLine_lod (env : Env) (wd : Str) (file : File) (s : Loader)
    (h : file.type = "lod".toList) : objLine env wd file s = some (handleLod file s) := by
  unfold objLine
  rw [h, if_neg (by decide), if_neg (by decide), if_neg (by decide), if_neg (by decide),
    if_neg (by decide), if_neg (by decide), if_neg (by decide), if_neg (by decide),
    if_neg (by decide), if_pos rfl]

theorem objLine_other (env : Env) (wd : Str) (file : File) (s : Loader)
    (h : file.type ∉ ["o".toList, "v".toList, "vt".toList, "vn".toList, "f".toList,
      "g".toList, "usemtl".toList, "mtllib".toList, "shadow_obj".toList, "lod".toList]) :
    objLine env wd file s = some (handleOther file s) := by
  simp only [List.mem_cons, List.mem_singleton, not_or, List.not_mem_nil, not_false_eq_true,
    and_true] at h
  obtain ⟨h1, h2, h3, h4, h5, h6, h7, h8, h9, h10⟩ := h
  unfold objLine
  rw [if_neg h1, if_neg h2, if_neg h3, if_neg h4, if_neg h5, if_neg h6, if_neg h7, if_neg h8,
    if_neg h9, if_neg h10]

theorem handleLod_one (file : File) (s : Loader) (R : Int)
    (hR : readInts file.params = [R]) :
    handleLod file s =
      { (if s.currentLod.v.length = 0 ∧ s.currentLod.f.length = 0 then
            AddWarning file ("Previous LOD ".toList ++ showInt s.currentLod.state.lod ++
              " does not contain any relevant data. Skipping...".toList) s
          else s) with
        before := (lodSearch R (if s.currentLod.v.length = 0 ∧ s.currentLod.f.length = 0 then
          s.before ++ s.after else s.lodData)).1
        currentLod := ObjData.new
        after := (lodSearch R (if s.currentLod.v.length = 0 ∧ s.currentLod.f.length = 0 then
          s.before ++ s.after else s.lodData)).2 } := by
  unfold handleLod
  rw [ReadParams_accept readInts file 1 1 0 [] s (by simp [hR]) (by simp [hR]), hR]
  by_cases c : s.currentLod.v.length = 0 ∧ s.currentLod.f.length = 0
  · simp only [if_pos c]
    rfl
  · simp only [if_neg c]
    rfl

theorem handleLod_other (file : File) (s : Loader)
    (h : (readInts file.params).length ≠ 1) :
    handleLod file s = AddError file
      (paramCountMsg file ((readInts file.params).length : Int) 1 (some 1)) s := by
  unfold handleLod
  rw [ReadParams_reject readInts file 1 1 0 [] s (by omega)]
  rfl

/-- Claim C13. On an `lod` line with exactly one integer parameter `R`: if the active
context holds no positions and no face indices, it leaves the pending list and exactly one
warning is appended; otherwise it stays and nothing is recorded. In both cases the pending
list becomes the remaining contexts with one new context inserted (`pre`, the new one,
`post`), the new one is active, and it is `ObjData.new`: no positions, texture coordinates,
normals, materials or faces, material index `-1`, group `default`. On an `lod` line with
another number of parameters one error is appended and the pending list and the active
context are unchanged. The file of the two lines `o cube` and `lod 2` leaves one pending
context. -/
theorem C13_lod_line_starts_new_context (env : Env) (wd : Str) (file : File) (s : Loader)
    (htype : file.type = "lod".toList) :
    (∀ R, readInts file.params = [R] →
      s.currentLod.v.length = 0 ∧ s.currentLod.f.length = 0 →
      ∃ pre post, pre ++ post = s.before ++ s.after ∧
        objLine env wd file s = some { s with
          warnings := s.warnings ++ [lineTag file ++ ("Previous LOD ".toList ++
            showInt s.currentLod.state.lod ++
            " does not contain any relevant data. Skipping...".toList)]
          before := pre, currentLod := ObjData.new, after := post }) ∧
    (∀ R, readInts file.params = [R] →
      ¬ (s.currentLod.v.length = 0 ∧ s.currentLod.f.length = 0) →
      ∃ pre post, pre ++ post = s.before ++ s.currentLod :: s.after ∧
        objLine env wd file s = some { s with
          before := pre, currentLod := ObjData.new, after := post }) ∧
    ((readInts file.params).length ≠ 1 →
      ∃ e, objLine env wd file s = some { s with errors := s.errors ++ [e] }) ∧
    (ObjData.new.v = [] ∧ ObjData.new.vt = [] ∧ ObjData.new.vn = [] ∧
      ObjData.new.newmtl = [] ∧ ObjData.new.f = [] ∧ ObjData.new.state.usemtl = -1 ∧
      ObjData.new.state.g = "default".toList) ∧
    (load (sampleEnv "m.obj" "o cube\nlod 2") "m.obj".toList).map
      (fun t => t.lodData.length) = some 1 := by
  refine ⟨fun R hR c => ?_, fun R hR c => ?_, fun h => ?_, by decide, by decide⟩
  · refine ⟨(lodSearch R (s.before ++ s.after)).1, (lodSearch R (s.before ++ s.after)).2,
      lodSearch_append _ _, ?_⟩
    rw [objLine_lod env wd file s htype, handleLod_one file s R hR]
    simp only [if_pos c]
    rfl
  · refine ⟨(lodSearch R s.lodData).1, (lodSearch R s.lodData).2, lodSearch_append _ _, ?_⟩
    rw [objLine_lod env wd file s htype, handleLod_one file s R hR]
    simp only [if_neg c]
  · exact ⟨_, by rw [objLine_lod env wd file s htype, handleLod_other file s h]; rfl⟩

/-- Instance of C13: the line `lod 2` in the initial state, where the one context is empty,
and in a state whose context holds one position; the line `lod` without parameter. -/
theorem C13_lod_line_starts_new_context_witness :
    (∃ w, objLine sampleTriangle [] { sampleLine " 2" with type := "lod".toList }
        (sampleLoader 0) =
      some { sampleLoader 0 with warnings := [w], currentLod := ObjData.new }) ∧
    (∃ pre post, pre ++ post = [(sampleLoader 1).currentLod] ∧
      objLine sampleTriangle [] { sampleLine " 2" with type := "lod".toList }
          (sampleLoader 1) =
        some { sampleLoader 1 with before := pre, currentLod := ObjData.new, after := post }) ∧
    (∃ e, objLine sampleTriangle [] { sampleLine "" with type := "lod".toList }
        (sampleLoader 1) = some { sampleLoader 1 with errors := [e] }) := by
  have h0 := C13_lod_line_starts_new_context sampleTriangle []
    { sampleLine " 2" with type := "lod".toList } (sampleLoader 0) rfl
  have h1 := C13_lod_line_starts_new_context sampleTriangle []
    { sampleLine " 2" with type := "lod".toList } (sampleLoader 1) rfl
  have h2 := C13_lod_line_starts_new_context sampleTriangle []
    { sampleLine "" with type := "lod".toList } (sampleLoader 1) rfl
  refine ⟨?_, ?_, ?_⟩
  · obtain ⟨pre, post, hp, h⟩ := h0.1 2 (by decide) (by decide)
    have hpre : pre = [] := by
      have : pre ++ post = [] := hp
      simpa using (List.append_eq_nil.mp this).1
    have hpost : post = [] := by
      have : pre ++ post = [] := hp
      simpa using (List.append_eq_nil.mp this).2
    subst hpre hpost
    exact ⟨_, h⟩
  · exact h1.2.1 2 (by decide) (by decide)
  · obtain ⟨e, h⟩ := h2.2.2.1 (by decide)
    exact ⟨e, h⟩

/-! ### The v, vt and vn lines -/

theorem objLine_v_accept (env : Env) (wd : Str) (file : File) (s : Loader)
    (h : file.type = "v".toList)
    (hn : (env.readFloats file.params).length = 3 ∨ (env.readFloats file.params).length = 4) :
    objLine env wd file s = some { s with currentLod := { s.currentLod with
      v := s.currentLod.v ++ env.readFloats file.params ++
        List.replicate (4 - (env.readFloats file.params).length) f1_0 } } := by
  rw [objLine_v env wd file s h,
    ReadParams_accept _ _ _ _ _ _ _ (by simp [Step_v]; omega) (by simp [Step_v]; omega)]
  have : ((Step_v : Int) - ((env.readFloats file.params).length : Int)).toNat =
      4 - (env.readFloats file.params).length := by simp [Step_v]
  rw [this]

theorem objLine_v_reject (env : Env) (wd : Str) (file : File) (s : Loader)
    (h : file.type = "v".toList)
    (hn : (env.readFloats file.params).length ≠ 3 ∧ (env.readFloats file.params).length ≠ 4) :
    objLine env wd file s = some { s with errors := s.errors ++ [lineTag file ++
      paramCountMsg file ((env.readFloats file.params).length : Int) 3 (some 4)] } := by
  rw [objLine_v env wd file s h,
    ReadParams_reject _ _ _ _ _ _ _ (by simp [Step_v]; omega)]
  rfl

theorem objLine_vt_accept (env : Env) (wd : Str) (file : File) (s : Loader)
    (h : file.type = "vt".toList)
    (hn : 1 ≤ (env.readFloats file.params).length ∧ (env.readFloats file.params).length ≤ 3) :
    objLine env wd file s = some { s with currentLod := { s.currentLod with
      vt := s.currentLod.vt ++ env.readFloats file.params ++
        List.replicate (3 - (env.readFloats file.params).length) f0_0 } } := by
  rw [objLine_vt env wd file s h,
    ReadParams_accept _ _ _ _ _ _ _ (by simp [Step_vt]; omega) (by simp [Step_vt]; omega)]
  have : ((Step_vt : Int) - ((env.readFloats file.params).length : Int)).toNat =
      3 - (env.readFloats file.params).length := by simp [Step_vt]
  rw [this]

theorem objLine_vt_reject (env : Env) (wd : Str) (file : File) (s : Loader)
    (h : file.type = "vt".toList)
    (hn : ¬ (1 ≤ (env.readFloats file.params).length ∧
      (env.readFloats file.params).length ≤ 3)) :
    objLine env wd file s = some { s with errors := s.errors ++ [lineTag file ++
      paramCountMsg file ((env.readFloats file.params).length : Int) 1 (some 3)] } := by
  rw [objLine_vt env wd file s h,
    ReadParams_reject _ _ _ _ _ _ _ (by simp [Step_vt]; omega)]
  rfl

theorem objLine_vn_accept (env : Env) (wd : Str) (file : File) (s : Loader)
    (h : file.type = "vn".toList) (hn : (env.readFloats file.params).length = 3) :
    objLine env wd file s = some { s with currentLod := { s.currentLod with
      vn := s.currentLod.vn ++ env.readFloats file.params } } := by
  rw [objLine_vn env wd file s h,
    ReadParams_accept _ _ _ _ _ _ _ (by simp [Step_vn]; omega) (by simp [Step_vn]; omega)]
  have : ((Step_vn : Int) - ((env.readFloats file.params).length : Int)).toNat = 0 := by
    simp [Step_vn]; omega
  rw [this]
  simp

theorem objLine_vn_reject (env : Env) (wd : Str) (file : File) (s : Loader)
    (h : file.type = "vn".toList) (hn : (env.readFloats file.params).length ≠ 3) :
    objLine env wd file s = some { s with errors := s.errors ++ [lineTag file ++
      paramCountMsg file ((env.readFloats file.params).length : Int) 3 (some 3)] } := by
  rw [objLine_vn env wd file s h,
    ReadParams_reject _ _ _ _ _ _ _ (by simp [Step_vn]; omega)]
  rfl

/-- Claim C15. A `v` line with three parsed values appends them and `1.0` to the positions
of the active context, with four it appends them as they are; a `vt` line with one, two or
three parsed values appends three values, the missing last ones being `0.0`; a `vn` line
with exactly three parsed values appends them. With any other number of values the line
appends nothing and one error is recorded. Nothing else in the loader changes. -/
theorem C15_vertex_lines_pad_or_reject (env : Env) (wd : Str) (file : File) (s : Loader) :
    (file.type = "v".toList →
      (∀ x y z, env.readFloats file.params = [x, y, z] →
        objLine env wd file s = some { s with currentLod := { s.currentLod with
          v := s.currentLod.v ++ [x, y, z, f1_0] } }) ∧
      (∀ x y z w, env.readFloats file.params = [x, y, z, w] →
        objLine env wd file s = some { s with currentLod := { s.currentLod with
          v := s.currentLod.v ++ [x, y, z, w] } }) ∧
      ((env.readFloats file.params).length ≠ 3 ∧ (env.readFloats file.params).length ≠ 4 →
        ∃ e, objLine env wd file s = some { s with errors := s.errors ++ [e] })) ∧
    (file.type = "vt".toList →
      (∀ a, env.readFloats file.params = [a] →
        objLine env wd file s = some { s with currentLod := { s.currentLod with
          vt := s.currentLod.vt ++ [a, f0_0, f0_0] } }) ∧
      (∀ a b, env.readFloats file.params = [a, b] →
        objLine env wd file s = some { s with currentLod := { s.currentLod with
          vt := s.currentLod.vt ++ [a, b, f0_0] } }) ∧
      (∀ a b c, env.readFloats file.params = [a, b, c] →
        objLine env wd file s = some { s with currentLod := { s.currentLod with
          vt := s.currentLod.vt ++ [a, b, c] } }) ∧
      ((env.readFloats file.params).length = 0 ∨ 3 < (env.readFloats file.params).length →
        ∃ e, objLine env wd file s = some { s with errors := s.errors ++ [e] })) ∧
    (file.type = "vn".toList →
      (∀ a b c, env.readFloats file.params = [a, b, c] →
        objLine env wd file s = some { s with currentLod := { s.currentLod with
          vn := s.currentLod.vn ++ [a, b, c] } }) ∧
      ((env.readFloats file.params).length ≠ 3 →
        ∃ e, objLine env wd file s = some { s with errors := s.errors ++ [e] })) := by
  refine ⟨fun h => ⟨fun x y z e => ?_, fun x y z w e => ?_, fun hn => ?_⟩,
    fun h => ⟨fun a e => ?_, fun a b e => ?_, fun a b c e => ?_, fun hn => ?_⟩,
    fun h => ⟨fun a b c e => ?_, fun hn => ?_⟩⟩
  · rw [objLine_v_accept env wd file s h (by simp [e]), e]
    simp
  · rw [objLine_v_accept env wd file s h (by simp [e]), e]
    simp
  · exact ⟨_, objLine_v_reject env wd file s h hn⟩
  · rw [objLine_vt_accept env wd file s h (by simp [e]), e]
    simp
  · rw [objLine_vt_accept env wd file s h (by simp [e]), e]
    simp
  · rw [objLine_vt_accept env wd file s h (by simp [e]), e]
    simp
  · exact ⟨_, objLine_vt_reject env wd file s h (by omega)⟩
  · rw [objLine_vn_accept env wd file s h (by simp [e]), e]
  · exact ⟨_, objLine_vn_reject env wd file s h hn⟩

/-- Instance of C15: the lines `v 0 1 0`, `v 0 1 0 0`, `v 0 1`, `vt 1`, `vt 1 1`, `vt`,
`vn 0 0 1` and `vn 0 1` in a state that holds one position. -/
theorem C15_vertex_lines_pad_or_reject_witness :
    objLine sampleTriangle [] { sampleLine " 0 1 0" with type := "v".toList }
        (sampleLoader 1) =
      some { sampleLoader 1 with currentLod := { (sampleLoader 1).currentLod with
        v := [f0_0, f0_0, f0_0, f0_0, f0_0, f1_0, f0_0, f1_0] } } ∧
    objLine sampleTriangle [] { sampleLine " 0 1 0 0" with type := "v".toList }
        (sampleLoader 1) =
      some { sampleLoader 1 with currentLod := { (sampleLoader 1).currentLod with
        v := [f0_0, f0_0, f0_0, f0_0, f0_0, f1_0, f0_0, f0_0] } } ∧
    (∃ e, objLine sampleTriangle [] { sampleLine " 0 1" with type := "v".toList }
        (sampleLoader 1) = some { sampleLoader 1 with errors := [e] }) ∧
    objLine sampleTriangle [] { sampleLine " 1" with type := "vt".toList }
        (sampleLoader 1) =
      some { sampleLoader 1 with currentLod := { (sampleLoader 1).currentLod with
        vt := [f1_0, f0_0, f0_0] } } ∧
    objLine sampleTriangle [] { sampleLine " 1 1" with type := "vt".toList }
        (sampleLoader 1) =
      some { sampleLoader 1 with currentLod := { (sampleLoader 1).currentLod with
        vt := [f1_0, f1_0, f0_0] } } ∧
    (∃ e, objLine sampleTriangle [] { sampleLine "" with type := "vt".toList }
        (sampleLoader 1) = some { sampleLoader 1 with errors := [e] }) ∧
    objLine sampleTriangle [] { sampleLine " 0 0 1" with type := "vn".toList }
        (sampleLoader 1) =
      some { sampleLoader 1 with currentLod := { (sampleLoader 1).currentLod with
        vn := [f0_0, f0_0, f1_0] } } ∧
    (∃ e, objLine sampleTriangle [] { sampleLine " 0 1" with type := "vn".toList }
        (sampleLoader 1) = some { sampleLoader 1 with errors := [e] }) :=
  ⟨((C15_vertex_lines_pad_or_reject sampleTriangle []
      { sampleLine " 0 1 0" with type := "v".toList } (sampleLoader 1)).1 rfl).1
      f0_0 f1_0 f0_0 (by decide),
    ((C15_vertex_lines_pad_or_reject sampleTriangle []
      { sampleLine " 0 1 0 0" with type := "v".toList } (sampleLoader 1)).1 rfl).2.1
      f0_0 f1_0 f0_0 f0_0 (by decide),
    ((C15_vertex_lines_pad_or_reject sampleTriangle []
      { sampleLine " 0 1" with type := "v".toList } (sampleLoader 1)).1 rfl).2.2
      (by decide),
    ((C15_vertex_lines_pad_or_reject sampleTriangle []
      { sampleLine " 1" with type := "vt".toList } (sampleLoader 1)).2.1 rfl).1
      f1_0 (by decide),
    ((C15_vertex_lines_pad_or_reject sampleTriangle []
      { sampleLine " 1 1" with type := "vt".toList } (sampleLoader 1)).2.1 rfl).2.1
      f1_0 f1_0 (by decide),
    ((C15_vertex_lines_pad_or_reject sampleTriangle []
      { sampleLine "" with type := "vt".toList } (sampleLoader 1)).2.1 rfl).2.2.2
      (by decide),
    ((C15_vertex_lines_pad_or_reject sampleTriangle []
      { sampleLine " 0 0 1" with type := "vn".toList } (sampleLoader 1)).2.2 rfl).1
      f0_0 f0_0 f1_0 (by decide),
    ((C15_vertex_lines_pad_or_reject sampleTriangle []
      { sampleLine " 0 1" with type := "vn".toList } (sampleLoader 1)).2.2 rfl).2
      (by decide)⟩

/-! ### The usemtl line -/

theorem findMtl_none (name : Str) : ∀ (l : List MTL) (i : Int),
    name ∉ l.map MTL.newmtl → findMtl name l i = none
  | [], _, _ => rfl
  | m :: rest, i, h => by
    simp only [List.map_cons, List.mem_cons, not_or] at h
    rw [findMtl, if_neg (fun e => h.1 e.symm), findMtl_none name rest (i + 1) h.2]

theorem findMtl_some (name : Str) : ∀ (l : List MTL) (i : Int),
    name ∈ l.map MTL.newmtl →
    ∃ k : Nat, (l.map MTL.newmtl)[k]? = some name ∧
      (∀ j : Nat, j < k → (l.map MTL.newmtl)[j]? ≠ some name) ∧
      findMtl name l i = some (i + (k : Int))
  | [], _, h => by simp at h
  | m :: rest, i, h => by
    by_cases c : m.newmtl = name
    · refine ⟨0, by simp [c], fun j hj => by omega, ?_⟩
      rw [findMtl, if_pos c]
      simp
    · have h1 : name ∈ rest.map MTL.newmtl := by
        simp only [List.map_cons, List.mem_cons] at h
        rcases h with h | h
        · exact absurd h.symm c
        · exact h
      obtain ⟨k, h2, h3, h4⟩ := findMtl_some name rest (i + 1) h1
      refine ⟨k + 1, by simpa using h2, fun j hj => ?_, ?_⟩
      · cases j with
        | zero => simpa using c
        | succ j => simpa using h3 j (by omega)
      · rw [findMtl, if_neg c, h4]
        congr 1
        push_cast
        ring

theorem handleUsemtl_one (file : File) (s : Loader) (X : Str)
    (hX : readStrings file.params = [X]) :
    handleUsemtl file s =
      match findMtl X s.currentLod.newmtl 0 with
      | some i =>
        some { s with currentLod := { s.currentLod with
          state := { s.currentLod.state with usemtl := i } } }
      | none =>
        some { s with
          errors := s.errors ++ [lineTag file ++
            ("Material \"".toList ++ X ++ "\" not defined".toList)]
          currentLod := { s.currentLod with
            state := { s.currentLod.state with usemtl := -1 } } } := by
  unfold handleUsemtl
  rw [ReadParams_accept readStrings file 1 1 [] [] s (by simp [hX]) (by simp [hX]), hX]
  rfl

/-- Claim C17. A `usemtl` line with exactly one parameter `X`: if the material list of the
active context has a material named `X`, the active material index becomes the zero-based
position `k` of the first such material, and nothing else changes (no diagnostic);
otherwise exactly one error naming `X` is appended and the active material index becomes
`-1`. -/
theorem C17_usemtl_selects_material (env : Env) (wd : Str) (file : File) (s : Loader)
    (X : Str) (htype : file.type = "usemtl".toList) (hX : readStrings file.params = [X]) :
    (X ∈ s.currentLod.newmtl.map MTL.newmtl →
      ∃ k : Nat, (s.currentLod.newmtl.map MTL.newmtl)[k]? = some X ∧
        (∀ j : Nat, j < k → (s.currentLod.newmtl.map MTL.newmtl)[j]? ≠ some X) ∧
        objLine env wd file s = some { s with currentLod := { s.currentLod with
          state := { s.currentLod.state with usemtl := (k : Int) } } }) ∧
    (X ∉ s.currentLod.newmtl.map MTL.newmtl →
      objLine env wd file s = some { s with
        errors := s.errors ++ [lineTag file ++
          ("Material \"".toList ++ X ++ "\" not defined".toList)]
        currentLod := { s.currentLod with
          state := { s.currentLod.state with usemtl := -1 } } }) := by
  refine ⟨fun h => ?_, fun h => ?_⟩
  · obtain ⟨k, h1, h2, h3⟩ := findMtl_some X s.currentLod.newmtl 0 h
    refine ⟨k, h1, h2, ?_⟩
    rw [objLine_usemtl env wd file s htype, handleUsemtl_one file s X hX, h3]
    simp
  · rw [objLine_usemtl env wd file s htype, handleUsemtl_one file s X hX,
      findMtl_none X s.currentLod.newmtl 0 h]

/-- Instance of C17: over the materials `red` and `blue`, the line `usemtl blue` selects the
index 1, and the line `usemtl green` records one error and selects `-1`. -/
theorem C17_usemtl_selects_material_witness :
    objLine sampleTriangle [] { sampleLine " blue" with type := "usemtl".toList }
        sampleMaterials =
      some { sampleMaterials with currentLod := { sampleMaterials.currentLod with
        state := { sampleMaterials.currentLod.state with usemtl := 1 } } } ∧
    objLine sampleTriangle [] { sampleLine " green" with type := "usemtl".toList }
        sampleMaterials =
      some { sampleMaterials with
        errors := ["m.obj: Line 4: Material \"green\" not defined".toList]
        currentLod := { sampleMaterials.currentLod with
          state := { sampleMaterials.currentLod.state with usemtl := -1 } } } := by
  constructor
  · obtain ⟨k, h1, h2, h3⟩ := (C17_usemtl_selects_material sampleTriangle []
      { sampleLine " blue" with type := "usemtl".toList } sampleMaterials "blue".toList
      rfl (by decide)).1 (by decide)
    have hk : k < 2 := by
      have := (List.getElem?_eq_some.mp h1).1
      simpa [sampleMaterials] using this
    interval_cases k
    · exact absurd h1 (by decide)
    · exact h3
  · exact (C17_usemtl_selects_material sampleTriangle []
      { sampleLine " green" with type := "usemtl".toList } sampleMaterials "green".toList
      rfl (by decide)).2 (by decide)

/-! ### Keywords that are not acted upon -/

theorem indexOf_mem (type : Str) : ∀ table : List Str, type ∈ table →
    table.indexOf type < table.length ∧ table.getD (table.indexOf type) [] = type
  | [], h => by simp at h
  | k :: rest, h => by
    rw [List.indexOf_cons]
    by_cases c : k = type
    · subst c
      simp
    · have hb : (k == type) = false := by simpa using c
      have h1 : type ∈ rest := by
        rcases List.mem_cons.mp h with h | h
        · exact absurd h.symm c
        · exact h
      have ih := indexOf_mem type rest h1
      rw [hb]
      simp only [cond_false, List.length_cons, List.getD_cons_succ]
      exact ⟨by omega, ih.2⟩

theorem indexOf_not_mem (type : Str) : ∀ table : List Str, type ∉ table →
    table.indexOf type = table.length
  | [], _ => rfl
  | k :: rest, h => by
    rw [List.indexOf_cons]
    have c : k ≠ type := fun e => h (by simp [e])
    have hb : (k == type) = false := by simpa using c
    rw [hb, cond_false, indexOf_not_mem type rest (fun e => h (List.mem_cons_of_mem _ e))]
    rfl
theorem keywordIndex_mem (table : List Str) (type : Str) (h : type ∈ table) :
    keywordIndex table table.length type < table.length ∧
      table.getD (keywordIndex table table.length type) [] = type := by
  have hlt := indexOf_mem type table h
  unfold keywordIndex
  rw [if_pos hlt.1]
  exact hlt

theorem keywordIndex_not_mem (table : List Str) (type : Str) (h : type ∉ table) :
    keywordIndex table table.length type = table.length := by
  unfold keywordIndex
  rw [indexOf_not_mem type table h, if_neg (lt_irrefl _)]

theorem handleOther_known (file : File) (s : Loader) (h : file.type ∈ OBJ_KEYWORDS) :
    handleOther file s = AddWarning file
      (" \'".toList ++ file.type ++ "\' is not supported at this time".toList) s := by
  have hall : ∀ k ∈ OBJ_KEYWORDS, k.head? ≠ none ∧ k.head? ≠ some '#' := by decide
  have hk := keywordIndex_mem OBJ_KEYWORDS file.type h
  have hlen : OBJ_KEYWORDS.length = OBJ_NUM_KEYWORDS := by decide
  rw [hlen] at hk
  have hh := hall _ h
  unfold handleOther
  cases ht : file.type with
  | nil => rw [ht] at hh; exact absurd rfl hh.1
  | cons c rest =>
    rw [ht] at hh hk
    have hc : c ≠ '#' := fun e => hh.2 (by simp [e])
    simp only [if_pos hc, ht, if_pos hk.1, hk.2]

theorem handleOther_unknown (file : File) (s : Loader) (h : file.type ∉ OBJ_KEYWORDS)
    (h1 : file.type ≠ []) (h2 : file.type.head? ≠ some '#') :
    handleOther file s = AddError file
      (" Unknown type \'".toList ++ file.type ++ "\'".toList) s := by
  have hk := keywordIndex_not_mem OBJ_KEYWORDS file.type h
  have hlen : OBJ_KEYWORDS.length = OBJ_NUM_KEYWORDS := by decide
  rw [hlen] at hk
  unfold handleOther
  cases ht : file.type with
  | nil => exact absurd ht h1
  | cons c rest =>
    rw [ht] at h2 hk
    have hc : c ≠ '#' := fun e => h2 (by simp [e])
    simp only [if_pos hc, ht, hk, lt_irrefl, if_false]

theorem handleOther_ignored (file : File) (s : Loader)
    (h : file.type = [] ∨ file.type.head? = some '#') : handleOther file s = s := by
  unfold handleOther
  cases ht : file.type with
  | nil => rfl
  | cons c rest =>
    rw [ht] at h
    have hc : c = '#' := by simpa using h
    simp [hc]

/-- Claim C18. For a mesh line whose keyword is none of the ten acted-upon keywords: if the
keyword is in the table `OBJ_KEYWORDS` (37 distinct entries, which include the ten), exactly
one warning is appended and nothing else changes; if it is not empty, does not begin with
`#` and is not in the table, exactly one error is appended and nothing else changes; if it
is empty or begins with `#`, the loader is unchanged. -/
theorem C18_other_keywords_diagnosed (env : Env) (wd : Str) (file : File) (s : Loader)
    (hnot : file.type ∉ actedUpon) :
    (file.type ∈ OBJ_KEYWORDS →
      objLine env wd file s = some { s with warnings := s.warnings ++ [lineTag file ++
        (" \'".toList ++ file.type ++ "\' is not supported at this time".toList)] }) ∧
    (file.type ≠ [] → file.type.head? ≠ some '#' → file.type ∉ OBJ_KEYWORDS →
      objLine env wd file s = some { s with errors := s.errors ++ [lineTag file ++
        (" Unknown type \'".toList ++ file.type ++ "\'".toList)] }) ∧
    (file.type = [] ∨ file.type.head? = some '#' → objLine env wd file s = some s) ∧
    (OBJ_KEYWORDS.length = 37 ∧ OBJ_KEYWORDS.Nodup ∧ actedUpon.length = 10 ∧
      actedUpon.Nodup ∧ (∀ k ∈ actedUpon, k ∈ OBJ_KEYWORDS) ∧
      (OBJ_KEYWORDS.filter fun k => k ∉ actedUpon).length = 27) := by
  have hd : objLine env wd file s = some (handleOther file s) :=
    objLine_other env wd file s hnot
  refine ⟨fun h => ?_, fun h1 h2 h3 => ?_, fun h => ?_, by decide⟩
  · rw [hd, handleOther_known file s h]
    rfl
  · rw [hd, handleOther_unknown file s h3 h1 h2]
    rfl
  · rw [hd, handleOther_ignored file s h]

/-- Instance of C18: the keywords `vp` (in the table), `foo` (unknown), `#` and the empty
keyword. -/
theorem C18_other_keywords_diagnosed_witness :
    objLine sampleTriangle [] { sampleLine " 1" with type := "vp".toList } (sampleLoader 1) =
      some { sampleLoader 1 with
        warnings := ["m.obj: Line 4:  \'vp\' is not supported at this time".toList] } ∧
    objLine sampleTriangle [] { sampleLine " 1" with type := "foo".toList } (sampleLoader 1) =
      some { sampleLoader 1 with
        errors := ["m.obj: Line 4:  Unknown type \'foo\'".toList] } ∧
    objLine sampleTriangle [] { sampleLine " 1" with type := "#".toList } (sampleLoader 1) =
      some (sampleLoader 1) ∧
    objLine sampleTriangle [] { sampleLine "" with type := [] } (sampleLoader 1) =
      some (sampleLoader 1) :=
  ⟨(C18_other_keywords_diagnosed sampleTriangle []
      { sampleLine " 1" with type := "vp".toList } (sampleLoader 1) (by decide)).1
      (by decide),
    (C18_other_keywords_diagnosed sampleTriangle []
      { sampleLine " 1" with type := "foo".toList } (sampleLoader 1) (by decide)).2.1
      (by decide) (by decide) (by decide),
    (C18_other_keywords_diagnosed sampleTriangle []
      { sampleLine " 1" with type := "#".toList } (sampleLoader 1) (by decide)).2.2.1
      (Or.inr rfl),
    (C18_other_keywords_diagnosed sampleTriangle []
      { sampleLine "" with type := [] } (sampleLoader 1) (by decide)).2.2.1
      (Or.inl rfl)⟩

/-! ### Steps that only append materials -/

theorem Grows.same (s : Loader) : Grows s s := ⟨rfl, rfl, ⟨[], by simp⟩, id⟩

theorem Grows.andThen {s t u : Loader} (h1 : Grows s t) (h2 : Grows t u) : Grows s u := by
  obtain ⟨e1, he1⟩ := h1.names
  obtain ⟨e2, he2⟩ := h2.names
  exact ⟨h2.before.trans h1.before, h2.after.trans h1.after,
    ⟨e1 ++ e2, by rw [he2, he1, List.append_assoc]⟩, fun h => h2.nodup (h1.nodup h)⟩

theorem grows_AddError (file : File) (m : Str) (s : Loader) : Grows s (AddError file m s) :=
  ⟨rfl, rfl, ⟨[], by simp [AddError]⟩, id⟩

theorem grows_AddWarning (file : File) (m : Str) (s : Loader) :
    Grows s (AddWarning file m s) :=
  ⟨rfl, rfl, ⟨[], by simp [AddWarning]⟩, id⟩

theorem grows_ReadParams {T : Type} (extract : Str → List T) (file : File) (a b : Int)
    (dv : T) (out : List T) (s : Loader) :
    Grows s (ReadParams extract file a b dv out s).2 := by
  unfold ReadParams
  dsimp only
  split
  · exact grows_AddError _ _ _
  · exact Grows.same _

theorem grows_ReadParamsMin {T : Type} (extract : Str → List T) (file : File) (a : Int)
    (out : List T) (s : Loader) :
    Grows s (ReadParamsMin extract file a out s).2 := by
  unfold ReadParamsMin
  dsimp only
  split
  · exact grows_AddError _ _ _
  · exact Grows.same _

theorem growsOpt_ite {c : Prop} [Decidable c] {s : Loader} {a b : Option Loader}
    (ha : GrowsOpt s a) (hb : GrowsOpt s b) : GrowsOpt s (if c then a else b) := by
  split
  · exact ha
  · exact hb

theorem growsOpt_some {s t : Loader} (h : Grows s t) : GrowsOpt s (some t) := by
  intro u hu
  cases hu
  exact h

theorem growsOpt_trans {s t : Loader} {x : Option Loader} (h : Grows s t)
    (hx : GrowsOpt t x) : GrowsOpt s x :=
  fun u hu => h.andThen (hx u hu)

theorem names_set (l : List MTL) (k : Nat) (m m1 : MTL) (hm : l[k]? = some m)
    (h1 : m1.newmtl = m.newmtl) :
    (l.set k m1).map MTL.newmtl = l.map MTL.newmtl := by
  apply List.ext_getElem?
  intro j
  rw [List.getElem?_map, List.getElem?_map, List.getElem?_set]
  by_cases c : k = j
  · subst c
    rw [if_pos rfl]
    have hk : k < l.length := (List.getElem?_eq_some.mp hm).1
    rw [if_pos hk, hm]
    simp [h1]
  · rw [if_neg c]

theorem growsOpt_setMtl (k : Nat) (fn : MTL → Option MTL) (s : Loader)
    (hfn : ∀ m m1, fn m = some m1 → m1.newmtl = m.newmtl) :
    GrowsOpt s (setMtl k fn s) := by
  intro t h
  unfold setMtl at h
  split at h
  · simp at h
  · rename_i m hm
    cases hf : fn m with
    | none => simp [hf] at h
    | some m1 =>
      simp [hf] at h
      subst h
      have e : ({ s with currentLod := { s.currentLod with
          newmtl := s.currentLod.newmtl.set k m1 } } : Loader).currentLod.names =
          s.currentLod.names := names_set _ _ _ _ hm (hfn m m1 hf)
      exact ⟨rfl, rfl, ⟨[], by rw [e]; simp⟩, fun hn => by rw [e]; exact hn⟩

theorem keeps_map {T : Type} (o : Option T) (put : T → MTL) (m m1 : MTL)
    (h : o.map put = some m1) (hput : ∀ x, (put x).newmtl = m.newmtl) :
    m1.newmtl = m.newmtl := by
  cases o with
  | none => simp at h
  | some x =>
    simp at h
    rw [← h]
    exact hput x

theorem growsOpt_mtlColor (env : Env) (file : File) (k : Nat) (dv : F32)
    (get : MTL → List F32) (put : MTL → List F32 → MTL) (s : Loader)
    (hput : ∀ m x, (put m x).newmtl = m.newmtl) :
    GrowsOpt s (mtlColor env file k dv get put s) := by
  unfold mtlColor
  dsimp only
  exact growsOpt_ite
    (growsOpt_trans (grows_ReadParams _ _ _ _ _ _ _)
      (growsOpt_setMtl _ _ _ fun m m1 h => keeps_map _ _ m m1 h (hput m)))
    (growsOpt_some (grows_ReadParams _ _ _ _ _ _ _))

theorem growsOpt_mtlScalar (env : Env) (file : File) (k : Nat) (dv : F32)
    (put : MTL → F32 → MTL) (s : Loader) (hput : ∀ m x, (put m x).newmtl = m.newmtl) :
    GrowsOpt s (mtlScalar env file k dv put s) := by
  unfold mtlScalar
  dsimp only
  split
  · exact growsOpt_some (grows_ReadParams _ _ _ _ _ _ _)
  · exact growsOpt_trans (grows_ReadParams _ _ _ _ _ _ _)
      (growsOpt_setMtl _ _ _ fun m m1 h => by
        simp only [Option.some.injEq] at h
        rw [← h]
        exact hput m _)

theorem growsOpt_mtlMap (env : Env) (file : File) (k : Nat) (put : MTL → Str → MTL)
    (s : Loader) (hput : ∀ m x, (put m x).newmtl = m.newmtl) :
    GrowsOpt s (mtlMap env file k put s) := by
  unfold mtlMap
  dsimp only
  exact growsOpt_ite
    (growsOpt_trans (grows_ReadParamsMin _ _ _ _ _)
      (growsOpt_setMtl _ _ _ fun m m1 h => by
        simp only [Option.some.injEq] at h
        rw [← h]
        exact hput m _))
    (growsOpt_some (grows_ReadParamsMin _ _ _ _ _))

theorem growsOpt_mtlProperty (env : Env) (file : File) (k : Nat) (s : Loader) :
    GrowsOpt s (mtlProperty env file k s) := by
  unfold mtlProperty
  repeat' (with_reducible apply growsOpt_ite)
  all_goals first
    | with_reducible exact growsOpt_mtlColor _ _ _ _ _ _ _ fun _ _ => rfl
    | with_reducible exact growsOpt_mtlScalar _ _ _ _ _ _ fun _ _ => rfl
    | with_reducible exact growsOpt_mtlMap _ _ _ _ _ fun _ _ => rfl
    | skip
  · exact growsOpt_trans (grows_ReadParams _ _ _ _ _ _ _)
      (growsOpt_setMtl _ _ _ fun m m1 h => keeps_map _ _ m m1 h fun _ => rfl)
  · exact growsOpt_some (grows_ReadParams _ _ _ _ _ _ _)
  · dsimp only
    split
    · exact growsOpt_some (grows_ReadParams _ _ _ _ _ _ _)
    · exact growsOpt_trans (grows_ReadParams _ _ _ _ _ _ _)
        (growsOpt_setMtl _ _ _ fun m m1 h => by
          simp only [Option.some.injEq] at h
          rw [← h])
  · split
    · exact growsOpt_some (Grows.same _)
    · repeat' (with_reducible apply growsOpt_ite)
      · exact growsOpt_some (grows_AddWarning _ _ _)
      · exact growsOpt_some (grows_AddError _ _ _)
      · exact growsOpt_some (Grows.same _)

theorem grows_mtlOrphan (file : File) (s : Loader) : Grows s (mtlOrphan file s) := by
  unfold mtlOrphan
  split
  · exact Grows.same _
  · split
    · split
      · exact grows_AddError _ _ _
      · exact grows_AddError _ _ _
    · exact Grows.same _

theorem nodup_append_new (l : List MTL) (front : Str)
    (h : l.all (fun m => m.newmtl != front) = true) (hn : (l.map MTL.newmtl).Nodup) :
    ((l ++ [{ MTL.new with newmtl := front }]).map MTL.newmtl).Nodup := by
  rw [List.map_append, List.map_cons, List.map_nil]
  refine List.Nodup.append hn (List.nodup_singleton _) ?_
  intro x hx hx'
  rw [List.mem_singleton] at hx'
  subst hx'
  obtain ⟨m, hm, e⟩ := List.mem_map.mp hx
  have := List.all_eq_true.mp h m hm
  simp at this
  exact this e

theorem grows_handleNewmtl (file : File) (s : Loader) : Grows s (handleNewmtl file s).2 := by
  unfold handleNewmtl
  dsimp only
  split
  · exact grows_ReadParams _ _ _ _ _ _ _
  · split
    · rename_i hall
      exact (grows_ReadParams _ _ _ _ _ _ _).andThen
        ⟨rfl, rfl, ⟨_, List.map_append _ _ _⟩, fun hn => nodup_append_new _ _ hall hn⟩
    · exact (grows_ReadParams _ _ _ _ _ _ _).andThen (grows_AddError _ _ _)

theorem grows_mtlLine (env : Env) (file : File) (mtl : Option Nat) (s : Loader)
    (r : Option Nat × Loader) (h : mtlLine env file mtl s = some r) : Grows s r.2 := by
  unfold mtlLine at h
  split at h
  · cases h
    exact grows_handleNewmtl _ _
  · split at h
    · rename_i k
      cases hp : mtlProperty env file k s with
      | none => simp [hp] at h
      | some t =>
        simp [hp] at h
        subst h
        exact growsOpt_mtlProperty env file k s t hp
    · cases h
      exact grows_mtlOrphan _ _

theorem grows_mtlLoop (env : Env) (lines : List Str) (file : File) (mtl : Option Nat)
    (s t : Loader) (h : mtlLoop env lines file mtl s = some t) : Grows s t := by
  induction lines generalizing file mtl s with
  | nil =>
    simp [mtlLoop] at h
    subst h
    exact Grows.same _
  | cons line rest ih =>
    rw [mtlLoop] at h
    cases hl : mtlLine env (ReadLine file line) mtl s with
    | none => simp [hl] at h
    | some r =>
      simp [hl] at h
      exact (grows_mtlLine _ _ _ _ _ hl).andThen (ih _ _ _ h)

theorem grows_openLoop (env : Env) (wd : Str) (file : File) (names : List Str) (s : Loader) :
    Grows s (openLoop env wd file names s).2 := by
  induction names generalizing s with
  | nil => exact Grows.same _
  | cons it rest ih =>
    rw [openLoop]
    split
    · exact Grows.same _
    · exact (grows_AddWarning _ _ _).andThen (ih _)

theorem grows_handleMtllib (env : Env) (wd : Str) (file : File) (s t : Loader)
    (h : handleMtllib env wd file s = some t) : Grows s t := by
  unfold handleMtllib at h
  dsimp only at h
  have h1 := grows_ReadParamsMin readStrings file 1 [] s
  have h2 := grows_openLoop env wd file (ReadParamsMin readStrings file 1 [] s).1
    (ReadParamsMin readStrings file 1 [] s).2
  split at h
  · exact (h1.andThen h2).andThen (grows_mtlLoop _ _ _ _ _ _ h)
  · cases h
    exact (h1.andThen h2).andThen (grows_AddError _ _ _)

theorem grows_handleUsemtl (file : File) (s t : Loader)
    (h : handleUsemtl file s = some t) : Grows s t := by
  unfold handleUsemtl at h
  dsimp only at h
  have h1 := grows_ReadParams readStrings file 1 1 [] [] s
  split at h
  · simp at h
  · split at h
    · cases h
      exact h1.andThen ⟨rfl, rfl, ⟨[], by simp [ObjData.names]⟩, id⟩
    · cases h
      exact h1.andThen ((grows_AddError _ _ _).andThen
        ⟨rfl, rfl, ⟨[], by simp [ObjData.names]⟩, id⟩)

theorem grows_handleOther (file : File) (s : Loader) : Grows s (handleOther file s) := by
  unfold handleOther
  split
  · exact Grows.same _
  · split
    · split
      · exact grows_AddWarning _ _ _
      · exact grows_AddError _ _ _
    · exact Grows.same _

theorem grows_addErrs (es : List Str) (s : Loader) : Grows s (addErrs es s) :=
  ⟨rfl, rfl, ⟨[], by simp [addErrs]⟩, id⟩

theorem grows_handleF (file : File) (s t : Loader) (h : handleF file s = some t) :
    Grows s t := by
  by_cases hn : (groupsOf file).length < 3
  · rw [handleF_few file s hn] at h
    cases h
    exact grows_AddError _ _ _
  · by_cases hu : Uniform (triplesOf file s)
    · rw [handleF_uniform file s (by omega) hu] at h
      cases h
      exact ⟨rfl, rfl, ⟨[], by simp [ObjData.names, addErrs]⟩, id⟩
    · rw [handleF_mismatch file s (by omega) hu] at h
      cases h
      exact (grows_addErrs _ _).andThen (grows_AddError _ _ _)

theorem unique_grows {s t : Loader} (h : Grows s t) (hu : UniqueNames s) : UniqueNames t := by
  intro d hd
  unfold Loader.lodData at hd
  rw [h.before, h.after] at hd
  rcases List.mem_append.mp hd with hd | hd
  · exact hu d (by unfold Loader.lodData; simp [hd])
  · rcases List.mem_cons.mp hd with hd | hd
    · subst hd
      exact h.nodup (hu s.currentLod (by unfold Loader.lodData; simp))
    · exact hu d (by unfold Loader.lodData; simp [hd])

theorem unique_handleLod (file : File) (s : Loader) (hu : UniqueNames s) :
    UniqueNames (handleLod file s) := by
  by_cases h1 : (readInts file.params).length = 1
  · obtain ⟨R, hR⟩ := List.length_eq_one.mp h1
    rw [handleLod_one file s R hR]
    intro d hd
    unfold Loader.lodData at hd
    dsimp only at hd
    have hsub : ∀ (l : List ObjData), (∀ x ∈ l, x ∈ s.lodData) →
        d ∈ (lodSearch R l).1 ++ ObjData.new :: (lodSearch R l).2 → d.names.Nodup := by
      intro l hl hd
      rcases List.mem_append.mp hd with hd | hd
      · exact hu d (hl d (by rw [← lodSearch_append R l]; simp [hd]))
      · rcases List.mem_cons.mp hd with hd | hd
        · subst hd
          exact List.nodup_nil
        · exact hu d (hl d (by rw [← lodSearch_append R l]; simp [hd]))
    by_cases c : s.currentLod.v.length = 0 ∧ s.currentLod.f.length = 0
    · rw [if_pos c] at hd
      exact hsub _ (fun x hx => by
        unfold Loader.lodData
        rcases List.mem_append.mp hx with hx | hx
        · simp [hx]
        · simp [hx]) hd
    · rw [if_neg c] at hd
      exact hsub _ (fun x hx => hx) hd
  · rw [handleLod_other file s h1]
    exact unique_grows (grows_AddError _ _ _) hu

theorem unique_objLine (env : Env) (wd : Str) (file : File) (s t : Loader)
    (h : objLine env wd file s = some t) (hu : UniqueNames s) : UniqueNames t := by
  unfold objLine at h
  split at h
  · cases h
    exact unique_grows (s := s) ⟨rfl, rfl, ⟨[], by simp⟩, id⟩ hu
  split at h
  · cases h
    have hr := grows_ReadParams env.readFloats file (Step_v - 1 : Nat) Step_v f1_0
      s.currentLod.v s
    exact unique_grows (s := s) ⟨hr.before, hr.after, hr.names, hr.nodup⟩ hu
  split at h
  · cases h
    have hr := grows_ReadParams env.readFloats file (Step_vt - 2 : Nat) Step_vt f0_0
      s.currentLod.vt s
    exact unique_grows (s := s) ⟨hr.before, hr.after, hr.names, hr.nodup⟩ hu
  split at h
  · cases h
    have hr := grows_ReadParams env.readFloats file Step_vn Step_vn f0_0 s.currentLod.vn s
    exact unique_grows (s := s) ⟨hr.before, hr.after, hr.names, hr.nodup⟩ hu
  split at h
  · exact unique_grows (grows_handleF _ _ _ h) hu
  split at h
  · cases h
    exact unique_grows (s := s) ⟨rfl, rfl, ⟨[], by simp [ObjData.names]⟩, id⟩ hu
  split at h
  · exact unique_grows (grows_handleUsemtl _ _ _ h) hu
  split at h
  · exact unique_grows (grows_handleMtllib _ _ _ _ _ h) hu
  split at h
  · cases h
    exact unique_grows (s := s) ⟨rfl, rfl, ⟨[], by simp [ObjData.names]⟩, id⟩ hu
  split at h
  · cases h
    exact unique_handleLod _ _ hu
  · cases h
    exact unique_grows (grows_handleOther _ _) hu

theorem unique_objLoop (env : Env) (wd : Str) (lines : List Str) (file : File)
    (s t : Loader) (h : objLoop env wd lines file s = some t) (hu : UniqueNames s) :
    UniqueNames t := by
  induction lines generalizing file s with
  | nil =>
    simp [objLoop] at h
    subst h
    exact hu
  | cons line rest ih =>
    rw [objLoop] at h
    cases hl : objLine env wd (ReadLine file line) s with
    | none => simp [hl] at h
    | some s1 =>
      simp [hl] at h
      exact ih _ _ h (unique_objLine _ _ _ _ _ hl hu)

theorem unique_load (env : Env) (filename : Str) (s : Loader)
    (h : load env filename = some s) : UniqueNames s := by
  have h0 : UniqueNames Loader.init := by
    intro d hd
    have : d = ObjData.new := by simpa [Loader.lodData, Loader.init] using hd
    subst this
    exact List.nodup_nil
  unfold load at h
  split at h
  · rename_i text _
    cases hl : objLoop env (workingDirectory filename) (splitLines text)
        { name := filename, lineNo := 0, type := [], params := [] } Loader.init with
    | none => simp [hl] at h
    | some s1 =>
      simp [hl] at h
      have h1 := unique_objLoop _ _ _ _ _ _ hl h0
      subst h
      split
      · exact unique_grows (s := s1) ⟨rfl, rfl, ⟨[], by simp⟩, id⟩ h1
      · exact h1
  · simp only [Option.some.injEq] at h
    subst h
    exact unique_grows (s := Loader.init) ⟨rfl, rfl, ⟨[], by simp⟩, id⟩ h0

/-! ### The redefinition of a material -/

theorem handleNewmtl_duplicate (file : File) (s : Loader) (X : Str)
    (hX : readStrings file.params = [X]) (hdup : X ∈ s.currentLod.names) :
    handleNewmtl file s =
      (none, AddError file ("Redefinition of material \"".toList ++ X ++ "\"".toList) s) := by
  unfold handleNewmtl
  rw [ReadParams_accept readStrings file 0 1 "default".toList [] s (by simp [hX])
    (by simp [hX]), hX]
  have hall : ¬ (s.currentLod.newmtl.all (fun m => m.newmtl != X) = true) := by
    intro h
    obtain ⟨m, hm, e⟩ := List.mem_map.mp hdup
    have := List.all_eq_true.mp h m hm
    simp at this
    exact this e
  simp only [List.nil_append, List.cons_append, if_neg hall]

theorem mtlOrphan_addErrs (file : File) (s : Loader) :
    ∃ es, mtlOrphan file s = addErrs es s := by
  unfold mtlOrphan
  split
  · exact ⟨[], by simp [addErrs]⟩
  · split
    · split
      · exact ⟨_, rfl⟩
      · exact ⟨_, rfl⟩
    · exact ⟨[], by simp [addErrs]⟩

theorem mtlLoop_orphans (env : Env) : ∀ (lines : List Str) (file : File) (s : Loader),
    (∀ l ∈ lines, keywordOf l ≠ "newmtl".toList) →
    ∃ es, mtlLoop env lines file none s = some (addErrs es s)
  | [], _, s, _ => ⟨[], by simp [mtlLoop, addErrs]⟩
  | line :: rest, file, s, h => by
    have h1 : (ReadLine file line).type ≠ "newmtl".toList := h line (List.mem_cons_self _ _)
    obtain ⟨e1, he1⟩ := mtlOrphan_addErrs (ReadLine file line) s
    obtain ⟨e2, he2⟩ := mtlLoop_orphans env rest (ReadLine file line) (addErrs e1 s)
      (fun l hl => h l (List.mem_cons_of_mem _ hl))
    refine ⟨e1 ++ e2, ?_⟩
    rw [mtlLoop]
    unfold mtlLine
    rw [if_neg h1]
    simp only [Option.some_bind, he1, he2, addErrs_addErrs]

/-- Claim C16. In every pending context that the reading of a mesh file leaves, the names
of the materials are pairwise different. A `newmtl X` line whose name `X` is that of a
material of the active context appends exactly one error, which names `X`, changes nothing
else in the loader (no material is added, none is changed) and leaves no material active.
The lines that follow it, up to the next `newmtl` line, then change nothing but the error
log: all materials of all contexts are as before. -/
theorem C16_material_names_unique (env : Env) :
    (∀ (filename : Str) (s : Loader), load env filename = some s →
      ∀ d ∈ s.lodData, d.names.Nodup) ∧
    (∀ (file : File) (mtl : Option Nat) (s : Loader) (X : Str),
      file.type = "newmtl".toList → readStrings file.params = [X] →
      X ∈ s.currentLod.names →
      mtlLine env file mtl s = some (none, { s with errors := s.errors ++ [lineTag file ++
        ("Redefinition of material \"".toList ++ X ++ "\"".toList)] })) ∧
    (∀ (line : Str) (lines : List Str) (file : File) (mtl : Option Nat) (s : Loader)
      (X : Str), keywordOf line = "newmtl".toList →
      readStrings (ReadLine file line).params = [X] → X ∈ s.currentLod.names →
      (∀ l ∈ lines, keywordOf l ≠ "newmtl".toList) →
      ∃ es, mtlLoop env (line :: lines) file mtl s = some { s with errors := s.errors ++
        (lineTag (ReadLine file line) ++
          ("Redefinition of material \"".toList ++ X ++ "\"".toList)) :: es }) := by
  refine ⟨fun filename s h => unique_load env filename s h, ?_, ?_⟩
  · intro file mtl s X ht hX hdup
    unfold mtlLine
    rw [if_pos ht, handleNewmtl_duplicate file s X hX hdup]
    rfl
  · intro line lines file mtl s X ht hX hdup hl
    obtain ⟨es, he⟩ := mtlLoop_orphans env lines (ReadLine file line)
      (AddError (ReadLine file line)
        ("Redefinition of material \"".toList ++ X ++ "\"".toList) s) hl
    refine ⟨es, ?_⟩
    rw [mtlLoop]
    unfold mtlLine
    rw [if_pos (show (ReadLine file line).type = "newmtl".toList from ht),
      handleNewmtl_duplicate _ s X hX hdup]
    simp only [Option.some_bind, he]
    simp [addErrs, AddError]

/-- Instance of C16: the mesh file of `sampleLibrary` is read with the one material `red`,
whose `Kd` is that of the first definition, and two errors; the lines `newmtl red` and
`Kd 0 1 0` over the materials `red` and `blue` change only the error log. -/
theorem C16_material_names_unique_witness :
    (∃ s, load sampleLibrary "m.obj".toList = some s ∧
      (∀ d ∈ s.lodData, d.names.Nodup) ∧
      s.lodData.map (fun d => d.newmtl.map fun m => (m.newmtl, m.Kd)) =
        [[("red".toList, [f1_0, f0_0, f0_0])]] ∧
      s.errors = ["r.mtl: Line 3: Redefinition of material \"red\"".toList,
        "r.mtl: Line 4: \'Kd\' operating on undefined material".toList]) ∧
    mtlLine sampleLibrary { sampleLine " red" with type := "newmtl".toList } (some 1)
        sampleMaterials =
      some (none, { sampleMaterials with
        errors := ["m.obj: Line 4: Redefinition of material \"red\"".toList] }) ∧
    (∃ es, mtlLoop sampleLibrary ["newmtl red".toList, "Kd 0 1 0".toList]
        (sampleLine "") (some 1) sampleMaterials =
      some { sampleMaterials with
        errors := "m.obj: Line 5: Redefinition of material \"red\"".toList :: es }) :=
  ⟨⟨(load sampleLibrary "m.obj".toList).get (by decide), by simp,
      (C16_material_names_unique sampleLibrary).1 "m.obj".toList _ (by simp),
      by decide, by decide⟩,
    (C16_material_names_unique sampleLibrary).2.1
      { sampleLine " red" with type := "newmtl".toList } (some 1) sampleMaterials
      "red".toList rfl (by decide) (by decide),
    (C16_material_names_unique sampleLibrary).2.2 "newmtl red".toList ["Kd 0 1 0".toList]
      (sampleLine "") (some 1) sampleMaterials "red".toList (by decide) (by decide)
      (by decide) (by decide)⟩

/-! ### The working directory, a usemtl line without a name, Reverse on two triangles -/

/-- Claim C21 fails for a path whose only separators are backslashes: for `dir\model.obj`
the working directory is empty, not `dir\`. With a `/` in the path the later of the two
separators ends the directory, and without any separator the directory is empty, as
claimed. The material file `dir\r.mtl` named by the mesh file `dir\m.obj` is therefore
looked for as `r.mtl` and not found. -/
theorem C21_backslash_only_gives_empty_directory :
    workingDirectory "dir\\model.obj".toList = [] ∧
    workingDirectory "a/b\\model.obj".toList = "a/b\\".toList ∧
    workingDirectory "a\\b/model.obj".toList = "a\\b/".toList ∧
    workingDirectory "a/model.obj".toList = "a/".toList ∧
    workingDirectory "model.obj".toList = [] ∧
    (load sampleBackslash "dir\\m.obj".toList).map
        (fun s => (s.errors, s.warnings, s.currentLod.newmtl.length)) =
      some (["dir\\m.obj: Line 1: Specified files could not be opened".toList],
        ["dir\\m.obj: Line 1: Could not open \"r.mtl\"".toList,
          "File does not contain any face definitions".toList], 0) := by
  decide

/-- Claim C27 fails: on a `usemtl` line without parameter, or with two, `ReadParams` records
the parameter-count error and leaves the list of names empty; the handler then evaluates
`mtlname.front()` on the empty list, which has no defined result, and so neither has the
reading of a mesh file that holds such a line. -/
theorem C27_usemtl_reads_front_of_empty_list :
    ReadParams readStrings { sampleLine "" with type := "usemtl".toList } 1 1 [] []
        (sampleLoader 1) =
      ([], { sampleLoader 1 with errors :=
        ["m.obj: Line 4: \'usemtl\' does not take 0 parameter(s) (expected 1)".toList] }) ∧
    handleUsemtl { sampleLine "" with type := "usemtl".toList } (sampleLoader 1) = none ∧
    handleUsemtl { sampleLine " a b" with type := "usemtl".toList } sampleMaterials = none ∧
    load (sampleEnv "m.obj" "usemtl") "m.obj".toList = none ∧
    OBJ.new (sampleEnv "m.obj" "v 0 0 0\nusemtl a b") "m.obj".toList = none := by
  decide

/-- Claim C29 fails: the mesh of one quadrilateral is materialized with `num_f = 18`, two
triangles. `Reverse` takes `NUM_FACES = num_f / Step_f_idx = 6`; its rounds 0 and 1 stay
inside the array, and round 2 reads `face[2].v1`, the element `f[18]`, outside the array of
18 elements, so the call has no defined result. With the face count `num_f / Step_f = 2`
the same loop stays inside the array. -/
theorem C29_reverse_reads_outside_f :
    (OBJ.new sampleQuad "m.obj".toList).map (fun obj => (obj.d.num_f, obj.d.f)) =
      some (18, some [2, -1, -1, 1, -1, -1, 0, -1, -1, 3, -1, -1, 2, -1, -1, 0, -1, -1]) ∧
    Int.tdiv 18 Step_f_idx = 6 ∧
    arrGet [2, -1, -1, 1, -1, -1, 0, -1, -1, 3, -1, -1, 2, -1, -1, 0, -1, -1] (9 * 2) =
      none ∧
    swapLoop 6 7 0 (some [2, -1, -1, 1, -1, -1, 0, -1, -1, 3, -1, -1, 2, -1, -1, 0, -1, -1]) =
      none ∧
    swapLoop 2 3 0 (some [2, -1, -1, 1, -1, -1, 0, -1, -1, 3, -1, -1, 2, -1, -1, 0, -1, -1]) =
      some (some [0, -1, -1, 1, -1, -1, 2, -1, -1, 0, -1, -1, 2, -1, -1, 3, -1, -1]) ∧
    (OBJ.new sampleQuad "m.obj".toList).bind OBJ.Reverse = none := by
  decide

/-! ### The material file that cannot be opened -/

theorem openLoop_none (env : Env) (wd : Str) (file : File) : ∀ (names : List Str)
    (s : Loader), (∀ n ∈ names, env.fs (wd ++ n) = none) →
    openLoop env wd file names s =
      (none, { s with warnings := s.warnings ++ names.map (couldNotOpen file) })
  | [], s, _ => by simp [openLoop]
  | it :: rest, s, h => by
    rw [openLoop, h it (List.mem_cons_self _ _)]
    simp only
    rw [openLoop_none env wd file rest _ (fun n hn => h n (List.mem_cons_of_mem _ hn))]
    simp [AddWarning, couldNotOpen]

theorem objLine_mtllib (env : Env) (wd : Str) (file : File) (s : Loader)
    (h : file.type = "mtllib".toList) : objLine env wd file s = handleMtllib env wd file s := by
  unfold objLine
  rw [h, if_neg (by decide), if_neg (by decide), if_neg (by decide), if_neg (by decide),
    if_neg (by decide), if_neg (by decide), if_neg (by decide), if_pos rfl]

theorem handleMtllib_unopened (env : Env) (wd : Str) (file : File) (s : Loader)
    (hn : readStrings file.params ≠ [])
    (hfs : ∀ n ∈ readStrings file.params, env.fs (wd ++ n) = none) :
    handleMtllib env wd file s = some { s with
      warnings := s.warnings ++ (readStrings file.params).map (couldNotOpen file)
      errors := s.errors ++ [lineTag file ++ "Specified files could not be opened".toList] } := by
  have hlen : (1 : Int) ≤ ((readStrings file.params).length : Int) := by
    have : 0 < (readStrings file.params).length := List.length_pos.mpr hn
    omega
  unfold handleMtllib
  rw [ReadParamsMin_accept readStrings file 1 [] s hlen]
  simp only [List.nil_append]
  rw [openLoop_none env wd file _ s hfs]
  rfl

theorem errors_handleLod (file : File) (s : Loader) :
    ∃ es, (handleLod file s).errors = s.errors ++ es := by
  by_cases h1 : (readInts file.params).length = 1
  · obtain ⟨R, hR⟩ := List.length_eq_one.mp h1
    rw [handleLod_one file s R hR]
    refine ⟨[], ?_⟩
    dsimp only
    split
    · simp [AddWarning]
    · simp
  · rw [handleLod_other file s h1]
    exact ⟨_, rfl⟩

theorem errors_handleF (file : File) (s t : Loader) (h : handleF file s = some t) :
    ∃ es, t.errors = s.errors ++ es := by
  by_cases hn : (groupsOf file).length < 3
  · rw [handleF_few file s hn] at h
    cases h
    exact ⟨_, rfl⟩
  · by_cases hu : Uniform (triplesOf file s)
    · rw [handleF_uniform file s (by omega) hu] at h
      cases h
      exact ⟨_, rfl⟩
    · rw [handleF_mismatch file s (by omega) hu] at h
      cases h
      exact ⟨_, by simp [AddError, addErrs, List.append_assoc]; rfl⟩

theorem errors_objLine (env : Env) (wd : Str) (file : File) (s t : Loader)
    (h : objLine env wd file s = some t) : ∃ es, t.errors = s.errors ++ es := by
  unfold objLine at h
  split at h
  · cases h
    exact ⟨[], by simp⟩
  split at h
  · cases h
    exact (frame_ReadParams _ _ _ _ _ _ _).errors
  split at h
  · cases h
    exact (frame_ReadParams _ _ _ _ _ _ _).errors
  split at h
  · cases h
    exact (frame_ReadParams _ _ _ _ _ _ _).errors
  split at h
  · exact errors_handleF _ _ _ h
  split at h
  · cases h
    exact ⟨[], by simp⟩
  split at h
  · exact (frame_handleUsemtl _ _ _ h).errors
  split at h
  · exact (frame_handleMtllib _ _ _ _ _ h).errors
  split at h
  · cases h
    exact ⟨[], by simp⟩
  split at h
  · cases h
    exact errors_handleLod _ _
  · cases h
    exact (frame_handleOther _ _).errors

theorem errors_objLoop (env : Env) (wd : Str) (lines : List Str) (file : File) (s t : Loader)
    (h : objLoop env wd lines file s = some t) : ∃ es, t.errors = s.errors ++ es := by
  induction lines generalizing file s with
  | nil =>
    simp [objLoop] at h
    subst h
    exact ⟨[], by simp⟩
  | cons line rest ih =>
    rw [objLoop] at h
    cases hl : objLine env wd (ReadLine file line) s with
    | none => simp [hl] at h
    | some s1 =>
      simp [hl] at h
      obtain ⟨e1, h1⟩ := errors_objLine _ _ _ _ _ hl
      obtain ⟨e2, h2⟩ := ih _ _ h
      exact ⟨e1 ++ e2, by rw [h2, h1, List.append_assoc]⟩

theorem objLoop_append (env : Env) (wd : Str) (pre rest : List Str) (file : File)
    (s : Loader) :
    objLoop env wd (pre ++ rest) file s =
      (objLoop env wd pre file s).bind fun s1 =>
        objLoop env wd rest (pre.foldl ReadLine file) s1 := by
  induction pre generalizing file s with
  | nil => simp [objLoop]
  | cons line pre ih =>
    rw [List.cons_append, objLoop, objLoop]
    cases objLine env wd (ReadLine file line) s with
    | none => rfl
    | some s1 =>
      simp only [Option.some_bind, List.foldl_cons]
      exact ih _ _

theorem new_of_errors (env : Env) (filename : Str) (s : Loader)
    (hload : load env filename = some s) (herr : s.errors ≠ []) :
    OBJ.new env filename = some (OBJ.last { ObjFields.init filename with
      o := s.o, errors := s.errors, warnings := s.warnings }) := by
  have hne : ¬ s.errors.length = 0 := fun h => herr (List.length_eq_zero.mp h)
  unfold OBJ.new
  rw [hload]
  simp only [Option.some_bind, Option.bind_eq_bind, if_neg hne]

theorem load_errors_of_unopened (env : Env) (filename text : Str) (pre : List Str)
    (line : Str) (rest : List Str) (s : Loader) (hfs : env.fs filename = some text)
    (hsplit : splitLines text = pre ++ line :: rest)
    (hkey : keywordOf line = "mtllib".toList) (hn : readStrings (paramsOf line) ≠ [])
    (hno : ∀ n ∈ readStrings (paramsOf line), env.fs (workingDirectory filename ++ n) = none)
    (hload : load env filename = some s) : s.errors ≠ [] := by
  unfold load at hload
  rw [hfs] at hload
  simp only [hsplit, objLoop_append] at hload
  cases h0 : objLoop env (workingDirectory filename) pre
      { name := filename, lineNo := 0, type := [], params := [] } Loader.init with
  | none => simp [h0] at hload
  | some s0 =>
    rw [h0] at hload
    simp only [Option.some_bind] at hload
    rw [objLoop] at hload
    generalize hfl : ReadLine (pre.foldl ReadLine
      { name := filename, lineNo := 0, type := [], params := [] }) line = fl at hload
    have hkey' : fl.type = "mtllib".toList := by rw [← hfl]; exact hkey
    have hn' : readStrings fl.params ≠ [] := by rw [← hfl]; exact hn
    have hno' : ∀ n ∈ readStrings fl.params,
        env.fs (workingDirectory filename ++ n) = none := by rw [← hfl]; exact hno
    rw [objLine_mtllib env _ fl s0 hkey', handleMtllib_unopened env _ fl s0 hn' hno'] at hload
    obtain ⟨a, ha, hs⟩ := Option.map_eq_some'.mp hload
    obtain ⟨es, hes⟩ := errors_objLoop _ _ _ _ _ _ ha
    have h1e : a.errors ≠ [] := by
      rw [hes]
      simp
    rw [← hs]
    split
    · exact h1e
    · exact h1e

/-- Claim C22 as stated fails: in `sampleMissingLibrary` the line `mtllib a.mtl b.mtl` names
two files that cannot be opened. Two warnings and one error are recorded, and the triangle
that the file defines is not materialized. -/
theorem C22_counterexample :
    (load sampleMissingLibrary "m.obj".toList).map (fun s => (s.errors, s.warnings)) =
      some (["m.obj: Line 5: Specified files could not be opened".toList],
        ["m.obj: Line 5: Could not open \"a.mtl\"".toList,
          "m.obj: Line 5: Could not open \"b.mtl\"".toList]) ∧
    (load sampleMissingLibrary "m.obj".toList).map (fun s => s.currentLod.f) =
      some [2, -1, -1, 1, -1, -1, 0, -1, -1] ∧
    (OBJ.new sampleMissingLibrary "m.obj".toList).map
      (fun obj => (obj.HasErrors, obj.d.f, obj.d.num_f)) = some (true, none, 0) := by
  decide

/-- Claim C22, amended. A `mtllib` line with at least one file name, none of whose
candidates can be opened, records one warning `Could not open` for each candidate, in
order, and exactly one error, `Specified files could not be opened`; nothing else changes.
A mesh file that holds such a line is therefore constructed with `HasErrors()` true, with
null arrays, zero counts and no next level of detail. -/
theorem C22_unopened_library_records_error (env : Env) :
    (∀ (wd : Str) (file : File) (s : Loader), file.type = "mtllib".toList →
      readStrings file.params ≠ [] →
      (∀ n ∈ readStrings file.params, env.fs (wd ++ n) = none) →
      objLine env wd file s = some { s with
        warnings := s.warnings ++ (readStrings file.params).map fun n =>
          lineTag file ++ ("Could not open \"".toList ++ n ++ "\"".toList)
        errors := s.errors ++
          [lineTag file ++ "Specified files could not be opened".toList] }) ∧
    (∀ (filename text : Str) (pre : List Str) (line : Str) (rest : List Str) (obj : OBJ),
      env.fs filename = some text → splitLines text = pre ++ line :: rest →
      keywordOf line = "mtllib".toList → readStrings (paramsOf line) ≠ [] →
      (∀ n ∈ readStrings (paramsOf line), env.fs (workingDirectory filename ++ n) = none) →
      OBJ.new env filename = some obj →
      obj.HasErrors = true ∧ obj.lod = none ∧
      obj.d.v = none ∧ obj.d.vt = none ∧ obj.d.vn = none ∧ obj.d.newmtl = none ∧
      obj.d.f = none ∧ obj.d.usemtl = none ∧ obj.d.g = none ∧
      obj.d.num_v = 0 ∧ obj.d.num_vt = 0 ∧ obj.d.num_vn = 0 ∧ obj.d.num_newmtl = 0 ∧
      obj.d.num_f = 0 ∧ obj.d.num_usemtl = 0 ∧ obj.d.num_g = 0) := by
  constructor
  · intro wd file s ht hn hno
    rw [objLine_mtllib env wd file s ht, handleMtllib_unopened env wd file s hn hno]
    rfl
  · intro filename text pre line rest obj hfs hsplit hkey hn hno hnew
    cases hload : load env filename with
    | none => simp [OBJ.new, hload] at hnew
    | some s =>
      have herr := load_errors_of_unopened env filename text pre line rest s hfs hsplit
        hkey hn hno hload
      rw [new_of_errors env filename s hload herr] at hnew
      cases hnew
      refine ⟨?_, rfl, rfl, rfl, rfl, rfl, rfl, rfl, rfl, rfl, rfl, rfl, rfl, rfl, rfl, rfl⟩
      simp only [OBJ.HasErrors, OBJ.d]
      simpa using herr

/-- Instance of C22: the line `mtllib a.mtl b.mtl` where no such file exists, and the mesh
file `sampleMissingLibrary`, whose fifth line it is. -/
theorem C22_unopened_library_records_error_witness :
    objLine sampleMissingLibrary []
        { sampleLine " a.mtl b.mtl" with type := "mtllib".toList } (sampleLoader 1) =
      some { sampleLoader 1 with
        warnings := ["m.obj: Line 4: Could not open \"a.mtl\"".toList,
          "m.obj: Line 4: Could not open \"b.mtl\"".toList]
        errors := ["m.obj: Line 4: Specified files could not be opened".toList] } ∧
    (∃ obj, OBJ.new sampleMissingLibrary "m.obj".toList = some obj ∧
      obj.HasErrors = true ∧ obj.d.f = none ∧ obj.d.num_f = 0) := by
  constructor
  · exact (C22_unopened_library_records_error sampleMissingLibrary).1 []
      { sampleLine " a.mtl b.mtl" with type := "mtllib".toList } (sampleLoader 1) rfl
      (by decide) (by decide)
  · have h := (C22_unopened_library_records_error sampleMissingLibrary).2 "m.obj".toList
      "v 0 0 0\nv 1 0 0\nv 0 1 0\nf 1 2 3\nmtllib a.mtl b.mtl".toList
      ["v 0 0 0".toList, "v 1 0 0".toList, "v 0 1 0".toList, "f 1 2 3".toList]
      "mtllib a.mtl b.mtl".toList []
      ((OBJ.new sampleMissingLibrary "m.obj".toList).get (by decide))
      (by decide) (by decide) (by decide) (by decide) (by decide) (by simp)
    exact ⟨_, by simp, h.1, h.2.2.2.2.2.2.1, h.2.2.2.2.2.2.2.2.2.2.2.2.2.1⟩

/-! ### The omission pattern of an `f` line -/

theorem mismatch_not_mem_relErr (file : File) (kind : Str) (size x : Int) :
    lineTag file ++ "Vertex index mismatch".toList ∉ relErr file kind size x := by
  unfold relErr
  split
  · simp only [List.mem_singleton]
    intro h
    have h1 := List.append_cancel_left h
    have h2 : (relativeMsg kind (x + 1) size).head? = some 'R' := rfl
    rw [← h1] at h2
    exact absurd h2 (by decide)
  · simp

theorem mismatch_not_mem_rangeErr (file : File) (kind : Str) (size x : Int) :
    lineTag file ++ "Vertex index mismatch".toList ∉ rangeErr file kind size x := by
  unfold rangeErr
  split
  · simp only [List.mem_singleton]
    intro h
    have h1 := List.append_cancel_left h
    have h2 : (rangeMsg kind (toInt32 (x + 1))).head? = some 'I' := rfl
    rw [← h1] at h2
    exact absurd h2 (by decide)
  · simp

theorem mismatch_not_mem_slashErr (file : File) (p : Option Nat) :
    lineTag file ++ "Vertex index mismatch".toList ∉ slashErr file p := by
  unfold slashErr
  split
  · simp only [List.mem_singleton]
    intro h
    have h1 := List.append_cancel_left h
    exact absurd h1 (by decide)
  · simp

theorem mismatch_not_mem_groupErrs (file : File) (s : Loader) :
    lineTag file ++ "Vertex index mismatch".toList ∉ groupErrs file s := by
  unfold groupErrs
  intro h
  obtain ⟨l, hl, hm⟩ := List.mem_flatten.mp h
  obtain ⟨v, _, rfl⟩ := List.mem_map.mp hl
  unfold vertexErrs at hm
  simp only [List.mem_append] at hm
  rcases hm with (((((hm | hm) | hm) | hm) | hm) | hm) | hm
  · exact mismatch_not_mem_relErr _ _ _ _ hm
  · exact mismatch_not_mem_relErr _ _ _ _ hm
  · exact mismatch_not_mem_relErr _ _ _ _ hm
  · exact mismatch_not_mem_slashErr _ _ hm
  · exact mismatch_not_mem_rangeErr _ _ _ _ hm
  · exact mismatch_not_mem_rangeErr _ _ _ _ hm
  · exact mismatch_not_mem_rangeErr _ _ _ _ hm

theorem uniform_iff_count (file : File) (s : Loader) :
    Uniform (triplesOf file s) ↔
      ∀ r : Nat, r < 3 →
        (triplesOf file s).countP (fun t : List Int => decide (t[r]? = some (-1))) %
          (groupsOf file).length = 0 := by
  have hlen : (triplesOf file s).length = (groupsOf file).length := by simp [triplesOf]
  unfold Uniform omittedFrom
  simp only [List.drop_zero, hlen]

/-- Claim C23. For an `f` line with `N ≥ 3` vertex groups: if in one of the three slots the
number of groups that hold `-1` (after the resolution of relative indices) is not a multiple
of `N`, the line appends the errors of its groups and then one error
`Vertex index mismatch`, and nothing else changes: no triangle is appended. Otherwise it
appends the errors of its groups, none of which is `Vertex index mismatch`, and is
triangulated: `N - 2` triangles of nine indices are appended, with one material index and
one group name each. A count is not a multiple of `N` exactly when it is neither `0` nor
`N`. -/
theorem C23_mismatch_iff_omission_not_uniform (file : File) (s : Loader)
    (hN : 3 ≤ (groupsOf file).length) :
    ((∃ r : Nat, r < 3 ∧
        (triplesOf file s).countP (fun t : List Int => decide (t[r]? = some (-1))) %
          (groupsOf file).length ≠ 0) →
      handleF file s = some { s with errors := s.errors ++
        (groupErrs file s ++ [lineTag file ++ "Vertex index mismatch".toList]) }) ∧
    ((∀ r : Nat, r < 3 →
        (triplesOf file s).countP (fun t : List Int => decide (t[r]? = some (-1))) %
          (groupsOf file).length = 0) →
      handleF file s = some { s with
        errors := s.errors ++ groupErrs file s
        currentLod := { s.currentLod with
          f := s.currentLod.f ++ fanTris (triplesOf file s) 1 ((groupsOf file).length - 2)
          usemtl := s.currentLod.usemtl ++
            List.replicate ((groupsOf file).length - 2) s.currentLod.state.usemtl
          g := s.currentLod.g ++
            List.replicate ((groupsOf file).length - 2) s.currentLod.state.g } } ∧
      (fanTris (triplesOf file s) 1 ((groupsOf file).length - 2)).length =
        9 * ((groupsOf file).length - 2)) ∧
    lineTag file ++ "Vertex index mismatch".toList ∉ groupErrs file s ∧
    (∀ r : Nat, (triplesOf file s).countP (fun t : List Int => decide (t[r]? = some (-1))) %
        (groupsOf file).length ≠ 0 ↔
      ((triplesOf file s).countP (fun t : List Int => decide (t[r]? = some (-1))) ≠ 0 ∧
        (triplesOf file s).countP (fun t : List Int => decide (t[r]? = some (-1))) ≠
          (groupsOf file).length)) := by
  have hlen : (triplesOf file s).length = (groupsOf file).length := by simp [triplesOf]
  refine ⟨fun h => ?_, fun h => ⟨?_, ?_⟩, mismatch_not_mem_groupErrs file s, fun r => ?_⟩
  · have hu : ¬ Uniform (triplesOf file s) := by
      rw [uniform_iff_count]
      intro hall
      obtain ⟨r, hr, hne⟩ := h
      exact hne (hall r hr)
    rw [handleF_mismatch file s hN hu]
    simp [AddError, addErrs, List.append_assoc]
  · rw [handleF_uniform file s hN ((uniform_iff_count file s).mpr h)]
    rfl
  · exact fanTris_length (triplesOf file s) (blocks3_vertex s _) _ 1 (by rw [hlen]; omega)
  · have hle : (triplesOf file s).countP (fun t : List Int => decide (t[r]? = some (-1))) ≤
        (groupsOf file).length := by
      rw [← hlen]
      exact List.countP_le_length _
    generalize (triplesOf file s).countP
      (fun t : List Int => decide (t[r]? = some (-1))) = c at hle ⊢
    constructor
    · intro h
      constructor
      · intro h0
        rw [h0] at h
        simp at h
      · intro hc
        rw [hc] at h
        simp at h
    · intro ⟨h0, hc⟩
      rw [Nat.mod_eq_of_lt (by omega)]
      exact h0

/-- Instance of C23: over three positions and three texture coordinates, the line
`f 1/1 2/2 3` omits the texture index in one group of three and records the mismatch; the
line `f 1/1 2/2 3/3` is triangulated. -/
theorem C23_mismatch_iff_omission_not_uniform_witness :
    handleF (sampleLine " 1/1 2/2 3")
        { sampleLoader 3 with currentLod := { (sampleLoader 3).currentLod with
          vt := List.replicate 9 f0_0 } } =
      some { sampleLoader 3 with
        errors := ["m.obj: Line 4: Vertex index mismatch".toList]
        currentLod := { (sampleLoader 3).currentLod with vt := List.replicate 9 f0_0 } } ∧
    (handleF (sampleLine " 1/1 2/2 3/3")
        { sampleLoader 3 with currentLod := { (sampleLoader 3).currentLod with
          vt := List.replicate 9 f0_0 } }).map (fun t => (t.errors, t.currentLod.f)) =
      some ([], [2, 2, -1, 1, 1, -1, 0, 0, -1]) := by
  constructor
  · exact ((C23_mismatch_iff_omission_not_uniform (sampleLine " 1/1 2/2 3")
      { sampleLoader 3 with currentLod := { (sampleLoader 3).currentLod with
        vt := List.replicate 9 f0_0 } } (by decide)).1 ⟨1, by decide, by decide⟩).trans
      (by decide)
  · rw [((C23_mismatch_iff_omission_not_uniform (sampleLine " 1/1 2/2 3/3")
      { sampleLoader 3 with currentLod := { (sampleLoader 3).currentLod with
        vt := List.replicate 9 f0_0 } } (by decide)).2.1 (by decide)).1]
    decide

/-! ### Relative indices that cannot be resolved -/

theorem relErr_unresolved (file : File) (kind : Str) (size x : Int) (h1 : x < -1)
    (h2 : size + (x + 1) < 0) :
    relErr file kind size x = [lineTag file ++ relativeMsg kind (x + 1) size] := by
  unfold relErr
  rw [if_pos ⟨h1, h2⟩]

theorem resolved_unresolved (size x : Int) (h1 : x < -1) (h2 : size + (x + 1) < 0) :
    resolved size x = x := by
  unfold resolved
  rw [if_pos h1, if_pos h2]

theorem rangeErr_below (file : File) (kind : Str) (size x : Int) (h : x < size) :
    rangeErr file kind size x = [] := by
  unfold rangeErr
  rw [if_neg (by omega)]

theorem sizeV_nonneg (s : Loader) : 0 ≤ sizeV s := by
  unfold sizeV
  exact Int.natCast_nonneg _

theorem sizeVt_nonneg (s : Loader) : 0 ≤ sizeVt s := by
  unfold sizeVt
  exact Int.natCast_nonneg _

theorem sizeVn_nonneg (s : Loader) : 0 ≤ sizeVn s := by
  unfold sizeVn
  exact Int.natCast_nonneg _

/-- Claim C25 as stated fails: over three positions the line `f -9 1 2` records exactly one
error, that of the relative index; the bounds check reports nothing for the component,
which stays at `-10` and is stored. -/
theorem C25_counterexample :
    (handleF (sampleLine " -9 1 2") (sampleLoader 3)).map
        (fun t => (t.errors, t.currentLod.f)) =
      some
        (["m.obj: Line 4: Relative index -9 is out of defined range for \'v\' (size is 3)".toList],
          [1, -1, -1, 0, -1, -1, -10, -1, -1]) ∧
    rangeErr (sampleLine " -9 1 2") "v".toList (sizeV (sampleLoader 3)) (-10) = [] := by
  decide

/-- Claim C25, amended. Let `x`, `y`, `z` be the elements pushed for a vertex group. If the
position element `x` is relative (`x < -1`) and resolves below 0 (`size + (x + 1) < 0`),
the body of the vertex loop records for it exactly one error `Relative index ... is out of
defined range for 'v'`, leaves the component at `x`, and its bounds check records nothing
for this component: the errors of the group are that error, then the relative errors of the
other two components, the syntax error if any, and the bounds errors of the other two
components only. The same holds for the texture and the normal component. -/
theorem C25_unresolved_index_reported_once (file : File) (vertex : Str) (face : List Int)
    (s : Loader) (x y z : Int) (p : Option Nat) (hr : rawGroup vertex = ((x, y, z), p)) :
    (x < -1 → sizeV s + (x + 1) < 0 →
      vertexBody file vertex face s =
        some (face ++ [x, resolved (sizeVt s) y, resolved (sizeVn s) z], addErrs
          ([lineTag file ++ relativeMsg "v".toList (x + 1) (sizeV s)] ++
            relErr file "vt".toList (sizeVt s) y ++ relErr file "vn".toList (sizeVn s) z ++
            slashErr file p ++
            rangeErr file "vt".toList (sizeVt s) (resolved (sizeVt s) y) ++
            rangeErr file "vn".toList (sizeVn s) (resolved (sizeVn s) z)) s) ∧
      rangeErr file "v".toList (sizeV s) x = []) ∧
    (y < -1 → sizeVt s + (y + 1) < 0 →
      vertexBody file vertex face s =
        some (face ++ [resolved (sizeV s) x, y, resolved (sizeVn s) z], addErrs
          (relErr file "v".toList (sizeV s) x ++
            [lineTag file ++ relativeMsg "vt".toList (y + 1) (sizeVt s)] ++
            relErr file "vn".toList (sizeVn s) z ++ slashErr file p ++
            rangeErr file "v".toList (sizeV s) (resolved (sizeV s) x) ++
            rangeErr file "vn".toList (sizeVn s) (resolved (sizeVn s) z)) s) ∧
      rangeErr file "vt".toList (sizeVt s) y = []) ∧
    (z < -1 → sizeVn s + (z + 1) < 0 →
      vertexBody file vertex face s =
        some (face ++ [resolved (sizeV s) x, resolved (sizeVt s) y, z], addErrs
          (relErr file "v".toList (sizeV s) x ++ relErr file "vt".toList (sizeVt s) y ++
            [lineTag file ++ relativeMsg "vn".toList (z + 1) (sizeVn s)] ++
            slashErr file p ++
            rangeErr file "v".toList (sizeV s) (resolved (sizeV s) x) ++
            rangeErr file "vt".toList (sizeVt s) (resolved (sizeVt s) y)) s) ∧
      rangeErr file "vn".toList (sizeVn s) z = []) := by
  have hv := sizeV_nonneg s
  have hvt := sizeVt_nonneg s
  have hvn := sizeVn_nonneg s
  refine ⟨fun h1 h2 => ?_, fun h1 h2 => ?_, fun h1 h2 => ?_⟩
  · have hb := rangeErr_below file "v".toList (sizeV s) x (by omega)
    refine ⟨?_, hb⟩
    rw [vertexBody_eq]
    simp only [vertexTriple, vertexErrs, hr, resolved_unresolved _ _ h1 h2,
      relErr_unresolved file _ _ _ h1 h2, hb, List.append_nil]
  · have hb := rangeErr_below file "vt".toList (sizeVt s) y (by omega)
    refine ⟨?_, hb⟩
    rw [vertexBody_eq]
    simp only [vertexTriple, vertexErrs, hr, resolved_unresolved _ _ h1 h2,
      relErr_unresolved file _ _ _ h1 h2, hb, List.append_nil]
  · have hb := rangeErr_below file "vn".toList (sizeVn s) z (by omega)
    refine ⟨?_, hb⟩
    rw [vertexBody_eq]
    simp only [vertexTriple, vertexErrs, hr, resolved_unresolved _ _ h1 h2,
      relErr_unresolved file _ _ _ h1 h2, hb, List.append_nil]

/-- Instance of C25: the group of three components `-9` over three positions, no texture
coordinates and no normals: three relative errors and nothing from the bounds check. -/
theorem C25_unresolved_index_reported_once_witness :
    vertexBody (sampleLine " -9/-9/-9 1 2") "-9/-9/-9".toList [] (sampleLoader 3) =
      some ([-10, -10, -10], addErrs
        ["m.obj: Line 4: Relative index -9 is out of defined range for \'v\' (size is 3)".toList,
          "m.obj: Line 4: Relative index -9 is out of defined range for \'vt\' (size is 0)".toList,
          "m.obj: Line 4: Relative index -9 is out of defined range for \'vn\' (size is 0)".toList]
        (sampleLoader 3)) :=
  (((C25_unresolved_index_reported_once (sampleLine " -9/-9/-9 1 2") "-9/-9/-9".toList []
    (sampleLoader 3) (-10) (-10) (-10) none (by decide)).1 (by decide) (by decide)).1).trans
    (by decide)

/-! ### Lines of a material file without an active material -/

theorem mtlOrphan_known (file : File) (s : Loader) (h : file.type ∈ MTL_KEYWORDS) :
    mtlOrphan file s = AddError file
      ("\'".toList ++ file.type ++ "\' operating on undefined material".toList) s := by
  have hall : ∀ k ∈ MTL_KEYWORDS, k.head? ≠ none ∧ k.head? ≠ some '#' := by decide
  have hk := keywordIndex_mem MTL_KEYWORDS file.type h
  have hlen : MTL_KEYWORDS.length = MTL_NUM_KEYWORDS := by decide
  rw [hlen] at hk
  have hh := hall _ h
  unfold mtlOrphan
  cases ht : file.type with
  | nil => rw [ht] at hh; exact absurd rfl hh.1
  | cons c rest =>
    rw [ht] at hh hk
    have hc : c ≠ '#' := fun e => hh.2 (by simp [e])
    simp only [if_pos hc, ht, if_pos hk.1]

theorem mtlOrphan_unknown (file : File) (s : Loader) (h : file.type ∉ MTL_KEYWORDS)
    (h1 : file.type ≠ []) (h2 : file.type.head? ≠ some '#') :
    mtlOrphan file s = AddError file
      (" Unknown type \'".toList ++ file.type ++ "\'".toList) s := by
  have hk := keywordIndex_not_mem MTL_KEYWORDS file.type h
  have hlen : MTL_KEYWORDS.length = MTL_NUM_KEYWORDS := by decide
  rw [hlen] at hk
  unfold mtlOrphan
  cases ht : file.type with
  | nil => exact absurd ht h1
  | cons c rest =>
    rw [ht] at h2 hk
    have hc : c ≠ '#' := fun e => h2 (by simp [e])
    simp only [if_pos hc, ht, hk, lt_irrefl, if_false]

theorem mtlOrphan_ignored (file : File) (s : Loader)
    (h : file.type = [] ∨ file.type.head? = some '#') : mtlOrphan file s = s := by
  unfold mtlOrphan
  cases ht : file.type with
  | nil => rfl
  | cons c rest =>
    rw [ht] at h
    have hc : c = '#' := by simpa using h
    simp [hc]

theorem mtlOrphan_eq (file : File) (s : Loader) :
    mtlOrphan file s = addErrs (orphanErr file) s := by
  unfold orphanErr
  by_cases h : file.type = [] ∨ file.type.head? = some '#'
  · rw [if_pos h, mtlOrphan_ignored file s h]
    simp [addErrs]
  · rw [if_neg h]
    rw [not_or] at h
    by_cases hm : file.type ∈ MTL_KEYWORDS
    · rw [if_pos hm, mtlOrphan_known file s hm]
      rfl
    · rw [if_neg hm, mtlOrphan_unknown file s hm h.1 h.2]
      rfl

theorem mtlLoop_orphanErrs (env : Env) : ∀ (lines : List Str) (file : File) (s : Loader),
    (∀ l ∈ lines, keywordOf l ≠ "newmtl".toList) →
    mtlLoop env lines file none s = some (addErrs (orphanErrs file lines) s)
  | [], _, s, _ => by simp [mtlLoop, orphanErrs, addErrs]
  | line :: rest, file, s, h => by
    have h1 : (ReadLine file line).type ≠ "newmtl".toList := h line (List.mem_cons_self _ _)
    rw [mtlLoop]
    unfold mtlLine
    rw [if_neg h1]
    simp only [Option.some_bind]
    rw [mtlOrphan_eq, mtlLoop_orphanErrs env rest (ReadLine file line) _
      (fun l hl => h l (List.mem_cons_of_mem _ hl)), addErrs_addErrs]
    rfl

/-- Claim C26 as stated fails: in the material file of `sampleLibrary` the second
`newmtl red` is rejected, and the `Kd` line that follows it is not ignored silently: it
records the error that it operates on an undefined material. -/
theorem C26_counterexample :
    (mtlLoop sampleLibrary ["newmtl red".toList, "Kd 0 1 0".toList]
        { name := "r.mtl".toList, lineNo := 2, type := [], params := [] } (some 0)
        sampleMaterials).map (fun t => (t.errors, t.warnings)) =
      some (["r.mtl: Line 3: Redefinition of material \"red\"".toList,
        "r.mtl: Line 4: \'Kd\' operating on undefined material".toList], []) := by
  decide

/-- Claim C26, amended. After a `newmtl` line that is rejected as a duplicate no material
is active; while none is active a line whose keyword is not `newmtl` leaves none active,
changes no material and records no warning, but it is not silent: if its keyword is not
empty and does not begin with `#` it records exactly one error, `'K' operating on undefined
material` for a keyword `K` of the table `MTL_KEYWORDS` and `Unknown type 'K'` for any other
keyword; else it records nothing. Over the lines up to the next `newmtl` these errors
(`orphanErrs`) follow the error of the redefinition and nothing else changes. -/
theorem C26_orphan_lines_record_errors (env : Env) :
    (∀ (file : File) (s : Loader), file.type ≠ "newmtl".toList →
      (file.type ∈ MTL_KEYWORDS →
        mtlLine env file none s = some (none, { s with errors := s.errors ++ [lineTag file ++
          ("\'".toList ++ file.type ++ "\' operating on undefined material".toList)] })) ∧
      (file.type ≠ [] → file.type.head? ≠ some '#' → file.type ∉ MTL_KEYWORDS →
        mtlLine env file none s = some (none, { s with errors := s.errors ++ [lineTag file ++
          (" Unknown type \'".toList ++ file.type ++ "\'".toList)] })) ∧
      (file.type = [] ∨ file.type.head? = some '#' →
        mtlLine env file none s = some (none, s))) ∧
    (∀ (line : Str) (lines : List Str) (file : File) (mtl : Option Nat) (s : Loader)
      (X : Str), keywordOf line = "newmtl".toList →
      readStrings (ReadLine file line).params = [X] → X ∈ s.currentLod.names →
      (∀ l ∈ lines, keywordOf l ≠ "newmtl".toList) →
      mtlLoop env (line :: lines) file mtl s = some { s with errors := s.errors ++
        (lineTag (ReadLine file line) ++
          ("Redefinition of material \"".toList ++ X ++ "\"".toList)) ::
        (orphanErrs (ReadLine file line) lines) }) := by
  constructor
  · intro file s ht
    have hm : mtlLine env file none s = some (none, mtlOrphan file s) := by
      unfold mtlLine
      rw [if_neg ht]
    refine ⟨fun h => ?_, fun h1 h2 h3 => ?_, fun h => ?_⟩
    · rw [hm, mtlOrphan_known file s h]
      rfl
    · rw [hm, mtlOrphan_unknown file s h3 h1 h2]
      rfl
    · rw [hm, mtlOrphan_ignored file s h]
  · intro line lines file mtl s X ht hX hdup hl
    rw [mtlLoop]
    unfold mtlLine
    rw [if_pos (show (ReadLine file line).type = "newmtl".toList from ht),
      handleNewmtl_duplicate _ s X hX hdup]
    simp only [Option.some_bind]
    rw [mtlLoop_orphanErrs env lines _ _ hl]
    simp [addErrs, AddError]

/-- Instance of C26: over the materials `red` and `blue`, the lines `newmtl red`,
`Kd 0 1 0`, `# note`, `foo 1`; and the line `Kd 0 1 0` alone while no material is active. -/
theorem C26_orphan_lines_record_errors_witness :
    mtlLine sampleLibrary { sampleLine " 0 1 0" with type := "Kd".toList } none
        sampleMaterials =
      some (none, { sampleMaterials with
        errors := ["m.obj: Line 4: \'Kd\' operating on undefined material".toList] }) ∧
    mtlLoop sampleLibrary
        ["newmtl red".toList, "Kd 0 1 0".toList, "# note".toList, "foo 1".toList]
        (sampleLine "") (some 1) sampleMaterials =
      some { sampleMaterials with
        errors := ["m.obj: Line 5: Redefinition of material \"red\"".toList,
          "m.obj: Line 6: \'Kd\' operating on undefined material".toList,
          "m.obj: Line 8:  Unknown type \'foo\'".toList] } :=
  ⟨((C26_orphan_lines_record_errors sampleLibrary).1
      { sampleLine " 0 1 0" with type := "Kd".toList } sampleMaterials (by decide)).1
      (by decide),
    ((C26_orphan_lines_record_errors sampleLibrary).2 "newmtl red".toList
      ["Kd 0 1 0".toList, "# note".toList, "foo 1".toList] (sampleLine "") (some 1)
      sampleMaterials "red".toList (by decide) (by decide) (by decide) (by decide)).trans
      (by decide)⟩

/-! ### The keywords `map_Ns`, `map_Tr` and `map_d` -/

theorem shaped_current {s t : Loader} (hs : AllShaped s) (hb : t.before = s.before)
    (ha : t.after = s.after) (hc : s.currentLod.Shaped → t.currentLod.Shaped) :
    AllShaped t := by
  have hcur : s.currentLod ∈ s.lodData := by simp [Loader.lodData]
  intro d hd
  simp only [Loader.lodData, List.mem_append, List.mem_cons, hb, ha] at hd
  rcases hd with hd | hd | hd
  · exact hs d (by simp [Loader.lodData, hd])
  · subst hd; exact hc (hs _ hcur)
  · exact hs d (by simp [Loader.lodData, hd])

theorem shaped_frame {s t : Loader} (h : Frame s t) (hs : AllShaped s) : AllShaped t := by
  refine shaped_current hs h.before h.after ?_
  intro hc
  unfold ObjData.Shaped at hc ⊢
  rw [h.v, h.vt, h.vn, h.f, h.usemtl, h.g]
  exact hc

theorem shaped_handleF (file : File) (s t : Loader) (h : handleF file s = some t)
    (hs : AllShaped s) : AllShaped t := by
  by_cases hn : (groupsOf file).length < 3
  · rw [handleF_few file s hn] at h
    cases h
    exact shaped_frame (frame_AddError _ _ _) hs
  · have hn3 : 3 ≤ (groupsOf file).length := by omega
    have hfr : Frame s (addErrs (groupErrs file s) s) :=
      ⟨rfl, rfl, rfl, rfl, rfl, rfl, rfl, rfl, ⟨_, rfl⟩⟩
    by_cases hu : Uniform (triplesOf file s)
    · rw [handleF_uniform file s hn3 hu] at h
      cases h
      have hlen : (triplesOf file s).length = (groupsOf file).length := by simp [triplesOf]
      have hl := fanTris_length (triplesOf file s) (blocks3_vertex s _)
        ((groupsOf file).length - 2) 1 (by rw [hlen]; omega)
      refine shaped_current hs rfl rfl ?_
      intro hc
      obtain ⟨h1, h2, h3, h4, h5⟩ := hc
      refine ⟨h1, h2, h3, ?_, ?_⟩
      · simp only [List.length_append, hl, List.length_replicate]; omega
      · simp only [List.length_append, hl, List.length_replicate]; omega
    · rw [handleF_mismatch file s hn3 hu] at h
      cases h
      exact shaped_frame (hfr.trans (frame_AddError _ _ _)) hs

theorem shaped_handleLod (file : File) (s : Loader) (hs : AllShaped s) :
    AllShaped (handleLod file s) := by
  have hnew : ObjData.new.Shaped := inv_new.1
  by_cases h1 : (readInts file.params).length = 1
  · obtain ⟨R, hR⟩ := List.length_eq_one.mp h1
    rw [handleLod_one file s R hR]
    intro d hd
    unfold Loader.lodData at hd
    dsimp only at hd
    have hsub : ∀ (l : List ObjData), (∀ x ∈ l, x ∈ s.lodData) →
        d ∈ (lodSearch R l).1 ++ ObjData.new :: (lodSearch R l).2 → d.Shaped := by
      intro l hl hd
      rcases List.mem_append.mp hd with hd | hd
      · exact hs d (hl d (by rw [← lodSearch_append R l]; simp [hd]))
      · rcases List.mem_cons.mp hd with hd | hd
        · subst hd
          exact hnew
        · exact hs d (hl d (by rw [← lodSearch_append R l]; simp [hd]))
    by_cases c : s.currentLod.v.length = 0 ∧ s.currentLod.f.length = 0
    · rw [if_pos c] at hd
      exact hsub _ (fun x hx => by
        unfold Loader.lodData
        rcases List.mem_append.mp hx with hx | hx
        · simp [hx]
        · simp [hx]) hd
    · rw [if_neg c] at hd
      exact hsub _ (fun x hx => hx) hd
  · rw [handleLod_other file s h1]
    exact shaped_frame (frame_AddError _ _ _) hs

theorem shaped_objLine (env : Env) (wd : Str) (file : File) (s t : Loader)
    (h : objLine env wd file s = some t) (hs : AllShaped s) : AllShaped t := by
  unfold objLine at h
  split at h
  · cases h
    exact shaped_frame (s := s) ⟨rfl, rfl, rfl, rfl, rfl, rfl, rfl, rfl, ⟨[], by simp⟩⟩ hs
  split at h
  · cases h
    have hf := frame_ReadParams env.readFloats file ((Step_v - 1 : Nat) : Int) (Step_v : Nat)
      f1_0 s.currentLod.v s
    have hl := ReadParams_length env.readFloats file ((Step_v - 1 : Nat) : Int) (Step_v : Nat)
      f1_0 s.currentLod.v s
    have e4 : ((Step_v : Nat) : Int).toNat = 4 := rfl
    rw [e4] at hl
    refine shaped_current hs hf.before hf.after ?_
    intro hc
    obtain ⟨h1, h2, h3, h4, h5⟩ := hc
    refine ⟨?_, ?_, ?_, ?_, ?_⟩
    · show List.length _ % 4 = 0
      rcases hl with hl | hl <;> (rw [hl]; omega)
    · show List.length _ % 3 = 0
      rw [hf.vt]; exact h2
    · show List.length _ % 3 = 0
      rw [hf.vn]; exact h3
    · show List.length _ = 9 * List.length _
      rw [hf.f, hf.usemtl]; exact h4
    · show List.length _ = 9 * List.length _
      rw [hf.f, hf.g]; exact h5
  split at h
  · cases h
    have hf := frame_ReadParams env.readFloats file ((Step_vt - 2 : Nat) : Int) (Step_vt : Nat)
      f0_0 s.currentLod.vt s
    have hl := ReadParams_length env.readFloats file ((Step_vt - 2 : Nat) : Int)
      (Step_vt : Nat) f0_0 s.currentLod.vt s
    have e4 : ((Step_vt : Nat) : Int).toNat = 3 := rfl
    rw [e4] at hl
    refine shaped_current hs hf.before hf.after ?_
    intro hc
    obtain ⟨h1, h2, h3, h4, h5⟩ := hc
    refine ⟨?_, ?_, ?_, ?_, ?_⟩
    · show List.length _ % 4 = 0
      rw [hf.v]; exact h1
    · show List.length _ % 3 = 0
      rcases hl with hl | hl <;> (rw [hl]; omega)
    · show List.length _ % 3 = 0
      rw [hf.vn]; exact h3
    · show List.length _ = 9 * List.length _
      rw [hf.f, hf.usemtl]; exact h4
    · show List.length _ = 9 * List.length _
      rw [hf.f, hf.g]; exact h5
  split at h
  · cases h
    have hf := frame_ReadParams env.readFloats file (Step_vn : Nat) (Step_vn : Nat)
      f0_0 s.currentLod.vn s
    have hl := ReadParams_length env.readFloats file (Step_vn : Nat) (Step_vn : Nat)
      f0_0 s.currentLod.vn s
    have e4 : ((Step_vn : Nat) : Int).toNat = 3 := rfl
    rw [e4] at hl
    refine shaped_current hs hf.before hf.after ?_
    intro hc
    obtain ⟨h1, h2, h3, h4, h5⟩ := hc
    refine ⟨?_, ?_, ?_, ?_, ?_⟩
    · show List.length _ % 4 = 0
      rw [hf.v]; exact h1
    · show List.length _ % 3 = 0
      rw [hf.vt]; exact h2
    · show List.length _ % 3 = 0
      rcases hl with hl | hl <;> (rw [hl]; omega)
    · show List.length _ = 9 * List.length _
      rw [hf.f, hf.usemtl]; exact h4
    · show List.length _ = 9 * List.length _
      rw [hf.f, hf.g]; exact h5
  split at h
  · exact shaped_handleF file s t h hs
  split at h
  · cases h
    exact shaped_frame (s := s) ⟨rfl, rfl, rfl, rfl, rfl, rfl, rfl, rfl, ⟨[], by simp⟩⟩ hs
  split at h
  · exact shaped_frame (frame_handleUsemtl file s t h) hs
  split at h
  · exact shaped_frame (frame_handleMtllib env wd file s t h) hs
  split at h
  · cases h
    exact shaped_frame (s := s) ⟨rfl, rfl, rfl, rfl, rfl, rfl, rfl, rfl, ⟨[], by simp⟩⟩ hs
  split at h
  · cases h
    exact shaped_handleLod file s hs
  · cases h
    exact shaped_frame (frame_handleOther file s) hs

theorem chain_counts (env : Env) (filename : Str) (obj : OBJ)
    (hnew : OBJ.new env filename = some obj) (d : ObjFields) (hd : d ∈ obj.chain) :
    d.num_f = 9 * d.num_usemtl ∧ d.num_f = 9 * d.num_g ∧
    ∀ f, d.f = some f → ∃ u g, d.usemtl = some u ∧ d.g = some g ∧
      f.length = 9 * u.length ∧ f.length = 9 * g.length ∧ d.num_f = (f.length : Int) ∧
      d.num_usemtl = (u.length : Int) ∧ d.num_g = (g.length : Int) := by
  unfold OBJ.new at hnew
  cases hload : load env filename with
  | none => simp [hload] at hnew
  | some s =>
    rw [hload] at hnew
    simp only [Option.some_bind, Option.bind_eq_bind] at hnew
    have hinv := inv_load env filename s hload
    by_cases he : s.errors.length = 0
    · rw [if_pos he] at hnew
      cases hl : s.lodData with
      | nil => simp [Loader.lodData] at hl
      | cons c rest =>
        rw [hl] at hnew
        have hall : ∀ y ∈ c :: rest, y.Shaped := by
          intro y hy
          exact hinv.1 y (by rw [hl]; exact hy)
        obtain ⟨obj1, h1, h2, _⟩ := materializeLoop_spec filename s.o rest
          { ObjFields.init filename with o := s.o, errors := s.errors, warnings := s.warnings }
          c hall
        simp only [] at hnew
        rw [h1] at hnew
        cases hnew
        obtain ⟨ctx, hctx, hs⟩ := forall₂_mem_right h2 d hd
        obtain ⟨_, _, _, h4, h5⟩ := hall ctx hctx
        obtain ⟨_, _, _, _, ef, eu, eg, _, _, _, _, nf, nu, ng⟩ := hs
        refine ⟨by rw [nf, nu]; exact_mod_cast h4, by rw [nf, ng]; exact_mod_cast h5, ?_⟩
        intro f hf
        rw [ef] at hf
        cases hf
        exact ⟨_, _, eu, eg, h4, h5, nf, nu, ng⟩
    · rw [if_neg he] at hnew
      cases hnew
      simp only [OBJ.chain, List.mem_singleton] at hd
      subst hd
      simp [ObjFields.init]

/-- Claim C24. Every line handler keeps the shape of every pending context (`Shaped`: the
length of `v` is a multiple of 4, those of `vt` and `vn` are multiples of 3, and the length
of `f` is nine times that of `usemtl` and nine times that of `g`): a line of the mesh file
does, a line of a material file does, and so the contexts have this shape when the reading
ends. In every object of the chain that the constructor builds, `num_f = 9 * num_usemtl =
9 * num_g`, and where the array `f` exists, the arrays `usemtl` and `g` exist and hold one
element for every nine elements of `f`. -/
theorem C24_contexts_keep_their_shape (env : Env) :
    (∀ (wd : Str) (file : File) (s t : Loader), (∀ d ∈ s.lodData, d.Shaped) →
      objLine env wd file s = some t → ∀ d ∈ t.lodData, d.Shaped) ∧
    (∀ (file : File) (mtl : Option Nat) (s : Loader) (r : Option Nat × Loader),
      (∀ d ∈ s.lodData, d.Shaped) → mtlLine env file mtl s = some r →
      ∀ d ∈ r.2.lodData, d.Shaped) ∧
    (∀ (filename : Str) (s : Loader), load env filename = some s →
      ∀ d ∈ s.lodData, d.Shaped) ∧
    (∀ (filename : Str) (obj : OBJ), OBJ.new env filename = some obj → ∀ d ∈ obj.chain,
      d.num_f = 9 * d.num_usemtl ∧ d.num_f = 9 * d.num_g ∧
      ∀ f, d.f = some f → ∃ u g, d.usemtl = some u ∧ d.g = some g ∧
        f.length = 9 * u.length ∧ f.length = 9 * g.length ∧ d.num_f = (f.length : Int) ∧
        d.num_usemtl = (u.length : Int) ∧ d.num_g = (g.length : Int)) :=
  ⟨fun wd file s t hs h => shaped_objLine env wd file s t h hs,
    fun file mtl s r hs h => shaped_frame (frame_mtlLine env file mtl s r h) hs,
    fun filename s h => (inv_load env filename s h).1,
    fun filename obj h d hd => chain_counts env filename obj h d hd⟩

/-- Instance of C24: the mesh of one quadrilateral, which names neither a material nor a
group, is materialized with 18 face indices, the two material indices `-1` and the two
group names `default`; the `f` line that makes them keeps the shape of the context. -/
theorem C24_contexts_keep_their_shape_witness :
    (∃ obj, OBJ.new sampleQuad "m.obj".toList = some obj ∧
      obj.d.num_f = 9 * obj.d.num_usemtl ∧ obj.d.num_f = 9 * obj.d.num_g ∧
      obj.d.num_f = 18 ∧ obj.d.usemtl = some [-1, -1] ∧
      obj.d.g = some ["default".toList, "default".toList]) ∧
    (∃ t, objLine sampleQuad [] (sampleLine " 1 2 3 4") (sampleLoader 4) = some t ∧
      ∀ d ∈ t.lodData, d.Shaped) := by
  constructor
  · have h := (C24_contexts_keep_their_shape sampleQuad).2.2.2 "m.obj".toList
      ((OBJ.new sampleQuad "m.obj".toList).get (by decide)) (by simp)
      ((OBJ.new sampleQuad "m.obj".toList).get (by decide)).d (by decide)
    exact ⟨_, by simp, h.1, h.2.1, by decide, by decide, by decide⟩
  · exact ⟨(objLine sampleQuad [] (sampleLine " 1 2 3 4") (sampleLoader 4)).get (by decide),
      by simp,
      (C24_contexts_keep_their_shape sampleQuad).1 [] (sampleLine " 1 2 3 4")
        (sampleLoader 4) _ (by decide) (by simp)⟩

/-! ### The recorded rank of a context -/

theorem rank_refl (s : Loader) : SameRank s s := ⟨rfl, rfl, rfl⟩

theorem rank_trans {s t u : Loader} (h1 : SameRank s t) (h2 : SameRank t u) :
    SameRank s u :=
  ⟨h2.before.trans h1.before, h2.after.trans h1.after, h2.lod.trans h1.lod⟩

theorem rank_AddError (file : File) (m : Str) (s : Loader) :
    SameRank s (AddError file m s) := ⟨rfl, rfl, rfl⟩

theorem rank_AddWarning (file : File) (m : Str) (s : Loader) :
    SameRank s (AddWarning file m s) := ⟨rfl, rfl, rfl⟩

theorem rank_ReadParams {T : Type} (extract : Str → List T) (file : File) (a b : Int)
    (dv : T) (out : List T) (s : Loader) :
    SameRank s (ReadParams extract file a b dv out s).2 := by
  unfold ReadParams
  dsimp only
  split
  · exact rank_AddError _ _ _
  · exact rank_refl _

theorem rank_ReadParamsMin {T : Type} (extract : Str → List T) (file : File) (a : Int)
    (out : List T) (s : Loader) :
    SameRank s (ReadParamsMin extract file a out s).2 := by
  unfold ReadParamsMin
  dsimp only
  split
  · exact rank_AddError _ _ _
  · exact rank_refl _

theorem rankOpt_ite {c : Prop} [Decidable c] {s : Loader} {a b : Option Loader}
    (ha : SameRankOpt s a) (hb : SameRankOpt s b) : SameRankOpt s (if c then a else b) := by
  split
  · exact ha
  · exact hb

theorem rankOpt_some {s t : Loader} (h : SameRank s t) : SameRankOpt s (some t) := by
  intro u hu
  cases hu
  exact h

theorem rankOpt_trans {s t : Loader} {x : Option Loader} (h : SameRank s t)
    (hx : SameRankOpt t x) : SameRankOpt s x :=
  fun u hu => rank_trans h (hx u hu)

theorem rankOpt_setMtl (k : Nat) (fn : MTL → Option MTL) (s : Loader) :
    SameRankOpt s (setMtl k fn s) := by
  intro t h
  unfold setMtl at h
  split at h
  · simp at h
  · rename_i m _
    cases hm : fn m with
    | none => simp [hm] at h
    | some m1 =>
      simp [hm] at h
      subst h
      exact ⟨rfl, rfl, rfl⟩

theorem rankOpt_mtlColor (env : Env) (file : File) (k : Nat) (dv : F32)
    (get : MTL → List F32) (put : MTL → List F32 → MTL) (s : Loader) :
    SameRankOpt s (mtlColor env file k dv get put s) := by
  unfold mtlColor
  dsimp only
  exact rankOpt_ite (rankOpt_trans (rank_ReadParams _ _ _ _ _ _ _) (rankOpt_setMtl _ _ _))
    (rankOpt_some (rank_ReadParams _ _ _ _ _ _ _))

theorem rankOpt_mtlScalar (env : Env) (file : File) (k : Nat) (dv : F32)
    (put : MTL → F32 → MTL) (s : Loader) :
    SameRankOpt s (mtlScalar env file k dv put s) := by
  unfold mtlScalar
  dsimp only
  split
  · exact rankOpt_some (rank_ReadParams _ _ _ _ _ _ _)
  · exact rankOpt_trans (rank_ReadParams _ _ _ _ _ _ _) (rankOpt_setMtl _ _ _)

theorem rankOpt_mtlMap (env : Env) (file : File) (k : Nat) (put : MTL → Str → MTL)
    (s : Loader) : SameRankOpt s (mtlMap env file k put s) := by
  unfold mtlMap
  dsimp only
  exact rankOpt_ite (rankOpt_trans (rank_ReadParamsMin _ _ _ _ _) (rankOpt_setMtl _ _ _))
    (rankOpt_some (rank_ReadParamsMin _ _ _ _ _))

theorem rankOpt_mtlProperty (env : Env) (file : File) (k : Nat) (s : Loader) :
    SameRankOpt s (mtlProperty env file k s) := by
  unfold mtlProperty
  repeat' (with_reducible apply rankOpt_ite)
  all_goals first
    | with_reducible exact rankOpt_mtlColor _ _ _ _ _ _ _
    | with_reducible exact rankOpt_mtlScalar _ _ _ _ _ _
    | with_reducible exact rankOpt_mtlMap _ _ _ _ _
    | with_reducible exact rankOpt_trans (rank_ReadParams _ _ _ _ _ _ _) (rankOpt_setMtl _ _ _)
    | with_reducible exact rankOpt_some (rank_ReadParams _ _ _ _ _ _ _)
    | skip
  · dsimp only
    split
    · exact rankOpt_some (rank_ReadParams _ _ _ _ _ _ _)
    · exact rankOpt_trans (rank_ReadParams _ _ _ _ _ _ _) (rankOpt_setMtl _ _ _)
  · split
    · exact rankOpt_some (rank_refl _)
    · repeat' (with_reducible apply rankOpt_ite)
      · exact rankOpt_some (rank_AddWarning _ _ _)
      · exact rankOpt_some (rank_AddError _ _ _)
      · exact rankOpt_some (rank_refl _)

theorem rank_mtlOrphan (file : File) (s : Loader) : SameRank s (mtlOrphan file s) := by
  rw [mtlOrphan_eq]
  exact ⟨rfl, rfl, rfl⟩

theorem rank_handleNewmtl (file : File) (s : Loader) :
    SameRank s (handleNewmtl file s).2 := by
  unfold handleNewmtl
  dsimp only
  split
  · exact rank_ReadParams _ _ _ _ _ _ _
  · split
    · exact rank_trans (rank_ReadParams _ _ _ _ _ _ _) ⟨rfl, rfl, rfl⟩
    · exact rank_trans (rank_ReadParams _ _ _ _ _ _ _) (rank_AddError _ _ _)

theorem rank_mtlLine (env : Env) (file : File) (mtl : Option Nat) (s : Loader)
    (r : Option Nat × Loader) (h : mtlLine env file mtl s = some r) : SameRank s r.2 := by
  unfold mtlLine at h
  split at h
  · cases h
    exact rank_handleNewmtl _ _
  · split at h
    · rename_i k
      cases hp : mtlProperty env file k s with
      | none => simp [hp] at h
      | some t =>
        simp [hp] at h
        subst h
        exact rankOpt_mtlProperty env file k s t hp
    · cases h
      exact rank_mtlOrphan _ _

theorem rank_mtlLoop (env : Env) (lines : List Str) (file : File) (mtl : Option Nat)
    (s t : Loader) (h : mtlLoop env lines file mtl s = some t) : SameRank s t := by
  induction lines generalizing file mtl s with
  | nil =>
    simp [mtlLoop] at h
    subst h
    exact rank_refl _
  | cons line rest ih =>
    rw [mtlLoop] at h
    cases hl : mtlLine env (ReadLine file line) mtl s with
    | none => simp [hl] at h
    | some r =>
      simp [hl] at h
      exact rank_trans (rank_mtlLine _ _ _ _ _ hl) (ih _ _ _ h)

theorem rank_openLoop (env : Env) (wd : Str) (file : File) (names : List Str) (s : Loader) :
    SameRank s (openLoop env wd file names s).2 := by
  induction names generalizing s with
  | nil => exact rank_refl _
  | cons it rest ih =>
    rw [openLoop]
    split
    · exact rank_refl _
    · exact rank_trans (rank_AddWarning _ _ _) (ih _)

theorem rank_handleMtllib (env : Env) (wd : Str) (file : File) (s t : Loader)
    (h : handleMtllib env wd file s = some t) : SameRank s t := by
  unfold handleMtllib at h
  dsimp only at h
  have h1 := rank_ReadParamsMin readStrings file 1 [] s
  have h2 := rank_openLoop env wd file (ReadParamsMin readStrings file 1 [] s).1
    (ReadParamsMin readStrings file 1 [] s).2
  split at h
  · exact rank_trans (rank_trans h1 h2) (rank_mtlLoop _ _ _ _ _ _ h)
  · cases h
    exact rank_trans (rank_trans h1 h2) (rank_AddError _ _ _)

theorem rank_handleUsemtl (file : File) (s t : Loader)
    (h : handleUsemtl file s = some t) : SameRank s t := by
  unfold handleUsemtl at h
  dsimp only at h
  have h1 := rank_ReadParams readStrings file 1 1 [] [] s
  split at h
  · simp at h
  · split at h
    · cases h
      exact rank_trans h1 ⟨rfl, rfl, rfl⟩
    · cases h
      exact rank_trans h1 (rank_trans (rank_AddError _ _ _) ⟨rfl, rfl, rfl⟩)

theorem rank_handleF (file : File) (s t : Loader) (h : handleF file s = some t) :
    SameRank s t := by
  by_cases hn : (groupsOf file).length < 3
  · rw [handleF_few file s hn] at h
    cases h
    exact rank_AddError _ _ _
  · by_cases hu : Uniform (triplesOf file s)
    · rw [handleF_uniform file s (by omega) hu] at h
      cases h
      exact ⟨rfl, rfl, rfl⟩
    · rw [handleF_mismatch file s (by omega) hu] at h
      cases h
      exact ⟨rfl, rfl, rfl⟩

theorem rankZero_step {s t : Loader} (h : SameRank s t) (hz : RankZero s) : RankZero t := by
  intro d hd
  unfold Loader.lodData at hd
  rw [h.before, h.after] at hd
  rcases List.mem_append.mp hd with hd | hd
  · exact hz d (by unfold Loader.lodData; simp [hd])
  · rcases List.mem_cons.mp hd with hd | hd
    · subst hd
      rw [h.lod]
      exact hz s.currentLod (by unfold Loader.lodData; simp)
    · exact hz d (by unfold Loader.lodData; simp [hd])

theorem lodSearch_front (R : Int) (hR : 0 ≤ R) : ∀ (l : List ObjData),
    (∀ d ∈ l, d.state.lod = 0) → lodSearch R l = ([], l)
  | [], _ => rfl
  | d :: rest, h => by
    rw [lodSearch, if_pos (by rw [h d (List.mem_cons_self _ _)]; exact hR)]

theorem lodSearch_end (R : Int) (hR : R < 0) : ∀ (l : List ObjData),
    (∀ d ∈ l, d.state.lod = 0) → lodSearch R l = (l, [])
  | [], _ => rfl
  | d :: rest, h => by
    rw [lodSearch, if_neg (by rw [h d (List.mem_cons_self _ _)]; omega),
      lodSearch_end R hR rest (fun x hx => h x (List.mem_cons_of_mem _ hx))]

theorem kept_rankZero (s : Loader) (hz : RankZero s) :
    ∀ d ∈ keptContexts s, d.state.lod = 0 := by
  intro d hd
  unfold keptContexts at hd
  split at hd
  · apply hz d
    unfold Loader.lodData
    rcases List.mem_append.mp hd with hd | hd
    · simp [hd]
    · simp [hd]
  · exact hz d hd

theorem handleLod_kept (file : File) (s : Loader) (R : Int)
    (hR : readInts file.params = [R]) :
    (handleLod file s).before = (lodSearch R (keptContexts s)).1 ∧
    (handleLod file s).currentLod = ObjData.new ∧
    (handleLod file s).after = (lodSearch R (keptContexts s)).2 := by
  rw [handleLod_one file s R hR]
  exact ⟨rfl, rfl, rfl⟩

theorem rankZero_handleLod (file : File) (s : Loader) (hz : RankZero s) :
    RankZero (handleLod file s) := by
  by_cases h1 : (readInts file.params).length = 1
  · obtain ⟨R, hR⟩ := List.length_eq_one.mp h1
    obtain ⟨hb, hc, ha⟩ := handleLod_kept file s R hR
    have hk := kept_rankZero s hz
    intro d hd
    unfold Loader.lodData at hd
    rw [hb, hc, ha] at hd
    rcases List.mem_append.mp hd with hd | hd
    · exact hk d (by rw [← lodSearch_append R (keptContexts s)]; simp [hd])
    · rcases List.mem_cons.mp hd with hd | hd
      · subst hd
        rfl
      · exact hk d (by rw [← lodSearch_append R (keptContexts s)]; simp [hd])
  · rw [handleLod_other file s h1]
    exact rankZero_step (rank_AddError _ _ _) hz

theorem rankZero_objLine (env : Env) (wd : Str) (file : File) (s t : Loader)
    (h : objLine env wd file s = some t) (hz : RankZero s) : RankZero t := by
  unfold objLine at h
  split at h
  · cases h
    exact rankZero_step (s := s) ⟨rfl, rfl, rfl⟩ hz
  split at h
  · cases h
    have hr := rank_ReadParams env.readFloats file (Step_v - 1 : Nat) Step_v f1_0
      s.currentLod.v s
    exact rankZero_step (s := s) ⟨hr.before, hr.after, hr.lod⟩ hz
  split at h
  · cases h
    have hr := rank_ReadParams env.readFloats file (Step_vt - 2 : Nat) Step_vt f0_0
      s.currentLod.vt s
    exact rankZero_step (s := s) ⟨hr.before, hr.after, hr.lod⟩ hz
  split at h
  · cases h
    have hr := rank_ReadParams env.readFloats file Step_vn Step_vn f0_0 s.currentLod.vn s
    exact rankZero_step (s := s) ⟨hr.before, hr.after, hr.lod⟩ hz
  split at h
  · exact rankZero_step (rank_handleF _ _ _ h) hz
  split at h
  · cases h
    exact rankZero_step (s := s) ⟨rfl, rfl, rfl⟩ hz
  split at h
  · exact rankZero_step (rank_handleUsemtl _ _ _ h) hz
  split at h
  · exact rankZero_step (rank_handleMtllib _ _ _ _ _ h) hz
  split at h
  · cases h
    exact rankZero_step (s := s) ⟨rfl, rfl, rfl⟩ hz
  split at h
  · cases h
    exact rankZero_handleLod _ _ hz
  · cases h
    have hg := grows_handleOther file s
    have he : (handleOther file s).currentLod = s.currentLod := by
      unfold handleOther
      split
      · rfl
      · split
        · split
          · rfl
          · rfl
        · rfl
    exact rankZero_step (s := s) ⟨hg.before, hg.after, by rw [he]⟩ hz

theorem rankZero_objLoop (env : Env) (wd : Str) (lines : List Str) (file : File)
    (s t : Loader) (h : objLoop env wd lines file s = some t) (hz : RankZero s) :
    RankZero t := by
  induction lines generalizing file s with
  | nil =>
    simp [objLoop] at h
    subst h
    exact hz
  | cons line rest ih =>
    rw [objLoop] at h
    cases hl : objLine env wd (ReadLine file line) s with
    | none => simp [hl] at h
    | some s1 =>
      simp [hl] at h
      exact ih _ _ h (rankZero_objLine _ _ _ _ _ hl hz)

theorem rankZero_init : RankZero Loader.init := by
  intro d hd
  have : d = ObjData.new := by simpa [Loader.lodData, Loader.init] using hd
  subst this
  rfl

theorem rankZero_load (env : Env) (filename : Str) (s : Loader)
    (h : load env filename = some s) : RankZero s := by
  unfold load at h
  split at h
  · rename_i text _
    cases hl : objLoop env (workingDirectory filename) (splitLines text)
        { name := filename, lineNo := 0, type := [], params := [] } Loader.init with
    | none => simp [hl] at h
    | some s1 =>
      simp [hl] at h
      have h1 := rankZero_objLoop _ _ _ _ _ _ hl rankZero_init
      subst h
      split
      · exact rankZero_step (s := s1) ⟨rfl, rfl, rfl⟩ h1
      · exact h1
  · simp only [Option.some.injEq] at h
    subst h
    exact rankZero_step (s := Loader.init) ⟨rfl, rfl, rfl⟩ rankZero_init

/-- Claim C30. No line of the mesh file changes the recorded rank (`state.lod`) of a
pending context: if every pending context has the recorded rank 0 before a line, so it is
after it; hence it is so after any number of lines from the start, and when the reading
ends. Consequently an `lod` line with one integer parameter `R` inserts the new context,
which becomes active, before all the contexts it keeps when `R ≥ 0`, and after all of them
when `R < 0`; the contexts kept are the pending ones, without the active one if that holds
no position and no face index. -/
theorem C30_recorded_rank_is_never_set (env : Env) :
    (∀ (wd : Str) (file : File) (s t : Loader), objLine env wd file s = some t →
      (∀ d ∈ s.lodData, d.state.lod = 0) → ∀ d ∈ t.lodData, d.state.lod = 0) ∧
    (∀ (wd : Str) (lines : List Str) (file : File) (t : Loader),
      objLoop env wd lines file Loader.init = some t → ∀ d ∈ t.lodData, d.state.lod = 0) ∧
    (∀ (filename : Str) (s : Loader), load env filename = some s →
      ∀ d ∈ s.lodData, d.state.lod = 0) ∧
    (∀ (wd : Str) (file : File) (s : Loader) (R : Int), file.type = "lod".toList →
      readInts file.params = [R] → (∀ d ∈ s.lodData, d.state.lod = 0) →
      ∃ t, objLine env wd file s = some t ∧ t.currentLod = ObjData.new ∧
        (0 ≤ R → t.before = [] ∧
          t.after = (if s.currentLod.v.length = 0 ∧ s.currentLod.f.length = 0 then
            s.before ++ s.after else s.before ++ s.currentLod :: s.after)) ∧
        (R < 0 → t.after = [] ∧
          t.before = (if s.currentLod.v.length = 0 ∧ s.currentLod.f.length = 0 then
            s.before ++ s.after else s.before ++ s.currentLod :: s.after))) := by
  refine ⟨fun wd file s t h hz => rankZero_objLine env wd file s t h hz,
    fun wd lines file t h => rankZero_objLoop env wd lines file _ t h rankZero_init,
    fun filename s h => rankZero_load env filename s h, ?_⟩
  intro wd file s R ht hR hz
  obtain ⟨hb, hc, ha⟩ := handleLod_kept file s R hR
  have hk := kept_rankZero s hz
  refine ⟨handleLod file s, objLine_lod env wd file s ht, hc, fun h0 => ?_, fun h0 => ?_⟩
  · rw [hb, ha, lodSearch_front R h0 _ hk]
    exact ⟨rfl, rfl⟩
  · rw [hb, ha, lodSearch_end R h0 _ hk]
    exact ⟨rfl, rfl⟩

/-- Instance of C30: in a state whose one context holds a position, the line `lod 5` puts
the new context first and the line `lod -1` puts it last; the contexts of `sampleRanks`,
made by `lod 2` and `lod 1`, all have the recorded rank 0. -/
theorem C30_recorded_rank_is_never_set_witness :
    (∃ t, objLine sampleRanks [] { sampleLine " 5" with type := "lod".toList }
        (sampleLoader 1) = some t ∧
      t.lodData = [ObjData.new, (sampleLoader 1).currentLod]) ∧
    (∃ t, objLine sampleRanks [] { sampleLine " -1" with type := "lod".toList }
        (sampleLoader 1) = some t ∧
      t.lodData = [(sampleLoader 1).currentLod, ObjData.new]) ∧
    (∃ s, load sampleRanks "m.obj".toList = some s ∧ s.lodData.length = 3 ∧
      ∀ d ∈ s.lodData, d.state.lod = 0) := by
  refine ⟨?_, ?_, ?_⟩
  · obtain ⟨t, h1, h2, h3, _⟩ := (C30_recorded_rank_is_never_set sampleRanks).2.2.2 []
      { sampleLine " 5" with type := "lod".toList } (sampleLoader 1) 5 rfl (by decide)
      (by decide)
    obtain ⟨h4, h5⟩ := h3 (by decide)
    refine ⟨t, h1, ?_⟩
    unfold Loader.lodData
    rw [h4, h2, h5]
    decide
  · obtain ⟨t, h1, h2, _, h3⟩ := (C30_recorded_rank_is_never_set sampleRanks).2.2.2 []
      { sampleLine " -1" with type := "lod".toList } (sampleLoader 1) (-1) rfl (by decide)
      (by decide)
    obtain ⟨h4, h5⟩ := h3 (by decide)
    refine ⟨t, h1, ?_⟩
    unfold Loader.lodData
    rw [h4, h2, h5]
    decide
  · exact ⟨(load sampleRanks "m.obj".toList).get (by decide), by simp, by decide,
      (C30_recorded_rank_is_never_set sampleRanks).2.2.1 "m.obj".toList _ (by simp)⟩

/-! ### The parse cursor and the material file -/

theorem state_refl (s : Loader) : SameState s s := rfl

theorem state_trans {s t u : Loader} (h1 : SameState s t) (h2 : SameState t u) :
    SameState s u := Eq.trans h2 h1

theorem state_AddError (file : File) (m : Str) (s : Loader) :
    SameState s (AddError file m s) := rfl

theorem state_AddWarning (file : File) (m : Str) (s : Loader) :
    SameState s (AddWarning file m s) := rfl

theorem state_ReadParams {T : Type} (extract : Str → List T) (file : File) (a b : Int)
    (dv : T) (out : List T) (s : Loader) :
    SameState s (ReadParams extract file a b dv out s).2 := by
  unfold ReadParams
  dsimp only
  split
  · exact state_AddError _ _ _
  · exact state_refl _

theorem state_ReadParamsMin {T : Type} (extract : Str → List T) (file : File) (a : Int)
    (out : List T) (s : Loader) :
    SameState s (ReadParamsMin extract file a out s).2 := by
  unfold ReadParamsMin
  dsimp only
  split
  · exact state_AddError _ _ _
  · exact state_refl _

theorem stateOpt_ite {c : Prop} [Decidable c] {s : Loader} {a b : Option Loader}
    (ha : SameStateOpt s a) (hb : SameStateOpt s b) : SameStateOpt s (if c then a else b) := by
  split
  · exact ha
  · exact hb

theorem stateOpt_some {s t : Loader} (h : SameState s t) : SameStateOpt s (some t) := by
  intro u hu
  cases hu
  exact h

theorem stateOpt_trans {s t : Loader} {x : Option Loader} (h : SameState s t)
    (hx : SameStateOpt t x) : SameStateOpt s x :=
  fun u hu => state_trans h (hx u hu)

theorem stateOpt_setMtl (k : Nat) (fn : MTL → Option MTL) (s : Loader) :
    SameStateOpt s (setMtl k fn s) := by
  intro t h
  unfold setMtl at h
  split at h
  · simp at h
  · rename_i m _
    cases hm : fn m with
    | none => simp [hm] at h
    | some m1 =>
      simp [hm] at h
      subst h
      rfl

theorem stateOpt_readSet {T : Type} (extract : Str → List T) (file : File) (a b : Int)
    (dv : T) (out : List T) (s : Loader) (k : Nat) (fn : MTL → Option MTL) :
    SameStateOpt s (setMtl k fn (ReadParams extract file a b dv out s).2) :=
  stateOpt_trans (state_ReadParams _ _ _ _ _ _ _) (stateOpt_setMtl _ _ _)

theorem stateOpt_mtlColor (env : Env) (file : File) (k : Nat) (dv : F32)
    (get : MTL → List F32) (put : MTL → List F32 → MTL) (s : Loader) :
    SameStateOpt s (mtlColor env file k dv get put s) := by
  unfold mtlColor
  dsimp only
  exact stateOpt_ite (stateOpt_trans (state_ReadParams _ _ _ _ _ _ _) (stateOpt_setMtl _ _ _))
    (stateOpt_some (state_ReadParams _ _ _ _ _ _ _))

theorem stateOpt_mtlScalar (env : Env) (file : File) (k : Nat) (dv : F32)
    (put : MTL → F32 → MTL) (s : Loader) :
    SameStateOpt s (mtlScalar env file k dv put s) := by
  unfold mtlScalar
  dsimp only
  split
  · exact stateOpt_some (state_ReadParams _ _ _ _ _ _ _)
  · exact stateOpt_trans (state_ReadParams _ _ _ _ _ _ _) (stateOpt_setMtl _ _ _)

theorem stateOpt_mtlMap (env : Env) (file : File) (k : Nat) (put : MTL → Str → MTL)
    (s : Loader) : SameStateOpt s (mtlMap env file k put s) := by
  unfold mtlMap
  dsimp only
  exact stateOpt_ite (stateOpt_trans (state_ReadParamsMin _ _ _ _ _) (stateOpt_setMtl _ _ _))
    (stateOpt_some (state_ReadParamsMin _ _ _ _ _))

theorem stateOpt_mtlProperty (env : Env) (file : File) (k : Nat) (s : Loader) :
    SameStateOpt s (mtlProperty env file k s) := by
  unfold mtlProperty
  repeat' (with_reducible apply stateOpt_ite)
  all_goals first
    | with_reducible exact stateOpt_mtlColor _ _ _ _ _ _ _
    | with_reducible exact stateOpt_mtlScalar _ _ _ _ _ _
    | with_reducible exact stateOpt_mtlMap _ _ _ _ _
    | with_reducible exact stateOpt_readSet _ _ _ _ _ _ _ _ _
    | with_reducible exact stateOpt_some (state_ReadParams _ _ _ _ _ _ _)
    | skip
  · dsimp only
    split
    · exact stateOpt_some (state_ReadParams _ _ _ _ _ _ _)
    · exact stateOpt_trans (state_ReadParams _ _ _ _ _ _ _) (stateOpt_setMtl _ _ _)
  · split
    · exact stateOpt_some (state_refl _)
    · repeat' (with_reducible apply stateOpt_ite)
      · exact stateOpt_some (state_AddWarning _ _ _)
      · exact stateOpt_some (state_AddError _ _ _)
      · exact stateOpt_some (state_refl _)

theorem state_mtlOrphan (file : File) (s : Loader) : SameState s (mtlOrphan file s) := by
  rw [mtlOrphan_eq]
  rfl

theorem state_handleNewmtl (file : File) (s : Loader) :
    SameState s (handleNewmtl file s).2 := by
  unfold handleNewmtl
  dsimp only
  split
  · exact state_ReadParams _ _ _ _ _ _ _
  · split
    · exact state_trans (state_ReadParams _ _ _ _ _ _ _) rfl
    · exact state_trans (state_ReadParams _ _ _ _ _ _ _) (state_AddError _ _ _)

theorem state_mtlLine (env : Env) (file : File) (mtl : Option Nat) (s : Loader)
    (r : Option Nat × Loader) (h : mtlLine env file mtl s = some r) : SameState s r.2 := by
  unfold mtlLine at h
  split at h
  · cases h
    exact state_handleNewmtl _ _
  · split at h
    · rename_i k
      cases hp : mtlProperty env file k s with
      | none => simp [hp] at h
      | some t =>
        simp [hp] at h
        subst h
        exact stateOpt_mtlProperty env file k s t hp
    · cases h
      exact state_mtlOrphan _ _

theorem state_mtlLoop (env : Env) (lines : List Str) (file : File) (mtl : Option Nat)
    (s t : Loader) (h : mtlLoop env lines file mtl s = some t) : SameState s t := by
  induction lines generalizing file mtl s with
  | nil =>
    simp [mtlLoop] at h
    subst h
    exact state_refl _
  | cons line rest ih =>
    rw [mtlLoop] at h
    cases hl : mtlLine env (ReadLine file line) mtl s with
    | none => simp [hl] at h
    | some r =>
      simp [hl] at h
      exact state_trans (state_mtlLine _ _ _ _ _ hl) (ih _ _ _ h)

theorem state_openLoop (env : Env) (wd : Str) (file : File) (names : List Str) (s : Loader) :
    SameState s (openLoop env wd file names s).2 := by
  induction names generalizing s with
  | nil => exact state_refl _
  | cons it rest ih =>
    rw [openLoop]
    split
    · exact state_refl _
    · exact state_trans (state_AddWarning _ _ _) (ih _)

theorem state_handleMtllib (env : Env) (wd : Str) (file : File) (s t : Loader)
    (h : handleMtllib env wd file s = some t) : SameState s t := by
  unfold handleMtllib at h
  dsimp only at h
  have h1 := state_ReadParamsMin readStrings file 1 [] s
  have h2 := state_openLoop env wd file (ReadParamsMin readStrings file 1 [] s).1
    (ReadParamsMin readStrings file 1 [] s).2
  split at h
  · exact state_trans (state_trans h1 h2) (state_mtlLoop _ _ _ _ _ _ h)
  · cases h
    exact state_trans (state_trans h1 h2) (state_AddError _ _ _)

/-! ### The material indices of the pending contexts -/

theorem grows_length {s t : Loader} (h : Grows s t) :
    s.currentLod.newmtl.length ≤ t.currentLod.newmtl.length := by
  obtain ⟨extra, he⟩ := h.names
  have := congrArg List.length he
  simp only [ObjData.names, List.length_map, List.length_append] at this
  omega

theorem mtlOK_current {s t : Loader} (hs : AllMtlOK s) (hb : t.before = s.before)
    (ha : t.after = s.after) (hc : s.currentLod.MtlOK → t.currentLod.MtlOK) :
    AllMtlOK t := by
  have hcur : s.currentLod ∈ s.lodData := by simp [Loader.lodData]
  intro d hd
  simp only [Loader.lodData, List.mem_append, List.mem_cons, hb, ha] at hd
  rcases hd with hd | hd | hd
  · exact hs d (by simp [Loader.lodData, hd])
  · subst hd; exact hc (hs _ hcur)
  · exact hs d (by simp [Loader.lodData, hd])

theorem mtlOK_keep {s t : Loader} (hs : AllMtlOK s) (hb : t.before = s.before)
    (ha : t.after = s.after) (hst : t.currentLod.state.usemtl = s.currentLod.state.usemtl)
    (hu : t.currentLod.usemtl = s.currentLod.usemtl)
    (hn : s.currentLod.newmtl.length ≤ t.currentLod.newmtl.length) : AllMtlOK t := by
  refine mtlOK_current hs hb ha ?_
  intro hc
  unfold ObjData.MtlOK at hc ⊢
  rw [hst, hu]
  refine ⟨⟨hc.1.1, by omega⟩, fun x hx => ⟨(hc.2 x hx).1, ?_⟩⟩
  have := (hc.2 x hx).2
  omega

theorem mtlOK_frame {s t : Loader} (hf : Frame s t) (hg : Grows s t) (hst : SameState s t)
    (hs : AllMtlOK s) : AllMtlOK t :=
  mtlOK_keep hs hf.before hf.after (by rw [hst]) hf.usemtl (grows_length hg)

theorem findMtl_range (name : Str) : ∀ (l : List MTL) (i0 i : Int),
    findMtl name l i0 = some i → i0 ≤ i ∧ i < i0 + (l.length : Int)
  | [], _, _, h => by simp [findMtl] at h
  | m :: rest, i0, i, h => by
    rw [findMtl] at h
    split at h
    · simp only [Option.some.injEq] at h
      subst h
      simp only [List.length_cons]
      omega
    · have := findMtl_range name rest (i0 + 1) i h
      simp only [List.length_cons]
      omega

theorem mtlOK_handleUsemtl (file : File) (s t : Loader)
    (h : handleUsemtl file s = some t) (hs : AllMtlOK s) : AllMtlOK t := by
  unfold handleUsemtl at h
  dsimp only at h
  have hf := frame_ReadParams readStrings file 1 1 [] [] s
  have hg := grows_ReadParams readStrings file 1 1 [] [] s
  have hst := state_ReadParams readStrings file 1 1 [] [] s
  have hr := mtlOK_frame hf hg hst hs
  split at h
  · simp at h
  · split at h
    · rename_i i hi
      cases h
      have hrange := findMtl_range _ _ _ _ hi
      have h1 : (-1 : Int) ≤ i := by omega
      have h2 : i < ((ReadParams readStrings file 1 1 [] [] s).2.currentLod.newmtl.length :
          Int) := by omega
      refine mtlOK_current hr rfl rfl ?_
      intro hc
      unfold ObjData.MtlOK at hc ⊢
      exact ⟨⟨h1, h2⟩, hc.2⟩
    · cases h
      refine mtlOK_current hr rfl rfl ?_
      intro hc
      unfold ObjData.MtlOK at hc ⊢
      refine ⟨⟨le_refl _, ?_⟩, hc.2⟩
      show (-1 : Int) < _
      have : (0 : Int) ≤
          ((ReadParams readStrings file 1 1 [] [] s).2.currentLod.newmtl.length : Int) :=
        Int.natCast_nonneg _
      exact lt_of_lt_of_le (by decide) this

theorem mtlOK_handleF (file : File) (s t : Loader) (h : handleF file s = some t)
    (hs : AllMtlOK s) : AllMtlOK t := by
  by_cases hn : (groupsOf file).length < 3
  · rw [handleF_few file s hn] at h
    cases h
    exact mtlOK_keep hs rfl rfl rfl rfl (le_refl _)
  · by_cases hu : Uniform (triplesOf file s)
    · rw [handleF_uniform file s (by omega) hu] at h
      cases h
      refine mtlOK_current hs rfl rfl ?_
      intro hc
      unfold ObjData.MtlOK at hc ⊢
      refine ⟨hc.1, ?_⟩
      intro x hx
      show -1 ≤ x ∧ x < (s.currentLod.newmtl.length : Int)
      have hx' : x ∈ s.currentLod.usemtl ++
          List.replicate ((groupsOf file).length - 2) s.currentLod.state.usemtl := hx
      rcases List.mem_append.mp hx' with hx' | hx'
      · exact hc.2 x hx'
      · rw [(List.mem_replicate.mp hx').2]
        exact hc.1
    · rw [handleF_mismatch file s (by omega) hu] at h
      cases h
      exact mtlOK_keep hs rfl rfl rfl rfl (le_refl _)

theorem mtlOK_new : ObjData.new.MtlOK := by decide

theorem mtlOK_handleLod (file : File) (s : Loader) (hs : AllMtlOK s) :
    AllMtlOK (handleLod file s) := by
  by_cases h1 : (readInts file.params).length = 1
  · obtain ⟨R, hR⟩ := List.length_eq_one.mp h1
    obtain ⟨hb, hc, ha⟩ := handleLod_kept file s R hR
    have hk : ∀ d ∈ keptContexts s, d.MtlOK := by
      intro d hd
      unfold keptContexts at hd
      split at hd
      · apply hs d
        unfold Loader.lodData
        rcases List.mem_append.mp hd with hd | hd
        · simp [hd]
        · simp [hd]
      · exact hs d hd
    intro d hd
    unfold Loader.lodData at hd
    rw [hb, hc, ha] at hd
    rcases List.mem_append.mp hd with hd | hd
    · exact hk d (by rw [← lodSearch_append R (keptContexts s)]; simp [hd])
    · rcases List.mem_cons.mp hd with hd | hd
      · subst hd
        exact mtlOK_new
      · exact hk d (by rw [← lodSearch_append R (keptContexts s)]; simp [hd])
  · rw [handleLod_other file s h1]
    exact mtlOK_keep hs rfl rfl rfl rfl (le_refl _)

theorem handleOther_currentLod (file : File) (s : Loader) :
    (handleOther file s).currentLod = s.currentLod := by
  unfold handleOther
  split
  · rfl
  · split
    · split
      · rfl
      · rfl
    · rfl

theorem mtlOK_objLine (env : Env) (wd : Str) (file : File) (s t : Loader)
    (h : objLine env wd file s = some t) (hs : AllMtlOK s) : AllMtlOK t := by
  unfold objLine at h
  split at h
  · cases h
    exact mtlOK_keep hs rfl rfl rfl rfl (le_refl _)
  split at h
  · cases h
    have hf := frame_ReadParams env.readFloats file (Step_v - 1 : Nat) Step_v f1_0
      s.currentLod.v s
    have hg := grows_ReadParams env.readFloats file (Step_v - 1 : Nat) Step_v f1_0
      s.currentLod.v s
    have hst := state_ReadParams env.readFloats file (Step_v - 1 : Nat) Step_v f1_0
      s.currentLod.v s
    have hl := grows_length hg
    exact mtlOK_keep hs hf.before hf.after (by rw [← hst]) hf.usemtl hl
  split at h
  · cases h
    have hf := frame_ReadParams env.readFloats file (Step_vt - 2 : Nat) Step_vt f0_0
      s.currentLod.vt s
    have hg := grows_ReadParams env.readFloats file (Step_vt - 2 : Nat) Step_vt f0_0
      s.currentLod.vt s
    have hst := state_ReadParams env.readFloats file (Step_vt - 2 : Nat) Step_vt f0_0
      s.currentLod.vt s
    have hl := grows_length hg
    exact mtlOK_keep hs hf.before hf.after (by rw [← hst]) hf.usemtl hl
  split at h
  · cases h
    have hf := frame_ReadParams env.readFloats file Step_vn Step_vn f0_0 s.currentLod.vn s
    have hg := grows_ReadParams env.readFloats file Step_vn Step_vn f0_0 s.currentLod.vn s
    have hst := state_ReadParams env.readFloats file Step_vn Step_vn f0_0 s.currentLod.vn s
    have hl := grows_length hg
    exact mtlOK_keep hs hf.before hf.after (by rw [← hst]) hf.usemtl hl
  split at h
  · exact mtlOK_handleF _ _ _ h hs
  split at h
  · cases h
    exact mtlOK_keep hs rfl rfl rfl rfl (le_refl _)
  split at h
  · exact mtlOK_handleUsemtl _ _ _ h hs
  split at h
  · exact mtlOK_frame (frame_handleMtllib _ _ _ _ _ h) (grows_handleMtllib _ _ _ _ _ h)
      (state_handleMtllib _ _ _ _ _ h) hs
  split at h
  · cases h
    exact mtlOK_keep hs rfl rfl rfl rfl (le_refl _)
  split at h
  · cases h
    exact mtlOK_handleLod _ _ hs
  · cases h
    have hg := grows_handleOther file s
    have he := handleOther_currentLod file s
    exact mtlOK_keep hs hg.before hg.after (by rw [he]) (by rw [he]) (by rw [he])

theorem mtlOK_objLoop (env : Env) (wd : Str) (lines : List Str) (file : File)
    (s t : Loader) (h : objLoop env wd lines file s = some t) (hs : AllMtlOK s) :
    AllMtlOK t := by
  induction lines generalizing file s with
  | nil =>
    simp [objLoop] at h
    subst h
    exact hs
  | cons line rest ih =>
    rw [objLoop] at h
    cases hl : objLine env wd (ReadLine file line) s with
    | none => simp [hl] at h
    | some s1 =>
      simp [hl] at h
      exact ih _ _ h (mtlOK_objLine _ _ _ _ _ hl hs)

theorem mtlOK_init : AllMtlOK Loader.init := by
  intro d hd
  have : d = ObjData.new := by simpa [Loader.lodData, Loader.init] using hd
  subst this
  exact mtlOK_new

theorem mtlOK_load (env : Env) (filename : Str) (s : Loader)
    (h : load env filename = some s) : AllMtlOK s := by
  unfold load at h
  split at h
  · rename_i text _
    cases hl : objLoop env (workingDirectory filename) (splitLines text)
        { name := filename, lineNo := 0, type := [], params := [] } Loader.init with
    | none => simp [hl] at h
    | some s1 =>
      simp [hl] at h
      have h1 := mtlOK_objLoop _ _ _ _ _ _ hl mtlOK_init
      subst h
      split
      · exact mtlOK_keep (s := s1) h1 rfl rfl rfl rfl (le_refl _)
      · exact h1
  · simp only [Option.some.injEq] at h
    subst h
    exact mtlOK_keep (s := Loader.init) mtlOK_init rfl rfl rfl rfl (le_refl _)

theorem chain_usemtl (env : Env) (filename : Str) (obj : OBJ)
    (hnew : OBJ.new env filename = some obj) (d : ObjFields) (hd : d ∈ obj.chain)
    (u : List Int) (hu : d.usemtl = some u) (x : Int) (hx : x ∈ u) :
    x = -1 ∨ (0 ≤ x ∧ x < d.num_newmtl ∧
      ∃ n, d.newmtl = some n ∧ d.num_newmtl = (n.length : Int)) := by
  unfold OBJ.new at hnew
  cases hload : load env filename with
  | none => simp [hload] at hnew
  | some s =>
    rw [hload] at hnew
    simp only [Option.some_bind, Option.bind_eq_bind] at hnew
    have hinv := inv_load env filename s hload
    have hok := mtlOK_load env filename s hload
    by_cases he : s.errors.length = 0
    · rw [if_pos he] at hnew
      cases hl : s.lodData with
      | nil => simp [Loader.lodData] at hl
      | cons c rest =>
        rw [hl] at hnew
        have hall : ∀ y ∈ c :: rest, y.Shaped := by
          intro y hy
          exact hinv.1 y (by rw [hl]; exact hy)
        obtain ⟨obj1, h1, h2, _⟩ := materializeLoop_spec filename s.o rest
          { ObjFields.init filename with o := s.o, errors := s.errors, warnings := s.warnings }
          c hall
        simp only [] at hnew
        rw [h1] at hnew
        cases hnew
        obtain ⟨ctx, hctx, hs⟩ := forall₂_mem_right h2 d hd
        have hc := hok ctx (by rw [hl]; exact hctx)
        obtain ⟨_, _, _, en, _, eu, _, _, _, _, nn, _⟩ := hs
        rw [eu] at hu
        cases hu
        have hr := hc.2 x hx
        rw [nn]
        by_cases hm : x = -1
        · exact Or.inl hm
        · exact Or.inr ⟨by omega, hr.2, _, en, rfl⟩
    · rw [if_neg he] at hnew
      cases hnew
      simp only [OBJ.chain, List.mem_singleton] at hd
      subst hd
      simp [ObjFields.init] at hu

/-- Claim C31. In every pending context the active material index and every entry of the
list `usemtl` are at least `-1` and below the number of materials of the context
(`MtlOK`): a line of the mesh file keeps this, a line of a material file keeps it, hence it
holds after any number of lines from the start and when the reading ends. In every object
of the chain that the constructor builds, every element of the array `usemtl` is `-1` or a
valid index into the array `newmtl` of the same object. -/
theorem C31_material_indices_in_range (env : Env) :
    (∀ (wd : Str) (file : File) (s t : Loader), (∀ d ∈ s.lodData, d.MtlOK) →
      objLine env wd file s = some t →
      ∀ d ∈ t.lodData, (-1 ≤ d.state.usemtl ∧ d.state.usemtl < (d.newmtl.length : Int)) ∧
        ∀ x ∈ d.usemtl, -1 ≤ x ∧ x < (d.newmtl.length : Int)) ∧
    (∀ (file : File) (mtl : Option Nat) (s : Loader) (r : Option Nat × Loader),
      (∀ d ∈ s.lodData, d.MtlOK) → mtlLine env file mtl s = some r →
      ∀ d ∈ r.2.lodData,
        (-1 ≤ d.state.usemtl ∧ d.state.usemtl < (d.newmtl.length : Int)) ∧
        ∀ x ∈ d.usemtl, -1 ≤ x ∧ x < (d.newmtl.length : Int)) ∧
    (∀ (wd : Str) (lines : List Str) (file : File) (t : Loader),
      objLoop env wd lines file Loader.init = some t →
      ∀ d ∈ t.lodData, (-1 ≤ d.state.usemtl ∧ d.state.usemtl < (d.newmtl.length : Int)) ∧
        ∀ x ∈ d.usemtl, -1 ≤ x ∧ x < (d.newmtl.length : Int)) ∧
    (∀ (filename : Str) (s : Loader), load env filename = some s →
      ∀ d ∈ s.lodData, (-1 ≤ d.state.usemtl ∧ d.state.usemtl < (d.newmtl.length : Int)) ∧
        ∀ x ∈ d.usemtl, -1 ≤ x ∧ x < (d.newmtl.length : Int)) ∧
    (∀ (filename : Str) (obj : OBJ), OBJ.new env filename = some obj →
      ∀ d ∈ obj.chain, ∀ u, d.usemtl = some u → ∀ x ∈ u,
        x = -1 ∨ (0 ≤ x ∧ x < d.num_newmtl ∧
          ∃ n, d.newmtl = some n ∧ d.num_newmtl = (n.length : Int))) :=
  ⟨fun wd file s t hs h => mtlOK_objLine env wd file s t h hs,
    fun file mtl s r hs h => mtlOK_frame (frame_mtlLine env file mtl s r h)
      (grows_mtlLine env file mtl s r h) (state_mtlLine env file mtl s r h) hs,
    fun wd lines file t h => mtlOK_objLoop env wd lines file _ t h mtlOK_init,
    fun filename s h => mtlOK_load env filename s h,
    fun filename obj h d hd u hu x hx => chain_usemtl env filename obj h d hd u hu x hx⟩

/-- Instance of C31: in the mesh file of `sampleStamps` the triangles are stamped with the
indices `-1`, `1` and `-1` over two materials, and the active index ends at `-1`; the line
`usemtl blue` over the materials `red` and `blue` keeps the indices in range; the object of
`sampleStamped` holds the material indices `-1` and `1` and two materials. -/
theorem C31_material_indices_in_range_witness :
    (∃ s, load sampleStamps "m.obj".toList = some s ∧
      s.lodData.map (fun d => (d.usemtl, d.state.usemtl, d.newmtl.length)) =
        [([-1, 1, -1], -1, 2)] ∧
      ∀ d ∈ s.lodData, (-1 ≤ d.state.usemtl ∧ d.state.usemtl < (d.newmtl.length : Int)) ∧
        ∀ x ∈ d.usemtl, -1 ≤ x ∧ x < (d.newmtl.length : Int)) ∧
    (∃ t, objLine sampleStamps [] { sampleLine " blue" with type := "usemtl".toList }
        sampleMaterials = some t ∧ t.currentLod.state.usemtl = 1 ∧
      ∀ d ∈ t.lodData, (-1 ≤ d.state.usemtl ∧ d.state.usemtl < (d.newmtl.length : Int)) ∧
        ∀ x ∈ d.usemtl, -1 ≤ x ∧ x < (d.newmtl.length : Int)) ∧
    (∃ obj, OBJ.new sampleStamped "m.obj".toList = some obj ∧
      obj.d.usemtl = some [-1, 1] ∧ obj.d.num_newmtl = 2 ∧
      ((1 : Int) = -1 ∨ (0 ≤ (1 : Int) ∧ (1 : Int) < obj.d.num_newmtl ∧
        ∃ n, obj.d.newmtl = some n ∧ obj.d.num_newmtl = (n.length : Int)))) := by
  refine ⟨?_, ?_, ?_⟩
  · exact ⟨(load sampleStamps "m.obj".toList).get (by decide), by simp, by decide,
      (C31_material_indices_in_range sampleStamps).2.2.2.1 "m.obj".toList _ (by simp)⟩
  · exact ⟨(objLine sampleStamps [] { sampleLine " blue" with type := "usemtl".toList }
        sampleMaterials).get (by decide), by simp, by decide,
      (C31_material_indices_in_range sampleStamps).1 []
        { sampleLine " blue" with type := "usemtl".toList } sampleMaterials _ (by decide)
        (by simp)⟩
  · exact ⟨(OBJ.new sampleStamped "m.obj".toList).get (by decide), by simp, by decide,
      by decide,
      (C31_material_indices_in_range sampleStamped).2.2.2.2 "m.obj".toList
        ((OBJ.new sampleStamped "m.obj".toList).get (by decide)) (by simp)
        ((OBJ.new sampleStamped "m.obj".toList).get (by decide)).d (by decide) [-1, 1]
        (by decide) 1 (by decide)⟩

end WavefrontOBJ
